import Mathlib

/-!
# ImageProcessing filters: a verification development

A shallow embedding of the filter code in `ImageProcessingFilters/`.

The filters are adapters around the ITK image library and the SIMPLib data
structure.  Code that lives in those libraries is not part of the sources; it
appears here either as a parameter (`ItkStages`, `SimplCodes`) or as a small
model of the library call that the filter configures (pixel access, buffer
filling, the inversion, masking and binary threshold functors, the attribute
matrix as a map from names to arrays).  The marker-controlled watershed is
also given as the priority flood that the specification describes.

Pixel values of type `float` are kept abstract: the definitions are generic
in the pixel type `F`, and arithmetic facts are proved for every linearly
ordered additive group.  Unsigned 32-bit labels are natural numbers, reduced
modulo `2 ^ 32` where the source converts a wider integer.  The samples of
the integer pixel types are integers, converted to the range of the type where
the source converts (`ScalarType.cast`).  The `float` arithmetic of `scaleArray2` is
followed with integers for the element types of 8 and 16 bits, for which it is
exact; for the wider element types the values it writes are a parameter.
-/

namespace ImageProcessing

/-! ## Images -/

/-- Pixel coordinate, the model of `itk::Index<3>`; the components of an index
inside an image are non-negative, so they are natural numbers here. -/
structure Index3 where
  x : Nat
  y : Nat
  z : Nat
deriving DecidableEq, Repr

/-- Extent of an image, the model of the size of an `itk::ImageRegion<3>`; the
wrapped data arrays always start at index `(0, 0, 0)`. -/
structure Region where
  sx : Nat
  sy : Nat
  sz : Nat
deriving DecidableEq, Repr

/-- Number of voxels of a region. -/
def Region.numberOfPixels (r : Region) : Nat := r.sx * r.sy * r.sz

/-- Whether an index lies inside the region (`ImageRegion::IsInside`). -/
def Region.isInside (r : Region) (i : Index3) : Prop :=
  i.x < r.sx ∧ i.y < r.sy ∧ i.z < r.sz

instance (r : Region) (i : Index3) : Decidable (r.isInside i) := by
  unfold Region.isInside
  exact inferInstance

/-- Linear offset of an index, fastest-varying axis first
(`ImageBase::ComputeOffset` with a zero start index). -/
def Region.computeOffset (r : Region) (i : Index3) : Nat :=
  i.x + r.sx * (i.y + r.sy * i.z)

/-- An image: its region and its pixel buffer. -/
structure Image (α : Type) where
  region : Region
  buffer : List α
deriving DecidableEq, Repr

/-- Allocation followed by `FillBuffer(v)`: a buffer of `numberOfPixels` copies
of `v`. -/
def Image.fillBuffer {α : Type} (r : Region) (v : α) : Image α :=
  ⟨r, List.replicate r.numberOfPixels v⟩

/-- Model of `Image::SetPixel(index, value)`: writes the buffer at the index's offset. -/
def Image.setPixel {α : Type} (img : Image α) (i : Index3) (v : α) : Image α :=
  { img with buffer := img.buffer.set (img.region.computeOffset i) v }

/-- Model of `Image::GetPixel(index)`: reads the buffer at the index's offset; `none`
when the offset is outside the buffer. -/
def Image.getPixel {α : Type} (img : Image α) (i : Index3) : Option α :=
  img.buffer[img.region.computeOffset i]?

/-- Value of the voxel with linear offset `v`. -/
def Image.voxel {α : Type} (img : Image α) (v : Nat) : Option α :=
  img.buffer[v]?

/-! ## The seed label image (`ItkBinaryWatershedLabeled::execute`, lines 165-176) -/

/-- Labels are `uint32_t`; the loop counter is a `size_t`, so the value
`i + 1` is converted to 32 bits on the way into `SetPixel`. -/
def toUInt32 (n : Nat) : Nat := n % 2 ^ 32

/-- The loop `for (i = 0; i < peakLocations.size(); i++)
seedLabels->SetPixel(peakLocations[i], i + 1)`, started at counter `i`. -/
def seedLoop (img : Image Nat) : List Index3 → Nat → Image Nat
  | [], _ => img
  | p :: ps, i => seedLoop (img.setPixel p (toUInt32 (i + 1))) ps (i + 1)

/-- The seed image: the region of the input image, filled with 0, then one
label per peak. -/
def seedLabels (region : Region) (peaks : List Index3) : Image Nat :=
  seedLoop (Image.fillBuffer region 0) peaks 0

/-- A row of `2 ^ 32` voxels. -/
def wrapRegion : Region := ⟨2 ^ 32, 1, 1⟩

/-- Every voxel of `wrapRegion`, in order: `2 ^ 32` distinct peaks. -/
def wrapPeaks : List Index3 := (List.range (2 ^ 32)).map (fun i => ⟨i, 0, 0⟩)

/-- A small grid and two peaks in it. -/
def demoRegion : Region := ⟨2, 2, 1⟩

/-- Two distinct peaks of `demoRegion`. -/
def demoPeaks : List Index3 := [⟨1, 1, 0⟩, ⟨0, 1, 0⟩]

/-! ## The pointwise ITK functors configured by the filter -/

/-- Modelled from the spec: the functor of `itk::InvertIntensityImageFilter`,
which is not part of the sources; section 4.5 step 4 gives the flooding surface
as `maximum - distance`, and the filter sets the maximum with `SetMaximum`. -/
def invertIntensity {F : Type} [Sub F] (maximum : F) (img : Image F) : Image F :=
  { img with buffer := img.buffer.map (fun x => maximum - x) }

/-- Modelled from the spec: the functor of `itk::MaskImageFilter`, which is not
part of the sources; section 4.5 step 6 keeps the label where the mask is true
and writes 0 (the default outside value) where it is false.  The output has the
region of the first input. -/
def maskImageFilter (labels : Image Nat) (mask : Image Bool) : Image Nat :=
  { region := labels.region
    buffer := List.zipWith (fun a b => if b then a else 0) labels.buffer mask.buffer }

/-! ## The SIMPLib data structure

The data container array, its containers, attribute matrices and arrays are
SIMPLib objects.  Only what the filters read and write is kept: names, the
image geometry, tuple counts, component dimensions and array contents. -/

/-- A data array: a `DataArray<bool>`, a `DataArray<uint32_t>`, or an array of
any other element type (named by its type string). -/
inductive DataArray where
  | bool (compDims : List Nat) (data : List Bool)
  | uint32 (compDims : List Nat) (data : List Nat)
  | other (typeName : String) (compDims : List Nat) (data : List Int)
deriving DecidableEq, Repr

/-- Number of tuples held by an array. -/
def DataArray.getNumberOfTuples : DataArray → Nat
  | .bool _ d => d.length
  | .uint32 _ d => d.length
  | .other _ _ d => d.length

/-- An attribute matrix: a name, a tuple count and its named arrays. -/
structure AttributeMatrix where
  name : String
  numTuples : Nat
  arrays : List (String × DataArray)
deriving DecidableEq, Repr

/-- The geometry of a data container: an `ImageGeom` with its dimensions, or a
geometry of another kind. -/
inductive Geometry where
  | image (dims : Region)
  | other
deriving DecidableEq, Repr

/-- A data container: a name, possibly a geometry, and attribute matrices. -/
structure DataContainer where
  name : String
  geometry : Option Geometry
  attributeMatrices : List AttributeMatrix
deriving DecidableEq, Repr

/-- The data container array, the store the filters work on. -/
abbrev DataContainerArray := List DataContainer

/-- A path to an array: container, attribute matrix and array names. -/
structure DataArrayPath where
  dataContainerName : String
  attributeMatrixName : String
  dataArrayName : String
deriving DecidableEq, Repr

/-- Model of `DataArrayPath::isValid`: none of the three names is empty. -/
def DataArrayPath.isValid (p : DataArrayPath) : Bool :=
  !(p.dataContainerName == "") && !(p.attributeMatrixName == "") && !(p.dataArrayName == "")

/-- Model of `DataContainerArray::getDataContainer(name)`. -/
def getDataContainer (dca : DataContainerArray) (name : String) : Option DataContainer :=
  dca.find? (fun dc => dc.name == name)

/-- Model of `DataContainer::getAttributeMatrix(name)`. -/
def DataContainer.getAttributeMatrix (dc : DataContainer) (name : String) :
    Option AttributeMatrix :=
  dc.attributeMatrices.find? (fun am => am.name == name)

/-- Model of `AttributeMatrix::getAttributeArray(name)`. -/
def AttributeMatrix.getAttributeArray (am : AttributeMatrix) (name : String) :
    Option DataArray :=
  (am.arrays.find? (fun a => a.1 == name)).map Prod.snd

/-- The array stored under a path, if any. -/
def getArrayFromPath (dca : DataContainerArray) (p : DataArrayPath) : Option DataArray :=
  match getDataContainer dca p.dataContainerName with
  | none => none
  | some dc =>
    match dc.getAttributeMatrix p.attributeMatrixName with
    | none => none
    | some am => am.getAttributeArray p.dataArrayName

/-- Applies `f` to the first element that satisfies `p`. -/
def modifyFirst {α : Type} (p : α → Bool) (f : α → α) : List α → List α
  | [] => []
  | a :: as => if p a then f a :: as else a :: modifyFirst p f as

/-- Applies `f` to the attribute matrix `amName` of the container `dcName`. -/
def modifyAttributeMatrix (dca : DataContainerArray) (dcName amName : String)
    (f : AttributeMatrix → AttributeMatrix) : DataContainerArray :=
  modifyFirst (fun dc => dc.name == dcName)
    (fun dc => { dc with
      attributeMatrices := modifyFirst (fun am => am.name == amName) f dc.attributeMatrices })
    dca

/-- The ways in which a SIMPLib request of `dataCheck` can fail. -/
inductive SimplFailure where
  | invalidPath
  | missingDataContainer
  | missingAttributeMatrix
  | missingArray
  | wrongArrayType
  | wrongComponentDims
  | missingGeometry
  | wrongGeometryType
  | arrayAlreadyExists
deriving DecidableEq, Repr

/-- The error conditions SIMPLib sets for each failure.  Their values are
defined in SIMPLib, outside the sources; all of them are negative. -/
structure SimplCodes where
  code : SimplFailure → Int
  code_neg : ∀ k, code k < 0

/-- Model of `getPrereqArrayFromPath<DataArray<bool>>(filter, path, cDims)`: the contents
of the bool array under `path`, or the error condition set on the filter. -/
def getPrereqBoolArrayFromPath (codes : SimplCodes) (dca : DataContainerArray)
    (path : DataArrayPath) (cDims : List Nat) : Except Int (List Bool) :=
  if !path.isValid then .error (codes.code .invalidPath) else
  match getDataContainer dca path.dataContainerName with
  | none => .error (codes.code .missingDataContainer)
  | some dc =>
    match dc.getAttributeMatrix path.attributeMatrixName with
    | none => .error (codes.code .missingAttributeMatrix)
    | some am =>
      match am.getAttributeArray path.dataArrayName with
      | none => .error (codes.code .missingArray)
      | some (.bool dims data) =>
        if dims = cDims then .ok data else .error (codes.code .wrongComponentDims)
      | some _ => .error (codes.code .wrongArrayType)

/-- Model of `DataContainer::getPrereqGeometry<ImageGeom>(filter)`: the dimensions of the
image geometry, or the error condition set on the filter. -/
def DataContainer.getPrereqImageGeometry (codes : SimplCodes) (dc : DataContainer) :
    Except Int Region :=
  match dc.geometry with
  | none => .error (codes.code .missingGeometry)
  | some .other => .error (codes.code .wrongGeometryType)
  | some (.image dims) => .ok dims

/-- Model of `createNonPrereqArrayFromPath<DataArray<uint32_t>>(filter, path, 0, cDims)`:
adds a new array named by `path`, with the tuple count of its attribute matrix
and every value equal to the initial value, or sets an error condition and
leaves the store as it is. -/
def createNonPrereqUInt32ArrayFromPath (codes : SimplCodes) (dca : DataContainerArray)
    (path : DataArrayPath) (initValue : Nat) (cDims : List Nat) :
    Except Int DataContainerArray :=
  if !path.isValid then .error (codes.code .invalidPath) else
  match getDataContainer dca path.dataContainerName with
  | none => .error (codes.code .missingDataContainer)
  | some dc =>
    match dc.getAttributeMatrix path.attributeMatrixName with
    | none => .error (codes.code .missingAttributeMatrix)
    | some am =>
      match am.getAttributeArray path.dataArrayName with
      | some _ => .error (codes.code .arrayAlreadyExists)
      | none =>
        .ok (modifyAttributeMatrix dca path.dataContainerName path.attributeMatrixName
          (fun m => { m with
            arrays := m.arrays ++
              [(path.dataArrayName, .uint32 cDims (List.replicate m.numTuples initValue))] }))

/-- Rewrites the contents of a `uint32` array with `g`; other arrays are kept. -/
def DataArray.mapUInt32 (g : List Nat → List Nat) : DataArray → DataArray
  | .uint32 dims d => .uint32 dims (g d)
  | a => a

/-- Rewrites the contents of the `uint32` array under `path` with `g`. -/
def modifyUInt32ArrayData (dca : DataContainerArray) (path : DataArrayPath)
    (g : List Nat → List Nat) : DataContainerArray :=
  modifyAttributeMatrix dca path.dataContainerName path.attributeMatrixName
    (fun m => { m with
      arrays := modifyFirst (fun a => a.1 == path.dataArrayName)
        (fun a => (a.1, a.2.mapUInt32 g)) m.arrays })

/-- Every array of every attribute matrix has the tuple count of its attribute
matrix (the invariant SIMPLib keeps for the arrays of an attribute matrix). -/
def TuplesConsistent (dca : DataContainerArray) : Prop :=
  ∀ dc ∈ dca, ∀ am ∈ dc.attributeMatrices, ∀ a ∈ am.arrays,
    a.2.getNumberOfTuples = am.numTuples

/-! ## The ITK stages -/

/-- What an ITK filter leaves behind after `Update()`: its output image and,
when the update threw an `itk::ExceptionObject`, the description it carried. -/
structure UpdateResult (α : Type) where
  output : Image α
  exception : Option String

/-- The stages implemented outside the sources, each taken as a function:
`itk::SignedMaurerDistanceMapImageFilter` (argument: `InsideIsPositive`),
`ImageProcessing::LocalMaxima::Find` (arguments: image, tolerance, strictness on
plateaus) and `itk::MorphologicalWatershedFromMarkersImageFilter` (arguments:
elevation, markers, `MarkWatershedLine`). -/
structure ItkStages (F : Type) where
  signedMaurerDistanceMap : Bool → Image Bool → UpdateResult F
  localMaximaFind : Image F → F → Bool → List Index3
  morphologicalWatershedFromMarkers : Image F → Image Nat → Bool → UpdateResult Nat

/-- The stages of the watershed pipeline, as recorded in the execution trace. -/
inductive Stage where
  | distanceMap
  | localMaxima
  | seedLabels
  | invert
  | watershed
  | mask
deriving DecidableEq, Repr

/-! ## `ItkBinaryWatershedLabeled` -/

/-- The parameters of the filter. -/
structure ItkBinaryWatershedLabeled (F : Type) where
  selectedCellArrayPath : DataArrayPath
  peakTolerance : F
  newCellArrayName : String

/-- The filter after `dataCheck` or `execute`: error and warning conditions, the
store, the error messages `execute` itself sent with `notifyErrorMessage` (each
with its code), the status messages, and the stages that ran, in order. -/
structure FilterState where
  errorCondition : Int
  warningCondition : Int
  store : DataContainerArray
  errorMessages : List (Int × String)
  statusMessages : List String
  trace : List Stage
deriving DecidableEq, Repr

/-- The filter after `dataCheck`: the conditions, the store, and the two
members `m_SelectedCellArray` (the input data) and `m_NewCellArrayPtr` (the
path of the created array), `none` while they are null. -/
structure DataCheckResult where
  errorCondition : Int
  warningCondition : Int
  store : DataContainerArray
  selectedCellArray : Option (List Bool)
  newCellArray : Option DataArrayPath
deriving DecidableEq, Repr

namespace ItkBinaryWatershedLabeled

variable {F : Type}

/-- The path `tempPath` of the created array: container and attribute matrix of
the selected array, and the name `NewCellArrayName`. -/
def newCellArrayPath (f : ItkBinaryWatershedLabeled F) : DataArrayPath :=
  { dataContainerName := f.selectedCellArrayPath.dataContainerName
    attributeMatrixName := f.selectedCellArrayPath.attributeMatrixName
    dataArrayName := f.newCellArrayName }

/-- The function `ItkBinaryWatershedLabeled::dataCheck` (lines 85-104). -/
def dataCheck (codes : SimplCodes) (f : ItkBinaryWatershedLabeled F)
    (dca : DataContainerArray) : DataCheckResult :=
  -- setErrorCondition(0); setWarningCondition(0);
  match getPrereqBoolArrayFromPath codes dca f.selectedCellArrayPath [1] with
  | .error e => ⟨e, 0, dca, none, none⟩
  | .ok sel =>
    match getDataContainer dca f.selectedCellArrayPath.dataContainerName with
    | none =>
      -- not reached: the request above found the container
      ⟨codes.code .missingDataContainer, 0, dca, some sel, none⟩
    | some dc =>
      match dc.getPrereqImageGeometry codes with
      | .error e => ⟨e, 0, dca, some sel, none⟩
      | .ok _ =>
        match createNonPrereqUInt32ArrayFromPath codes dca f.newCellArrayPath 0 [1] with
        | .error e => ⟨e, 0, dca, some sel, none⟩
        | .ok dca2 => ⟨0, 0, dca2, some sel, some f.newCellArrayPath⟩

/-- Model of `ItkBridge<bool>::CreateItkWrapperForDataPointer`: the image whose region
is given by the dimensions of the container's image geometry and whose buffer
is the data of the array. -/
def createItkWrapperForDataPointer (m : DataContainer) (data : List Bool) : Image Bool :=
  match m.geometry with
  | some (.image dims) => ⟨dims, data⟩
  | _ => ⟨⟨0, 0, 0⟩, data⟩

/-- The image `inputImage` that `execute` wraps (line 144) once `dataCheck` has
run; `none` when the container or the selected array is null. -/
def inputImage (codes : SimplCodes) (f : ItkBinaryWatershedLabeled F)
    (dca : DataContainerArray) : Option (Image Bool) :=
  match getDataContainer (f.dataCheck codes dca).store
      f.selectedCellArrayPath.dataContainerName,
    (f.dataCheck codes dca).selectedCellArray with
  | some m, some sel => some (createItkWrapperForDataPointer m sel)
  | _, _ => none

/-- The text both `catch` blocks of `execute` send, completed by the
description of the ITK exception. -/
def exceptionMessage (description : String) : String :=
  "Failed to execute itk::KMeans filter. Error Message returned from ITK:\n   " ++ description

/-- The call `mask->Update()` (line 209): the lazy part of the pipeline.  The update
pulls the distance map, the inversion with maximum 0, the watershed without
watershed line, and the mask, in this order.  A distance map whose own update
threw is not up to date, so it is requested again and throws again (`dm` is the
result of that request: the stage is a function of its input).  Returns the
masked labels or the description of the exception, and the stages that ran. -/
def maskUpdate [Zero F] [Sub F] (env : ItkStages F) (inputImage : Image Bool)
    (dm : UpdateResult F) (seeds : Image Nat) : Except String (Image Nat) × List Stage :=
  match dm.exception with
  | some e => (.error e, [Stage.distanceMap])
  | none =>
    let ws := env.morphologicalWatershedFromMarkers (invertIntensity 0 dm.output) seeds false
    match ws.exception with
    | some e => (.error e, [Stage.invert, Stage.watershed])
    | none => (.ok (maskImageFilter ws.output inputImage),
        [Stage.invert, Stage.watershed, Stage.mask])

/-- Model of `LabelBridgeType::SetITKFilterOutput` followed by a successful update: the
output buffer of the mask filter is the memory of the created array, so the
array holds the output; a shorter output leaves the remaining tuples as they
were, and an output that does not fit is allocated elsewhere and leaves the
array untouched. -/
def importedBufferAfterUpdate (out old : List Nat) : List Nat :=
  if out.length ≤ old.length then out ++ old.drop out.length else old

/-- The body of `execute` after a passed `dataCheck` (lines 135-219), on the
store `store` left by `dataCheck` and the wrapped input image. -/
def runPipeline [Zero F] [Sub F] (env : ItkStages F) (f : ItkBinaryWatershedLabeled F)
    (dc : DataCheckResult) (inputImage : Image Bool) : FilterState :=
  -- distanceMap->SetInsideIsPositive(true); distanceMap->Update();
  let dm := env.signedMaurerDistanceMap true inputImage
  let caught1 : List (Int × String) :=
    match dm.exception with
    | some d => [(-5, exceptionMessage d)]
    | none => []
  -- LocalMaxima::Find(distanceMap->GetOutput(), m_PeakTolerance, true)
  let peakLocations := env.localMaximaFind dm.output f.peakTolerance true
  let seeds := seedLabels inputImage.region peakLocations
  -- invert, watershed and mask are set up; mask->Update() runs them
  let upd := maskUpdate env inputImage dm seeds
  let caught2 : List (Int × String) :=
    match upd.1 with
    | .error d => [(-5, exceptionMessage d)]
    | .ok _ => []
  let store2 :=
    match upd.1 with
    | .ok out => modifyUInt32ArrayData dc.store f.newCellArrayPath
        (importedBufferAfterUpdate out.buffer)
    | .error _ => dc.store
  { errorCondition := if (caught1 ++ caught2).isEmpty then dc.errorCondition else -5
    warningCondition := dc.warningCondition
    store := store2
    errorMessages := caught1 ++ caught2
    statusMessages := ["Complete"]
    trace := [Stage.distanceMap, Stage.localMaxima, Stage.seedLabels] ++ upd.2 }

/-- The function `ItkBinaryWatershedLabeled::execute` (lines 123-220). -/
def execute [Zero F] [Sub F] (env : ItkStages F) (codes : SimplCodes)
    (f : ItkBinaryWatershedLabeled F) (dca : DataContainerArray) : FilterState :=
  let dc := f.dataCheck codes dca
  if dc.errorCondition < 0 then
    { errorCondition := -11000
      warningCondition := dc.warningCondition
      store := dc.store
      errorMessages := [(-11000, "DataCheck did not pass during execute")]
      statusMessages := []
      trace := [] }
  else
    match f.inputImage codes dca with
    | some img => runPipeline env f dc img
    | none =>
      -- not reached: a passed dataCheck has found the container and the array
      { errorCondition := dc.errorCondition
        warningCondition := dc.warningCondition
        store := dc.store
        errorMessages := []
        statusMessages := []
        trace := [] }

/-- The store after a passed `dataCheck`: the created array, zero-filled, is
appended to the attribute matrix of the selected array. -/
def storeWithNewArray (f : ItkBinaryWatershedLabeled F) (dca : DataContainerArray) :
    DataContainerArray :=
  modifyAttributeMatrix dca f.selectedCellArrayPath.dataContainerName
    f.selectedCellArrayPath.attributeMatrixName
    (fun m => { m with
      arrays := m.arrays ++ [(f.newCellArrayName, .uint32 [1] (List.replicate m.numTuples 0))] })

/-- The label field of the store: the contents of the `uint32` array named
`NewCellArrayName`, if there is one. -/
def labelField (f : ItkBinaryWatershedLabeled F) (dca : DataContainerArray) :
    Option (List Nat) :=
  match getArrayFromPath dca f.newCellArrayPath with
  | some (.uint32 _ d) => some d
  | _ => none

/-- The contents of the created array after the body of `execute`, as a
function of the stages, the tolerance, the input image and the contents `old`
the array had after `dataCheck`: the imported output of a successful update,
and `old` itself when the update threw. -/
def labelsAfterRun [Zero F] [Sub F] (env : ItkStages F) (tolerance : F)
    (inputImage : Image Bool) (old : List Nat) : List Nat :=
  let dm := env.signedMaurerDistanceMap true inputImage
  let seeds := seedLabels inputImage.region (env.localMaximaFind dm.output tolerance true)
  match (maskUpdate env inputImage dm seeds).1 with
  | .ok out => importedBufferAfterUpdate out.buffer old
  | .error _ => old

end ItkBinaryWatershedLabeled

/-! ## The pipeline as the specification composes it -/

/-- The segmentation in the words of the specification (section 4.5), its
external stages taken as total functions:
`Mask(Watershed(Invert(D), Seeds(FindMaxima(D, tolerance, true)), false), mask)`
with `D = SignedDistance(mask, true)`. -/
def segmentSpec {F : Type} [Zero F] [Sub F] (signedDistance : Bool → Image Bool → Image F)
    (findMaxima : Image F → F → Bool → List Index3)
    (watershed : Image F → Image Nat → Bool → Image Nat)
    (mask : Image Bool) (tolerance : F) : Image Nat :=
  let D := signedDistance true mask
  maskImageFilter
    (watershed (invertIntensity 0 D) (seedLabels mask.region (findMaxima D tolerance true)) false)
    mask

/-- The stages given by total functions: no update throws. -/
def ItkStages.ofFunctions {F : Type} (signedDistance : Bool → Image Bool → Image F)
    (findMaxima : Image F → F → Bool → List Index3)
    (watershed : Image F → Image Nat → Bool → Image Nat) : ItkStages F :=
  { signedMaurerDistanceMap := fun b img => ⟨signedDistance b img, none⟩
    localMaximaFind := findMaxima
    morphologicalWatershedFromMarkers := fun e m b => ⟨watershed e m b, none⟩ }

/-! ## Example inputs -/

instance (dca : DataContainerArray) : Decidable (TuplesConsistent dca) := by
  unfold TuplesConsistent
  exact inferInstance

/-- Negative error conditions for the examples. -/
def demoCodes : SimplCodes :=
  ⟨fun _ => -1, fun _ => by
    show (-1 : Int) < 0
    decide⟩

/-- An example distance stage on integer pixels: 1 on voxels of the inside
class and -1 elsewhere. -/
def demoDistance (inside : Bool) (img : Image Bool) : Image Int :=
  ⟨img.region, img.buffer.map (fun b => if b = inside then 1 else -1)⟩

/-- An example maxima finder: the first voxel is the only peak. -/
def demoFind (_ : Image Int) (_ : Int) (_ : Bool) : List Index3 := [⟨0, 0, 0⟩]

/-- An example watershed: the label 1 floods every voxel. -/
def demoFlood (_ : Image Int) (markers : Image Nat) (_ : Bool) : Image Nat :=
  ⟨markers.region, markers.buffer.map (fun _ => 1)⟩

/-- Example stages, none of which throws: `demoDistance`, `demoFind` and
`demoFlood`. -/
def floodStages : ItkStages Int := ItkStages.ofFunctions demoDistance demoFind demoFlood

/-- Example stages, none of which throws: `demoDistance`, no maximum found, and
a watershed that returns its markers. -/
def demoStages : ItkStages Int :=
  ItkStages.ofFunctions demoDistance (fun _ _ _ => []) (fun _ markers _ => markers)

/-- Example stages whose distance map update throws. -/
def failingStages : ItkStages Int :=
  { signedMaurerDistanceMap := fun _ img => ⟨⟨img.region, []⟩, some "distance map failed"⟩
    localMaximaFind := fun _ _ _ => []
    morphologicalWatershedFromMarkers := fun _ markers _ => ⟨markers, none⟩ }

/-- A store with one 2 x 2 x 1 image container holding the bool array `data`
under the name `Mask`. -/
def demoStore (data : List Bool) : DataContainerArray :=
  [{ name := "DataContainer"
     geometry := some (.image ⟨2, 2, 1⟩)
     attributeMatrices := [{ name := "CellData", numTuples := 4,
                             arrays := [("Mask", .bool [1] data)] }] }]

/-- The filter set up on the array `Mask` of `demoStore`. -/
def demoFilter : ItkBinaryWatershedLabeled Int :=
  { selectedCellArrayPath := ⟨"DataContainer", "CellData", "Mask"⟩
    peakTolerance := 1
    newCellArrayName := "BinaryWatershedLabeled" }

/-- The filter set up on an array that the store does not hold. -/
def missingArrayFilter : ItkBinaryWatershedLabeled Int :=
  { selectedCellArrayPath := ⟨"DataContainer", "CellData", "Absent"⟩
    peakTolerance := 1
    newCellArrayName := "BinaryWatershedLabeled" }

/-- Another store: the same 2 x 2 x 1 geometry and mask contents under other
names, next to an unrelated array. -/
def otherStore (data : List Bool) : DataContainerArray :=
  [{ name := "Volume"
     geometry := some (.image ⟨2, 2, 1⟩)
     attributeMatrices := [{ name := "Cells", numTuples := 4,
                             arrays := [("Phases", .other "int32_t" [1] [1, 1, 2, 2]),
                                        ("Binary", .bool [1] data)] }] }]

/-- The filter set up on the array `Binary` of `otherStore`. -/
def otherFilter : ItkBinaryWatershedLabeled Int :=
  { selectedCellArrayPath := ⟨"Volume", "Cells", "Binary"⟩
    peakTolerance := 1
    newCellArrayName := "Labels" }

/-! ## Typed arrays and further operations of the attribute matrix -/

/-- The ten element types the filters dispatch on. -/
inductive ScalarType where
  | int8
  | uint8
  | int16
  | uint16
  | int32
  | uint32
  | int64
  | uint64
  | float
  | double
deriving DecidableEq, Repr

/-- The type string of SIMPLib for an element type (`getTypeAsString`). -/
def ScalarType.typeName : ScalarType → String
  | .int8 => "int8_t"
  | .uint8 => "uint8_t"
  | .int16 => "int16_t"
  | .uint16 => "uint16_t"
  | .int32 => "int32_t"
  | .uint32 => "uint32_t"
  | .int64 => "int64_t"
  | .uint64 => "uint64_t"
  | .float => "float"
  | .double => "double"

/-- The element types, in the order in which `execute` tests them. -/
def ScalarType.all : List ScalarType :=
  [.int8, .uint8, .int16, .uint16, .int32, .uint32, .int64, .uint64, .float, .double]

/-- The element type with a given type string, if it is one of the ten. -/
def ScalarType.ofTypeName (s : String) : Option ScalarType :=
  ScalarType.all.find? (fun t => t.typeName == s)

/-- Conversion of an integer to an unsigned type of `w` bits. -/
def wrapUnsigned (w : Nat) (v : Int) : Int := v % 2 ^ w

/-- Conversion of an integer to a two's complement type of `w` bits. -/
def wrapSigned (w : Nat) (v : Int) : Int := (v + 2 ^ (w - 1)) % 2 ^ w - 2 ^ (w - 1)

/-- Conversion of an `int` value to a pixel type.  Samples of type `float` and
`double` are represented by integers, and the conversion is taken as exact. -/
def ScalarType.cast : ScalarType → Int → Int
  | .int8, v => wrapSigned 8 v
  | .uint8, v => wrapUnsigned 8 v
  | .int16, v => wrapSigned 16 v
  | .uint16, v => wrapUnsigned 16 v
  | .int32, v => wrapSigned 32 v
  | .uint32, v => wrapUnsigned 32 v
  | .int64, v => wrapSigned 64 v
  | .uint64, v => wrapUnsigned 64 v
  | .float, v => v
  | .double, v => v

/-- Model of `IDataArray::getTypeAsString`. -/
def DataArray.getTypeAsString : DataArray → String
  | .bool _ _ => "bool"
  | .uint32 _ _ => "uint32_t"
  | .other t _ _ => t

/-- Model of `IDataArray::getComponentDimensions`. -/
def DataArray.getComponentDimensions : DataArray → List Nat
  | .bool dims _ => dims
  | .uint32 dims _ => dims
  | .other _ dims _ => dims

/-- The samples of an array as integers (`false` is 0, `true` is 1). -/
def DataArray.values : DataArray → List Int
  | .bool _ d => d.map (fun b => if b then 1 else 0)
  | .uint32 _ d => d.map Int.ofNat
  | .other _ _ d => d

/-- The array with the same type and component dimensions and new samples. -/
def DataArray.withValues : DataArray → List Int → DataArray
  | .bool dims _, v => .bool dims (v.map (fun x => decide (x ≠ 0)))
  | .uint32 dims _, v => .uint32 dims (v.map Int.toNat)
  | .other t dims _, v => .other t dims v

/-- A `DataArray<uint8_t>`; its samples lie in `0..255`. -/
def uint8Array (dims : List Nat) (data : List Int) : DataArray := .other "uint8_t" dims data

/-- Model of `AttributeMatrix::getAttributeArrayNames`. -/
def AttributeMatrix.getAttributeArrayNames (am : AttributeMatrix) : List String :=
  am.arrays.map Prod.fst

/-- The names of the arrays of the attribute matrix `amName` of the container
`dcName`; empty when there is no such attribute matrix. -/
def arrayNamesAt (dca : DataContainerArray) (dcName amName : String) : List String :=
  match getDataContainer dca dcName with
  | none => []
  | some dc =>
    match dc.getAttributeMatrix amName with
    | none => []
    | some am => am.getAttributeArrayNames

/-- Model of `AttributeMatrix::removeAttributeArray(name)`: the entry stored under the name
is erased. -/
def AttributeMatrix.removeAttributeArray (am : AttributeMatrix) (name : String) :
    AttributeMatrix :=
  { am with arrays := am.arrays.filter (fun a => !(a.1 == name)) }

/-- Model of `AttributeMatrix::renameAttributeArray(oldname, newname)`: nothing happens
when no array is stored under the old name or one is stored under the new
name; otherwise the entry is stored under the new name. -/
def AttributeMatrix.renameAttributeArray (am : AttributeMatrix) (oldname newname : String) :
    AttributeMatrix :=
  match am.getAttributeArray oldname with
  | none => am
  | some _ =>
    match am.getAttributeArray newname with
    | some _ => am
    | none =>
      { am with arrays := am.arrays.map (fun a => if a.1 == oldname then (newname, a.2) else a) }

/-- Model of `AttributeMatrix::addAttributeArray(name, data)`: an array whose tuple count
is not that of the attribute matrix is refused; otherwise the array is stored
under the name, in place of the array stored there if there is one. -/
def AttributeMatrix.addAttributeArray (am : AttributeMatrix) (name : String)
    (data : DataArray) : AttributeMatrix :=
  if data.getNumberOfTuples ≠ am.numTuples then am
  else
    match am.getAttributeArray name with
    | some _ =>
      { am with arrays := am.arrays.map (fun a => if a.1 == name then (name, data) else a) }
    | none => { am with arrays := am.arrays ++ [(name, data)] }

/-- Rewrites the array stored under `path` with `h`. -/
def modifyArray (dca : DataContainerArray) (path : DataArrayPath)
    (h : DataArray → DataArray) : DataContainerArray :=
  modifyAttributeMatrix dca path.dataContainerName path.attributeMatrixName
    (fun m => { m with
      arrays := modifyFirst (fun a => a.1 == path.dataArrayName) (fun a => (a.1, h a.2))
        m.arrays })

/-- Model of `getPrereqArrayFromPath<DataArray<uint8_t>>(filter, path, cDims)`: the samples
of the `uint8_t` array under `path`, or the error condition set on the
filter. -/
def getPrereqUInt8ArrayFromPath (codes : SimplCodes) (dca : DataContainerArray)
    (path : DataArrayPath) (cDims : List Nat) : Except Int (List Int) :=
  if !path.isValid then .error (codes.code .invalidPath) else
  match getDataContainer dca path.dataContainerName with
  | none => .error (codes.code .missingDataContainer)
  | some dc =>
    match dc.getAttributeMatrix path.attributeMatrixName with
    | none => .error (codes.code .missingAttributeMatrix)
    | some am =>
      match am.getAttributeArray path.dataArrayName with
      | none => .error (codes.code .missingArray)
      | some a =>
        if a.getTypeAsString = "uint8_t" then
          if a.getComponentDimensions = cDims then .ok a.values
          else .error (codes.code .wrongComponentDims)
        else .error (codes.code .wrongArrayType)

/-- Model of `createNonPrereqArrayFromPath<ArrayType>(filter, path, 0, cDims)` for any
array type: adds the array `mk n` under `path`, where `n` is the tuple count of
the attribute matrix, or sets an error condition and leaves the store as it
is. -/
def createNonPrereqArrayFromPath (codes : SimplCodes) (dca : DataContainerArray)
    (path : DataArrayPath) (mk : Nat → DataArray) : Except Int DataContainerArray :=
  if !path.isValid then .error (codes.code .invalidPath) else
  match getDataContainer dca path.dataContainerName with
  | none => .error (codes.code .missingDataContainer)
  | some dc =>
    match dc.getAttributeMatrix path.attributeMatrixName with
    | none => .error (codes.code .missingAttributeMatrix)
    | some am =>
      match am.getAttributeArray path.dataArrayName with
      | some _ => .error (codes.code .arrayAlreadyExists)
      | none =>
        .ok (modifyAttributeMatrix dca path.dataContainerName path.attributeMatrixName
          (fun m => { m with arrays := m.arrays ++ [(path.dataArrayName, mk m.numTuples)] }))

/-- The contents of an array whose memory was imported as the output buffer of
an ITK filter, after a successful update that produced `out`: the array holds
the output; a shorter output leaves the remaining tuples as they were, and an
output that does not fit is allocated elsewhere and leaves the array
untouched. -/
def importBuffer {α : Type} (out old : List α) : List α :=
  if out.length ≤ old.length then out ++ old.drop out.length else old

/-! ## The filters that write a result of the input's pixel type -/

/-- Model of `ItkBridge<T>::CreateItkWrapperForDataPointer` for any pixel type: the image
whose region is given by the dimensions of the container's image geometry and
whose buffer is the data of the array. -/
def wrapDataPointer {α : Type} (m : DataContainer) (data : List α) : Image α :=
  match m.geometry with
  | some (.image dims) => ⟨dims, data⟩
  | _ => ⟨⟨0, 0, 0⟩, data⟩

/-- The functor of `itk::BinaryThresholdImageFilter`, which is part of ITK and
not of the sources: the inside value between the two thresholds, bounds
included, and the outside value elsewhere. -/
def binaryThreshold (lower upper inside outside : Int) (x : Int) : Int :=
  if lower ≤ x ∧ x ≤ upper then inside else outside

/-- The update of `itk::BinaryThresholdImageFilter`: it throws when the lower
threshold is greater than the upper one, and applies the functor to every
pixel otherwise. -/
def binaryThresholdImageFilter (lower upper inside outside : Int) (img : Image Int) :
    UpdateResult Int :=
  if lower > upper then
    ⟨⟨img.region, []⟩, some "Lower threshold cannot be greater than upper threshold."⟩
  else ⟨⟨img.region, img.buffer.map (binaryThreshold lower upper inside outside)⟩, none⟩

/-- The loop documented as "example without itk" (ItkManualThresholdTemplate.cpp,
lines 273-295), for the pixel type `t`: `outputData[i] = 255` where
`inputData[i] >= manParameter` and `outputData[i] = 0` elsewhere; the constant
255 is converted to the pixel type on assignment. -/
def filterWithoutItk (t : ScalarType) (inputData : List Int) (manParameter : Int) : List Int :=
  inputData.map (fun x => if x ≥ manParameter then t.cast 255 else 0)

/-- The filter after the `dataCheck` of a filter on `DefaultPixelType` (which is
`uint8_t`) arrays: the error condition, the store, the member
`m_SelectedCellArray` (the input data, `none` while null), the member
`m_NewCellArrayName` (which `dataCheck` overwrites when the result is not saved
as a new array) and the member `m_NewCellArrayPtr` (the path of the created
array, `none` while null). -/
structure PixelDataCheckResult where
  errorCondition : Int
  store : DataContainerArray
  selectedCellArray : Option (List Int)
  newCellArrayName : String
  newCellArray : Option DataArrayPath
deriving DecidableEq, Repr

/-- The body shared, statement for statement, by `ImageMath::dataCheck`,
`ItkMeanKernel::dataCheck` and `ManualThreshold::dataCheck`. -/
def dataCheckDefaultPixel (codes : SimplCodes) (selectedCellArrayPath : DataArrayPath)
    (saveAsNewArray : Bool) (newCellArrayName : String) (dca : DataContainerArray) :
    PixelDataCheckResult :=
  -- setErrorCondition(0);
  match getPrereqUInt8ArrayFromPath codes dca selectedCellArrayPath [1] with
  | .error e => ⟨e, dca, none, newCellArrayName, none⟩
  | .ok sel =>
    match getDataContainer dca selectedCellArrayPath.dataContainerName with
    | none =>
      -- not reached: the request above found the container
      ⟨codes.code .missingDataContainer, dca, some sel, newCellArrayName, none⟩
    | some dc =>
      match dc.getPrereqImageGeometry codes with
      | .error e => ⟨e, dca, some sel, newCellArrayName, none⟩
      | .ok _ =>
        -- if(!m_SaveAsNewArray) { m_NewCellArrayName = "thisIsATempName"; }
        let name := if saveAsNewArray then newCellArrayName else "thisIsATempName"
        let tempPath : DataArrayPath :=
          ⟨selectedCellArrayPath.dataContainerName, selectedCellArrayPath.attributeMatrixName,
            name⟩
        match createNonPrereqArrayFromPath codes dca tempPath
            (fun n => uint8Array [1] (List.replicate n 0)) with
        | .error e => ⟨e, dca, some sel, name, none⟩
        | .ok dca2 => ⟨0, dca2, some sel, name, some tempPath⟩

/-- The image that `execute` wraps once `dataCheck` has run: the selected data
with the geometry of its container; `none` when the container or the selected
array is null. -/
def PixelDataCheckResult.inputImage (dc : PixelDataCheckResult)
    (selectedCellArrayPath : DataArrayPath) : Option (Image Int) :=
  match getDataContainer dc.store selectedCellArrayPath.dataContainerName,
    dc.selectedCellArray with
  | some m, some sel => some (wrapDataPointer m sel)
  | _, _ => none

/-- The block "array name changing/cleanup" of `ImageMath::execute`,
`ItkMeanKernel::execute` and `ManualThreshold::execute`: the selected array is
removed and the created array is renamed to its name. -/
def removeAndRename (store : DataContainerArray) (selectedCellArrayPath : DataArrayPath)
    (newCellArrayName : String) : DataContainerArray :=
  modifyAttributeMatrix store selectedCellArrayPath.dataContainerName
    selectedCellArrayPath.attributeMatrixName
    (fun attrMat =>
      (attrMat.removeAttributeArray selectedCellArrayPath.dataArrayName).renameAttributeArray
        newCellArrayName selectedCellArrayPath.dataArrayName)

/-- The store after an ITK update whose output buffer is the memory of the
array under `path`: on success the array holds the imported output, on an
exception it is as it was. -/
def writeFilterOutput (store : DataContainerArray) (path : DataArrayPath)
    (upd : UpdateResult Int) : DataContainerArray :=
  match upd.exception with
  | some _ => store
  | none => modifyArray store path (fun a => a.withValues (importBuffer upd.output.buffer a.values))

/-! ### `ManualThreshold` -/

/-- The parameters of `ManualThreshold`. -/
structure ManualThreshold where
  selectedCellArrayPath : DataArrayPath
  newCellArrayName : String
  saveAsNewArray : Bool
  manualParameter : Int
deriving DecidableEq, Repr

namespace ManualThreshold

/-- The function `ManualThreshold::dataCheck` (lines 127-146). -/
def dataCheck (codes : SimplCodes) (f : ManualThreshold) (dca : DataContainerArray) :
    PixelDataCheckResult :=
  dataCheckDefaultPixel codes f.selectedCellArrayPath f.saveAsNewArray f.newCellArrayName dca

/-- The text the `catch` block of `execute` sends. -/
def exceptionMessage (description : String) : String :=
  "Failed to execute itk::ManualThreshold filter. Error Message returned from ITK:\n   " ++
    description

/-- The path of the array created by `dataCheck`. -/
def newCellArrayPath (f : ManualThreshold) (dc : PixelDataCheckResult) : DataArrayPath :=
  ⟨f.selectedCellArrayPath.dataContainerName, f.selectedCellArrayPath.attributeMatrixName,
    dc.newCellArrayName⟩

/-- The function `ManualThreshold::execute` (lines 165-219).  The lower threshold is the
`int` parameter converted to the pixel type `uint8_t`. -/
def execute (codes : SimplCodes) (f : ManualThreshold) (dca : DataContainerArray) :
    FilterState :=
  let dc := f.dataCheck codes dca
  if dc.errorCondition < 0 then
    { errorCondition := dc.errorCondition, warningCondition := 0, store := dc.store,
      errorMessages := [], statusMessages := [], trace := [] }
  else
    match dc.inputImage f.selectedCellArrayPath with
    | none =>
      -- not reached: a passed dataCheck has found the container and the array
      { errorCondition := dc.errorCondition, warningCondition := 0, store := dc.store,
        errorMessages := [], statusMessages := [], trace := [] }
    | some inputImage =>
      let upd := binaryThresholdImageFilter (wrapUnsigned 8 f.manualParameter) 255 255 0
        inputImage
      let caught : List (Int × String) :=
        match upd.exception with
        | some d => [(-5, exceptionMessage d)]
        | none => []
      let store1 := writeFilterOutput dc.store (f.newCellArrayPath dc) upd
      let store2 :=
        if f.saveAsNewArray then store1
        else removeAndRename store1 f.selectedCellArrayPath dc.newCellArrayName
      { errorCondition := if caught.isEmpty then dc.errorCondition else -5
        warningCondition := 0
        store := store2
        errorMessages := caught
        statusMessages := ["Complete"]
        trace := [] }

end ManualThreshold

/-- The path under which the result of a run of `ManualThreshold` is found: the
new array, or the selected array when the result replaces it. -/
def ManualThreshold.resultPath (f : ManualThreshold) : DataArrayPath :=
  if f.saveAsNewArray then
    ⟨f.selectedCellArrayPath.dataContainerName, f.selectedCellArrayPath.attributeMatrixName,
      f.newCellArrayName⟩
  else f.selectedCellArrayPath

/-! ### `ItkMeanKernel` -/

/-- The two ITK filters of `ItkMeanKernel`, each taken as a function:
`itk::MeanImageFilter` (arguments: radius, image) and
`itk::RescaleIntensityImageFilter` (arguments: output minimum, output maximum,
image). -/
structure MeanKernelStages (F : Type) where
  meanImageFilter : Int × Int × Int → Image Int → UpdateResult F
  rescaleIntensityImageFilter : Int → Int → Image F → UpdateResult Int

/-- The parameters of `ItkMeanKernel`. -/
structure ItkMeanKernel where
  selectedCellArrayPath : DataArrayPath
  newCellArrayName : String
  saveAsNewArray : Bool
  slice : Bool
  kernelSize : Int × Int × Int
deriving DecidableEq, Repr

namespace ItkMeanKernel

/-- The function `ItkMeanKernel::dataCheck` (lines 121-144). -/
def dataCheck (codes : SimplCodes) (f : ItkMeanKernel) (dca : DataContainerArray) :
    PixelDataCheckResult :=
  dataCheckDefaultPixel codes f.selectedCellArrayPath f.saveAsNewArray f.newCellArrayName dca

/-- The text the first `catch` block of `execute` sends. -/
def meanExceptionMessage (description : String) : String :=
  "Failed to execute itk::MeanImageFilter filter. Error Message returned from ITK:\n   " ++
    description

/-- The text the second `catch` block of `execute` sends. -/
def rescaleExceptionMessage (description : String) : String :=
  "Failed to execute itk::RescaleIntensityImageFilter filter. Error Message returned from ITK:\n   "
    ++ description

/-- The path of the array created by `dataCheck`. -/
def newCellArrayPath (f : ItkMeanKernel) (dc : PixelDataCheckResult) : DataArrayPath :=
  ⟨f.selectedCellArrayPath.dataContainerName, f.selectedCellArrayPath.attributeMatrixName,
    dc.newCellArrayName⟩

/-- The call `rescaleFilter->Update()`: the update pulls the mean filter, which
throws again when its own update threw, and then rescales to `0..255`. -/
def rescaleUpdate {F : Type} (env : MeanKernelStages F) (mean : UpdateResult F) :
    UpdateResult Int :=
  match mean.exception with
  | some e => ⟨⟨mean.output.region, []⟩, some e⟩
  | none => env.rescaleIntensityImageFilter 0 255 mean.output

/-- The function `ItkMeanKernel::execute` (lines 163-233). -/
def execute {F : Type} (env : MeanKernelStages F) (codes : SimplCodes) (f : ItkMeanKernel)
    (dca : DataContainerArray) : FilterState :=
  let dc := f.dataCheck codes dca
  if dc.errorCondition < 0 then
    { errorCondition := dc.errorCondition, warningCondition := 0, store := dc.store,
      errorMessages := [], statusMessages := [], trace := [] }
  else
    match dc.inputImage f.selectedCellArrayPath with
    | none =>
      -- not reached: a passed dataCheck has found the container and the array
      { errorCondition := dc.errorCondition, warningCondition := 0, store := dc.store,
        errorMessages := [], statusMessages := [], trace := [] }
    | some inputImage =>
      -- meanFilter->SetRadius(radius); meanFilter->Update();
      let mean := env.meanImageFilter f.kernelSize inputImage
      let caught1 : List (Int × String) :=
        match mean.exception with
        | some d => [(-5, meanExceptionMessage d)]
        | none => []
      let upd := rescaleUpdate env mean
      let caught2 : List (Int × String) :=
        match upd.exception with
        | some d => [(-5, rescaleExceptionMessage d)]
        | none => []
      let store1 := writeFilterOutput dc.store (f.newCellArrayPath dc) upd
      let store2 :=
        if f.saveAsNewArray then store1
        else removeAndRename store1 f.selectedCellArrayPath dc.newCellArrayName
      { errorCondition := if (caught1 ++ caught2).isEmpty then dc.errorCondition else -5
        warningCondition := 0
        store := store2
        errorMessages := caught1 ++ caught2
        statusMessages := ["Complete"]
        trace := [] }

end ItkMeanKernel

/-! ### `ImageMath` -/

/-- The parameters of `ImageMath`; `V` is the type of the `double` value. -/
structure ImageMath (V : Type) where
  selectedCellArrayPath : DataArrayPath
  newCellArrayName : String
  saveAsNewArray : Bool
  operator : Int
  value : V

namespace ImageMath

variable {V : Type}

/-- The function `ImageMath::dataCheck` (lines 165-184). -/
def dataCheck (codes : SimplCodes) (f : ImageMath V) (dca : DataContainerArray) :
    PixelDataCheckResult :=
  dataCheckDefaultPixel codes f.selectedCellArrayPath f.saveAsNewArray f.newCellArrayName dca

/-- The path of the array created by `dataCheck`. -/
def newCellArrayPath (f : ImageMath V) (dc : PixelDataCheckResult) : DataArrayPath :=
  ⟨f.selectedCellArrayPath.dataContainerName, f.selectedCellArrayPath.attributeMatrixName,
    dc.newCellArrayName⟩

/-- The function `ImageMath::execute` (lines 203-373).  The ITK pipeline of the operator
`k` in `0..11` (the image operation, and the rounding to the pixel range for
all operators but the last) is the function `operation k`, applied to the value
and the input image; `execute` has no `catch` block, so an exception of the
update leaves `execute` and is the result `Except.error`. -/
def execute (operation : Nat → V → Image Int → UpdateResult Int) (codes : SimplCodes)
    (f : ImageMath V) (dca : DataContainerArray) : Except String FilterState :=
  let dc := f.dataCheck codes dca
  if dc.errorCondition < 0 then
    .ok { errorCondition := dc.errorCondition, warningCondition := 0, store := dc.store,
          errorMessages := [], statusMessages := [], trace := [] }
  else
    match dc.inputImage f.selectedCellArrayPath with
    | none =>
      -- not reached: a passed dataCheck has found the container and the array
      .ok { errorCondition := dc.errorCondition, warningCondition := 0, store := dc.store,
            errorMessages := [], statusMessages := [], trace := [] }
    | some inputImage =>
      -- switch(m_Operator)
      let updated : Except String DataContainerArray :=
        if 0 ≤ f.operator ∧ f.operator ≤ 11 then
          let upd := operation f.operator.toNat f.value inputImage
          match upd.exception with
          | some d => .error d
          | none => .ok (writeFilterOutput dc.store (f.newCellArrayPath dc) upd)
        else .ok dc.store
      match updated with
      | .error d => .error d
      | .ok store1 =>
        let store2 :=
          if f.saveAsNewArray then store1
          else removeAndRename store1 f.selectedCellArrayPath dc.newCellArrayName
        .ok { errorCondition := dc.errorCondition
              warningCondition := 0
              store := store2
              errorMessages := []
              statusMessages := ["Complete"]
              trace := [] }

end ImageMath

/-! ### `ItkManualThresholdTemplate` -/

/-- The parameters of `ItkManualThresholdTemplate`. -/
structure ItkManualThresholdTemplate where
  selectedCellArrayArrayPath : DataArrayPath
  newCellArrayName : String
  saveAsNewArray : Bool
  manualParameter : Int
deriving DecidableEq, Repr

/-- The filter after `ItkManualThresholdTemplate::dataCheck`: the error condition, the
store, the selected array (`m_SelectedCellArrayPtr`, `none` while null), the
member `m_NewCellArrayName` and the path of the created array
(`m_NewCellArrayPtr`, `none` while null). -/
structure TemplateDataCheckResult where
  errorCondition : Int
  store : DataContainerArray
  selectedCellArray : Option DataArray
  newCellArrayName : String
  newCellArray : Option DataArrayPath
deriving DecidableEq, Repr

/-- Model of `TemplateHelpers::GetPrereqArrayFromPath()(filter, path, compDims)`: the array
under `path` when its element type is one of the ten numeric types or `bool`
and its component dimensions are `compDims`, or the error condition set on the
filter. -/
def getPrereqArrayOfAnyType (codes : SimplCodes) (dca : DataContainerArray)
    (path : DataArrayPath) (compDims : List Nat) : Except Int DataArray :=
  if !path.isValid then .error (codes.code .invalidPath) else
  match getDataContainer dca path.dataContainerName with
  | none => .error (codes.code .missingDataContainer)
  | some dc =>
    match dc.getAttributeMatrix path.attributeMatrixName with
    | none => .error (codes.code .missingAttributeMatrix)
    | some am =>
      match am.getAttributeArray path.dataArrayName with
      | none => .error (codes.code .missingArray)
      | some a =>
        if (ScalarType.ofTypeName a.getTypeAsString).isSome ∨ a.getTypeAsString = "bool" then
          if a.getComponentDimensions = compDims then .ok a
          else .error (codes.code .wrongComponentDims)
        else .error (codes.code .wrongArrayType)

namespace ItkManualThresholdTemplate

/-- The function `ItkManualThresholdTemplate::dataCheck` (lines 186-222). -/
def dataCheck (codes : SimplCodes) (f : ItkManualThresholdTemplate)
    (dca : DataContainerArray) : TemplateDataCheckResult :=
  -- setErrorCondition(0); setWarningCondition(0);
  match getPrereqArrayOfAnyType codes dca f.selectedCellArrayArrayPath [1] with
  | .error e => ⟨e, dca, none, f.newCellArrayName, none⟩
  | .ok data =>
    -- if(!m_SaveAsNewArray) { m_NewCellArrayName = "thisIsATempName"; }
    let name := if f.saveAsNewArray then f.newCellArrayName else "thisIsATempName"
    let tempPath : DataArrayPath :=
      ⟨f.selectedCellArrayArrayPath.dataContainerName,
        f.selectedCellArrayArrayPath.attributeMatrixName, name⟩
    match getDataContainer dca f.selectedCellArrayArrayPath.dataContainerName with
    | none =>
      -- not reached: the request above found the container
      ⟨codes.code .missingDataContainer, dca, some data, name, none⟩
    | some dc =>
      match dc.getPrereqImageGeometry codes with
      | .error e => ⟨e, dca, some data, name, none⟩
      | .ok _ =>
        -- CreateNonPrereqArrayFromArrayType: an array of the type of `data`, filled with 0
        match createNonPrereqArrayFromPath codes dca tempPath
            (fun n => data.withValues (List.replicate n 0)) with
        | .error e => ⟨e, dca, some data, name, none⟩
        | .ok dca2 => ⟨0, dca2, some data, name, some tempPath⟩

/-- The text the `catch` block of `ManualThresholdTemplatePrivate::Execute`
sends. -/
def exceptionMessage (description : String) : String :=
  "Failed to execute itk::BinaryThresholdImageFilter filter. Error Message returned from ITK:\n   "
    ++ description

/-- The ITK filter that `ManualThresholdTemplatePrivate<PixelType>::Execute`
(lines 78-116) sets up and updates, for the pixel type `t`: the lower threshold
is the `int` parameter converted to the pixel type, the upper threshold the
constant `0xFF` converted to the pixel type, the inside value 255 converted to
the pixel type, and the outside value 0. -/
def thresholdUpdate (t : ScalarType) (manParameter : Int) (inputImage : Image Int) :
    UpdateResult Int :=
  binaryThresholdImageFilter (t.cast manParameter) (t.cast 255) (t.cast 255) 0 inputImage

/-- The path of the array created by `dataCheck`. -/
def newCellArrayPath (f : ItkManualThresholdTemplate) (dc : TemplateDataCheckResult) :
    DataArrayPath :=
  ⟨f.selectedCellArrayArrayPath.dataContainerName,
    f.selectedCellArrayArrayPath.attributeMatrixName, dc.newCellArrayName⟩

/-- The block "array name changing/cleanup" of `ItkManualThresholdTemplate::execute`
(lines 372-383), on the attribute matrix of the selected array; `outputData` is
the created array as it is after the update. -/
def cleanup (f : ItkManualThresholdTemplate) (dc : TemplateDataCheckResult)
    (attrMat : AttributeMatrix) : AttributeMatrix :=
  match attrMat.getAttributeArray dc.newCellArrayName with
  | none => attrMat
  | some outputData =>
    if f.saveAsNewArray then attrMat.addAttributeArray f.newCellArrayName outputData
    else
      (attrMat.removeAttributeArray f.selectedCellArrayArrayPath.dataArrayName).addAttributeArray
        f.selectedCellArrayArrayPath.dataArrayName outputData

/-- The function `ItkManualThresholdTemplate::execute` (lines 300-387). -/
def execute (codes : SimplCodes) (f : ItkManualThresholdTemplate)
    (dca : DataContainerArray) : FilterState :=
  let dc := f.dataCheck codes dca
  if dc.errorCondition < 0 then
    { errorCondition := -15000, warningCondition := 0, store := dc.store,
      errorMessages := [(-15000, "DataCheck did not pass during execute")],
      statusMessages := [], trace := [] }
  else
    match getDataContainer dc.store f.selectedCellArrayArrayPath.dataContainerName,
      dc.selectedCellArray with
    | some m, some inputData =>
      match ScalarType.ofTypeName inputData.getTypeAsString with
      | none =>
        { errorCondition := -10001, warningCondition := 0, store := dc.store,
          errorMessages :=
            [(-10001, "A Supported DataArray type was not used for an input array.")],
          statusMessages := [], trace := [] }
      | some t =>
        let upd := thresholdUpdate t f.manualParameter (wrapDataPointer m inputData.values)
        let caught : List (Int × String) :=
          match upd.exception with
          | some d => [(-5, exceptionMessage d)]
          | none => []
        let store1 := writeFilterOutput dc.store (f.newCellArrayPath dc) upd
        let store2 := modifyAttributeMatrix store1
          f.selectedCellArrayArrayPath.dataContainerName
          f.selectedCellArrayArrayPath.attributeMatrixName (f.cleanup dc)
        { errorCondition := if caught.isEmpty then dc.errorCondition else -5
          warningCondition := 0
          store := store2
          errorMessages := caught
          statusMessages := ["Complete"]
          trace := [] }
    | _, _ =>
      -- not reached: a passed dataCheck has found the container and the array
      { errorCondition := dc.errorCondition, warningCondition := 0, store := dc.store,
        errorMessages := [], statusMessages := [], trace := [] }

end ItkManualThresholdTemplate

/-! ## Stores after `dataCheck` and after `execute` -/

/-- The store after a passed `dataCheck` of a pixel filter: the array `mk n`,
with `n` the tuple count of the attribute matrix, is appended under `name` to
the attribute matrix of the selected array. -/
def storeWithCreatedArray (dca : DataContainerArray) (path : DataArrayPath) (name : String)
    (mk : Nat → DataArray) : DataContainerArray :=
  modifyAttributeMatrix dca path.dataContainerName path.attributeMatrixName
    (fun m => { m with arrays := m.arrays ++ [(name, mk m.numTuples)] })

/-- The contents of the created array after an ITK update whose output buffer
is its memory: on success the imported output, on an exception the array as it
was created. -/
def arrayAfterUpdate (created : DataArray) (upd : UpdateResult Int) : DataArray :=
  match upd.exception with
  | some _ => created
  | none => created.withValues (importBuffer upd.output.buffer created.values)

/-- What it means for a run that saves its result as a new array to leave the
store `after` from the store `before`: the selected array `input` is stored,
unchanged, under the selected path, no array was stored under `newName`
before, and `after` is `before` with exactly one array `r` added, named
`newName`, with the tuple count of the input. -/
def AddsOneArray (before after : DataContainerArray) (selected : DataArrayPath)
    (newName : String) : Prop :=
  ∃ input r,
    getArrayFromPath before selected = some input ∧
    getArrayFromPath after selected = some input ∧
    getArrayFromPath before
      ⟨selected.dataContainerName, selected.attributeMatrixName, newName⟩ = none ∧
    getArrayFromPath after
      ⟨selected.dataContainerName, selected.attributeMatrixName, newName⟩ = some r ∧
    r.getNumberOfTuples = input.getNumberOfTuples ∧
    arrayNamesAt after selected.dataContainerName selected.attributeMatrixName =
      arrayNamesAt before selected.dataContainerName selected.attributeMatrixName ++ [newName] ∧
    after = modifyAttributeMatrix before selected.dataContainerName
      selected.attributeMatrixName (fun m => { m with arrays := m.arrays ++ [(newName, r)] })

/-- What it means for a run that does not save its result as a new array to
leave the store `after` from the store `before`: the attribute matrix has the
same array names (as a set), the result `r`, with the tuple count of the
attribute matrix, is stored under the selected name, no array is stored under
`thisIsATempName`, and every array under another name is as it was. -/
def ReplacesSelectedArray (before after : DataContainerArray) (selected : DataArrayPath) :
    Prop :=
  ∃ input r,
    getArrayFromPath before selected = some input ∧
    getArrayFromPath after selected = some r ∧
    r.getNumberOfTuples = input.getNumberOfTuples ∧
    (∀ n, n ∈ arrayNamesAt after selected.dataContainerName selected.attributeMatrixName ↔
      n ∈ arrayNamesAt before selected.dataContainerName selected.attributeMatrixName) ∧
    "thisIsATempName" ∉
      arrayNamesAt after selected.dataContainerName selected.attributeMatrixName ∧
    after = modifyAttributeMatrix before selected.dataContainerName
      selected.attributeMatrixName
      (fun m => { m with
        arrays := m.arrays.filter (fun a => !(a.1 == selected.dataArrayName)) ++
          [(selected.dataArrayName, r)] })

/-! ## Example inputs for the pixel filters -/

/-- A store with one 2 x 2 x 1 image container holding the array `a` under the
name `Image`. -/
def pixelStore (a : DataArray) : DataContainerArray :=
  [{ name := "DataContainer"
     geometry := some (.image ⟨2, 2, 1⟩)
     attributeMatrices := [{ name := "CellData", numTuples := 4,
                             arrays := [("Image", a)] }] }]

/-- The path of the array `Image` of `pixelStore`. -/
def pixelPath : DataArrayPath := ⟨"DataContainer", "CellData", "Image"⟩

/-- Stand-ins for the two filters of `ItkMeanKernel`, for the examples: both return
their input. -/
def demoMeanStages : MeanKernelStages Int :=
  ⟨fun _ img => ⟨img, none⟩, fun _ _ img => ⟨img, none⟩⟩

/-- A stand-in for the operations of `ImageMath`, for the examples: the value is
added to every sample, within the range of the pixel type. -/
def demoOperation : Nat → Int → Image Int → UpdateResult Int :=
  fun _ v img => ⟨⟨img.region, img.buffer.map (fun x => wrapUnsigned 8 (x + v))⟩, none⟩

/-! ## Construction of the filter, and stages that throw -/

/-- The filter as its constructor and `New()` leave it (lines 31-38): an empty
path, `PeakTolerance` 1.0, and the array name `BinaryWatershedLabeled`. -/
def ItkBinaryWatershedLabeled.New {F : Type} [One F] : ItkBinaryWatershedLabeled F :=
  { selectedCellArrayPath := ⟨"", "", ""⟩
    peakTolerance := 1
    newCellArrayName := "BinaryWatershedLabeled" }

/-- Stages whose distance map update throws the exception described by
`description`; the watershed does not throw. -/
def distanceFailure {F : Type} (signedDistance : Bool → Image Bool → Image F)
    (findMaxima : Image F → F → Bool → List Index3)
    (watershed : Image F → Image Nat → Bool → Image Nat) (description : String) :
    ItkStages F :=
  { signedMaurerDistanceMap := fun b img => ⟨signedDistance b img, some description⟩
    localMaximaFind := findMaxima
    morphologicalWatershedFromMarkers := fun e m b => ⟨watershed e m b, none⟩ }

/-- Stages whose watershed update throws the exception described by
`description`; the distance map does not throw. -/
def watershedFailure {F : Type} (signedDistance : Bool → Image Bool → Image F)
    (findMaxima : Image F → F → Bool → List Index3)
    (watershed : Image F → Image Nat → Bool → Image Nat) (description : String) :
    ItkStages F :=
  { signedMaurerDistanceMap := fun b img => ⟨signedDistance b img, none⟩
    localMaximaFind := findMaxima
    morphologicalWatershedFromMarkers := fun e m b => ⟨watershed e m b, some description⟩ }

/-- Example stages that agree with `floodStages` where the distance map is asked
with `InsideIsPositive = true` and the watershed with `MarkWatershedLine = false`, and
throw for the other value of either flag. -/
def flagSensitiveStages : ItkStages Int :=
  { signedMaurerDistanceMap := fun b img =>
      if b then ⟨demoDistance true img, none⟩ else ⟨demoDistance false img, some "outside"⟩
    localMaximaFind := demoFind
    morphologicalWatershedFromMarkers := fun e m b =>
      if b then ⟨demoFlood e m b, some "line"⟩ else ⟨demoFlood e m false, none⟩ }

/-- An example watershed that makes its elevation visible: the label of a voxel
is its elevation plus 2. -/
def elevationProbe (elevation : Image Int) (_ : Image Nat) (_ : Bool) : Image Nat :=
  ⟨elevation.region, elevation.buffer.map (fun x => (x + 2).toNat)⟩

/-- Example stages, none of which throws: `demoDistance`, `demoFind` and
`elevationProbe`. -/
def probeStages : ItkStages Int := ItkStages.ofFunctions demoDistance demoFind elevationProbe

/-! ## The marker-controlled watershed, as the specification describes it

`itk::MorphologicalWatershedFromMarkersImageFilter` is not part of the sources.  Section 4.4
of the specification describes the stage as a priority flood; these definitions
follow it, for `markWatershedLine = false`, the only setting `execute` uses. -/

/-- Modelled from the spec: the neighbour iteration of section 4.1, which
`itk::MorphologicalWatershedFromMarkersImageFilter` (not part of the sources) uses with face
connectivity: the coordinates at unit offset along each axis in each
direction, intersected with the bounds of the grid. -/
def faceNeighbours (r : Region) (i : Index3) : List Index3 :=
  ((if 0 < i.x then [Index3.mk (i.x - 1) i.y i.z] else []) ++ [Index3.mk (i.x + 1) i.y i.z] ++
    (if 0 < i.y then [Index3.mk i.x (i.y - 1) i.z] else []) ++ [Index3.mk i.x (i.y + 1) i.z] ++
    (if 0 < i.z then [Index3.mk i.x i.y (i.z - 1)] else []) ++ [Index3.mk i.x i.y (i.z + 1)]).filter
    (fun j => decide (r.isInside j))

/-- Every coordinate of the grid, in the order of the linear index (fastest
axis first). -/
def Region.indices (r : Region) : List Index3 :=
  (List.range r.sz).flatMap (fun z =>
    (List.range r.sy).flatMap (fun y => (List.range r.sx).map (fun x => (⟨x, y, z⟩ : Index3))))

/-- Modelled from the spec: an entry of the priority queue of section 4.4, the
queue of the absent `itk::MorphologicalWatershedFromMarkersImageFilter`: the elevation, the
insertion order, the voxel and the label carried. -/
structure QueueEntry (E : Type) where
  elevation : E
  order : Nat
  voxel : Index3
  label : Nat
deriving DecidableEq

/-- Modelled from the spec: the key order of the queue of section 4.4 (the
filter itself is not part of the sources): ascending in
`(elevation, insertion order)`. -/
def QueueEntry.before {E : Type} [LinearOrder E] (a b : QueueEntry E) : Bool :=
  decide (a.elevation < b.elevation ∨ (a.elevation = b.elevation ∧ a.order < b.order))

/-- The entry with the lowest key among `m` and the entries of the list. -/
def minEntry {E : Type} [LinearOrder E] : QueueEntry E → List (QueueEntry E) → QueueEntry E
  | m, [] => m
  | m, e :: es => if e.before m then minEntry e es else minEntry m es

/-- Modelled from the spec: "pop the lowest-elevation entry" of section 4.4 (the
filter itself is not part of the sources): the entry with the lowest key and the
queue without it, or `none` for the empty queue. -/
def popMin {E : Type} [LinearOrder E] :
    List (QueueEntry E) → Option (QueueEntry E × List (QueueEntry E))
  | [] => none
  | e :: es => some (minEntry e es, (e :: es).erase (minEntry e es))

/-- The flood in progress: the labels assigned so far, the queue, and the
insertion order of the next entry. -/
structure FloodState (E : Type) where
  labels : Image Nat
  queue : List (QueueEntry E)
  next : Nat

/-- Modelled from the spec: "push every unlabeled face-connected neighbor with
the same label at the neighbor's own elevation" (section 4.4; the filter itself
is not part of the sources), for the neighbours `js` in turn. -/
def pushAll {E : Type} (elevation : Image E) (label : Nat) :
    List Index3 → List (QueueEntry E) → Nat → List (QueueEntry E) × Nat
  | [], queue, next => (queue, next)
  | j :: js, queue, next =>
    match elevation.getPixel j with
    | some e => pushAll elevation label js (queue ++ [⟨e, next, j, label⟩]) (next + 1)
    | none => pushAll elevation label js queue next

/-- Modelled from the spec: one round of the loop of section 4.4 (the filter
itself is not part of the sources): pop the entry with the lowest key; if its
voxel is already labeled, skip; otherwise assign it the label carried with the
entry, then push every unlabeled face-connected neighbour. -/
def floodStep {E : Type} [LinearOrder E] (elevation : Image E) (s : FloodState E) :
    FloodState E :=
  match popMin s.queue with
  | none => s
  | some (m, rest) =>
    if s.labels.getPixel m.voxel = some 0 then
      let labels := s.labels.setPixel m.voxel m.label
      let unlabeled := (faceNeighbours labels.region m.voxel).filter
        (fun j => labels.getPixel j = some 0)
      let pushed := pushAll elevation m.label unlabeled rest s.next
      { labels := labels, queue := pushed.1, next := pushed.2 }
    else { s with queue := rest }

/-- At most `fuel` rounds of the loop, which ends when the queue is empty. -/
def floodLoop {E : Type} [LinearOrder E] (elevation : Image E) :
    Nat → FloodState E → FloodState E
  | 0, s => s
  | fuel + 1, s =>
    match s.queue with
    | [] => s
    | _ :: _ => floodLoop elevation fuel (floodStep elevation s)

/-- Modelled from the spec: "seed the queue with every non-zero marker voxel at
its elevation" (section 4.4; the filter itself is not part of the sources), for
the voxels of the list in turn. -/
def seedQueue {E : Type} (elevation : Image E) (markers : Image Nat) :
    List Index3 → Nat → List (QueueEntry E)
  | [], _ => []
  | i :: is, next =>
    match markers.getPixel i, elevation.getPixel i with
    | some l, some e =>
      if l = 0 then seedQueue elevation markers is next
      else ⟨e, next, i, l⟩ :: seedQueue elevation markers is (next + 1)
    | _, _ => seedQueue elevation markers is next

/-- The state the flood starts from: no voxel labeled, the queue seeded with
the markers. -/
def floodStart {E : Type} (elevation : Image E) (markers : Image Nat) : FloodState E :=
  { labels := Image.fillBuffer markers.region 0
    queue := seedQueue elevation markers markers.region.indices 0
    next := (seedQueue elevation markers markers.region.indices 0).length }

/-- The flood run until the queue is empty.  A round either drops an entry or
labels a voxel and pushes at most six entries, so the number of seeds plus six
times the number of voxels bounds the number of rounds. -/
def flood {E : Type} [LinearOrder E] (elevation : Image E) (markers : Image Nat) :
    FloodState E :=
  floodLoop elevation
    ((floodStart elevation markers).queue.length + 6 * markers.region.numberOfPixels)
    (floodStart elevation markers)

/-- Modelled from the spec: the stage `MarkerWatershed` of section 4.4 with
`markWatershedLine = false`, in place of `itk::MorphologicalWatershedFromMarkersImageFilter`,
which is not part of the sources: the labels the priority flood leaves. -/
def markerWatershed {E : Type} [LinearOrder E] (elevation : Image E) (markers : Image Nat) :
    Image Nat :=
  (flood elevation markers).labels

/-- The invariant of the flood from the single marker `p` of label `l` on the
grid `r`: every voxel is unlabeled or labeled `l`, every entry of the queue
carries `l` to a voxel of the grid, the marker voxel is labeled or queued, and
every neighbour of a labeled voxel is labeled or queued. -/
structure FloodInv {E : Type} (r : Region) (l : Nat) (p : Index3) (s : FloodState E) : Prop where
  region : s.labels.region = r
  length : s.labels.buffer.length = r.numberOfPixels
  labels : ∀ i, r.isInside i → s.labels.getPixel i = some 0 ∨ s.labels.getPixel i = some l
  queue : ∀ e ∈ s.queue, e.label = l ∧ r.isInside e.voxel
  marker : s.labels.getPixel p = some l ∨ ∃ e ∈ s.queue, e.voxel = p
  closed : ∀ i, r.isInside i → s.labels.getPixel i = some l →
    ∀ j ∈ faceNeighbours r i, s.labels.getPixel j = some l ∨ ∃ e ∈ s.queue, e.voxel = j

/-- The number of rounds the flood can still take: the length of the queue plus
six times the number of unlabeled voxels. -/
def FloodState.rounds {E : Type} (s : FloodState E) : Nat :=
  s.queue.length + 6 * s.labels.buffer.count 0

/-! ## `ItkConvertArrayTo8BitImageAttributeMatrix` -/

/-- The value `std::numeric_limits<T>::max()` of an element type. -/
def ScalarType.numericLimitsMax : ScalarType → Int
  | .int8 => 2 ^ 7 - 1
  | .uint8 => 2 ^ 8 - 1
  | .int16 => 2 ^ 15 - 1
  | .uint16 => 2 ^ 16 - 1
  | .int32 => 2 ^ 31 - 1
  | .uint32 => 2 ^ 32 - 1
  | .int64 => 2 ^ 63 - 1
  | .uint64 => 2 ^ 64 - 1
  | .float => 2 ^ 128 - 2 ^ 104
  | .double => 2 ^ 1024 - 2 ^ 971

/-- The integer element types of 8 and 16 bits.  For these every `float` value
that `scaleArray2` computes is an integer below `2 ^ 24` or the quotient of two
such integers, so the arithmetic of `scaleArray2` is followed exactly with
integers. -/
def ScalarType.isNarrow : ScalarType → Bool
  | .int8 => true
  | .uint8 => true
  | .int16 => true
  | .uint16 => true
  | _ => false

/-- The first loop of `scaleArray2` (lines 173-178), on the pair `(min, max)`. -/
def minMaxLoop : List Int → Int × Int → Int × Int
  | [], acc => acc
  | value :: rest, (min, max) =>
    minMaxLoop rest (if value < min then value else min, if value > max then value else max)

/-- The end of the body of both scaling loops of `scaleArray2` (lines 186-189 and
197-200) for a narrow element type `T`: `scaledValue`, a value of type `T`, is
limited to `0..1` and multiplied by `255.0f`, the product is converted back to
`T`, and the result is converted to `uint8_t`.  For `int8_t` the product 255
is outside the range of `T`; the conversion is taken as the wrap-around that
compilers produce. -/
def scaleSample (t : ScalarType) (scaledValue : Int) : Int :=
  let limited := if scaledValue < 0 then 0 else if scaledValue > 1 then 1 else scaledValue
  wrapUnsigned 8 (t.cast (limited * 255))

/-- The function `scaleArray2<T>` (lines 157-203) for a narrow element type `T`: the
values written to `newArray`, one for each input sample.  The difference
`max - min` is computed in `int`; `delta < 0.0000001` holds exactly when it is
not positive; the quotient `(inputArrayPtr[i] - min) / delta`, a `float`, is converted to
`T` by truncation, which is the truncated integer quotient. -/
def scaleArray2Narrow (t : ScalarType) (inputArray : List Int) : List Int :=
  -- T min = std::numeric_limits<T>::max(); T max = 0.0f;
  let minMax := minMaxLoop inputArray (t.numericLimitsMax, 0)
  let delta := minMax.2 - minMax.1
  if delta ≤ 0 then
    inputArray.map (fun value => scaleSample t value)
  else
    inputArray.map (fun value => scaleSample t (t.cast (Int.tdiv (value - minMax.1) delta)))

/-- The function `scaleArray2<T>`: the values written to `newArray`, one `uint8_t` for each
input sample.  For the element types of 32 and 64 bits and the floating types
the subtraction can overflow and the `float` arithmetic rounds; the value
written at position `i` is then given by the parameter `wide`. -/
def scaleArray2 (wide : ScalarType → List Int → Nat → Int) (t : ScalarType)
    (inputArray : List Int) : List Int :=
  if t.isNarrow then scaleArray2Narrow t inputArray
  else (List.range inputArray.length).map (fun i => wrapUnsigned 8 (wide t inputArray i))

/-- The samples of an array after `out` was written from its first sample on;
what is written past the end of the array is not kept. -/
def writePrefix (out old : List Int) : List Int :=
  (out ++ old.drop out.length).take old.length

/-- Model of `IDataArray::getNumberOfComponents`: the product of the component
dimensions. -/
def DataArray.getNumberOfComponents (a : DataArray) : Nat :=
  a.getComponentDimensions.foldl (fun p d => p * d) 1

/-- Model of `getPrereqIDataArrayFromPath<IDataArray>(filter, path)`: the array under `path`,
whatever its type, or the error condition set on the filter. -/
def getPrereqIDataArrayFromPath (codes : SimplCodes) (dca : DataContainerArray)
    (path : DataArrayPath) : Except Int DataArray :=
  if !path.isValid then .error (codes.code .invalidPath) else
  match getDataContainer dca path.dataContainerName with
  | none => .error (codes.code .missingDataContainer)
  | some dc =>
    match dc.getAttributeMatrix path.attributeMatrixName with
    | none => .error (codes.code .missingAttributeMatrix)
    | some am =>
      match am.getAttributeArray path.dataArrayName with
      | none => .error (codes.code .missingArray)
      | some a => .ok a

/-- Model of `DataContainerArray::getAttributeMatrix(path)`: the attribute matrix named by
the container and attribute matrix names of the path, if there is one. -/
def getAttributeMatrixFromPath (dca : DataContainerArray) (path : DataArrayPath) :
    Option AttributeMatrix :=
  match getDataContainer dca path.dataContainerName with
  | none => none
  | some dc => dc.getAttributeMatrix path.attributeMatrixName

/-- The parameter of `ItkConvertArrayTo8BitImageAttributeMatrix`: the member
`m_AttributeMatrixName`, a path of which the container and attribute matrix names are
used. -/
structure ItkConvertArrayTo8BitImageAttributeMatrix where
  attributeMatrixName : DataArrayPath
deriving DecidableEq, Repr

/-- The member `m_NewArray`, a raw pointer to the samples of a created array: null,
the samples of the array stored under a name, or the samples of an array that
is no longer stored. -/
inductive NewArrayPointer where
  | null
  | array (name : String)
  | dangling
deriving DecidableEq, Repr

/-- The filter between two rounds of the loop of `execute`: the store, the error
condition and the member `m_NewArray`. -/
structure ConvertState where
  store : DataContainerArray
  errorCondition : Int
  newArray : NewArrayPointer
deriving DecidableEq, Repr

namespace ItkConvertArrayTo8BitImageAttributeMatrix

/-- The loop of `dataCheck` (lines 121-134) from the name `names[i]` on: the error
condition and message of the first array that is not found or has more than
one component. -/
def checkArrays (codes : SimplCodes) (f : ItkConvertArrayTo8BitImageAttributeMatrix)
    (dca : DataContainerArray) : List String → Option (Int × List (Int × String))
  | [] => none
  | name :: names =>
    match getPrereqIDataArrayFromPath codes dca
        ⟨f.attributeMatrixName.dataContainerName, f.attributeMatrixName.attributeMatrixName,
          name⟩ with
    | .error e => some (e, [])
    | .ok inputData =>
      if inputData.getNumberOfComponents > 1 then
        some (-11002,
          [(-11002, "Data Array \x27" ++ name ++ "\x27 cannot have more than 1 component")])
      else checkArrays codes f dca names

/-- The function `ItkConvertArrayTo8BitImageAttributeMatrix::dataCheck` (lines 103-139): the error
condition and the messages `dataCheck` itself sends. -/
def dataCheck (codes : SimplCodes) (f : ItkConvertArrayTo8BitImageAttributeMatrix)
    (dca : DataContainerArray) : Int × List (Int × String) :=
  -- setErrorCondition(0); setWarningCondition(0);
  match getAttributeMatrixFromPath dca f.attributeMatrixName with
  | none => (-76000, [(-76000, "The attribute matrix has not been selected properly")])
  | some am =>
    match checkArrays codes f dca am.getAttributeArrayNames with
    | some failure => failure
    | none =>
      match getDataContainer dca f.attributeMatrixName.dataContainerName with
      | none =>
        -- not reached: the attribute matrix was found in this container
        (codes.code .missingDataContainer, [])
      | some dc =>
        match dc.getPrereqImageGeometry codes with
        | .error e => (e, [])
        | .ok _ => (0, [])

/-- One round of the loop of `execute` (lines 223-281), for the name `names[i]`; `none`
when the round dereferences a null pointer (the array `names[i]` is no longer
stored) or writes through `m_NewArray` while it is null or dangling. -/
def convertStep (wide : ScalarType → List Int → Nat → Int) (codes : SimplCodes)
    (f : ItkConvertArrayTo8BitImageAttributeMatrix) (name : String) (s : ConvertState) :
    Option ConvertState :=
  let dcName := f.attributeMatrixName.dataContainerName
  let amName := f.attributeMatrixName.attributeMatrixName
  -- m_NewArrayArrayName = names[i] + "8bit"; tempPath.update(...);
  let tempPath : DataArrayPath := ⟨dcName, amName, name ++ "8bit"⟩
  -- m_NewArrayPtr = createNonPrereqArrayFromPath<DataArray<uint8_t>>(this, tempPath, 0, dims);
  -- if(nullptr != m_NewArrayPtr.lock()) { m_NewArray = m_NewArrayPtr.lock()->getPointer(0); }
  let s1 : ConvertState :=
    match createNonPrereqArrayFromPath codes s.store tempPath
        (fun n => uint8Array [1] (List.replicate n 0)) with
    | .ok store => { store := store, errorCondition := s.errorCondition,
                     newArray := .array (name ++ "8bit") }
    | .error e => { s with errorCondition := e }
  -- inputData = ...->getAttributeArray(names[i]); dType = inputData->getTypeAsString();
  match getArrayFromPath s1.store ⟨dcName, amName, name⟩ with
  | none => none
  | some inputData =>
    let scaled : Option DataContainerArray :=
      match ScalarType.ofTypeName inputData.getTypeAsString with
      | none => some s1.store
      | some t =>
        -- scaleArray2<T>(inputData, m_NewArray);
        match scaleArray2 wide t inputData.values, s1.newArray with
        | [], _ => some s1.store
        | out, .array k =>
          match getArrayFromPath s1.store ⟨dcName, amName, k⟩ with
          | none => none
          | some _ =>
            some (modifyArray s1.store ⟨dcName, amName, k⟩
              (fun a => a.withValues (writePrefix out a.values)))
        | _, _ => none
    match scaled with
    | none => none
    | some store2 =>
      -- am->removeAttributeArray(names[i]); am->renameAttributeArray(names[i] + "8bit", names[i]);
      let store3 := removeAndRename store2 ⟨dcName, amName, name⟩ (name ++ "8bit")
      let afterRemove :=
        if s1.newArray = .array name then NewArrayPointer.dangling else s1.newArray
      let afterRename :=
        if afterRemove = .array (name ++ "8bit") then NewArrayPointer.array name
        else afterRemove
      some { store := store3, errorCondition := s1.errorCondition, newArray := afterRename }

/-- The loop of `execute` over the names (lines 221-284). -/
def convertLoop (wide : ScalarType → List Int → Nat → Int) (codes : SimplCodes)
    (f : ItkConvertArrayTo8BitImageAttributeMatrix) : List String → ConvertState →
    Option ConvertState
  | [], s => some s
  | name :: names, s =>
    match convertStep wide codes f name s with
    | none => none
    | some s2 => convertLoop wide codes f names s2

/-- The function `ItkConvertArrayTo8BitImageAttributeMatrix::execute` (lines 208-291); `none` when
the run does not return (see `convertStep`). -/
def execute (wide : ScalarType → List Int → Nat → Int) (codes : SimplCodes)
    (f : ItkConvertArrayTo8BitImageAttributeMatrix) (dca : DataContainerArray) :
    Option FilterState :=
  let dc := f.dataCheck codes dca
  if dc.1 < 0 then
    some { errorCondition := dc.1, warningCondition := 0, store := dca,
           errorMessages := dc.2, statusMessages := [], trace := [] }
  else
    match getAttributeMatrixFromPath dca f.attributeMatrixName with
    | none =>
      -- not reached: a passed dataCheck has found the attribute matrix
      some { errorCondition := dc.1, warningCondition := 0, store := dca,
             errorMessages := dc.2, statusMessages := [], trace := [] }
    | some am =>
      match convertLoop wide codes f am.getAttributeArrayNames ⟨dca, dc.1, .null⟩ with
      | none => none
      | some s =>
        some { errorCondition := s.errorCondition, warningCondition := 0, store := s.store,
               errorMessages := dc.2, statusMessages := ["Complete"], trace := [] }

end ItkConvertArrayTo8BitImageAttributeMatrix

/-- The array that replaces the array `a` in an attribute matrix of `n` tuples:
a `uint8_t` array that is created with the value 0 and holds the values
`scaleArray2` writes when the element type of `a` is one of the ten. -/
def convertArray (wide : ScalarType → List Int → Nat → Int) (n : Nat) (a : DataArray) :
    DataArray :=
  match ScalarType.ofTypeName a.getTypeAsString with
  | none => uint8Array [1] (List.replicate n 0)
  | some t => uint8Array [1] (writePrefix (scaleArray2 wide t a.values) (List.replicate n 0))

/-- A store with one 2 x 2 x 1 image container whose attribute matrix holds the
given arrays. -/
def arraysStore (arrays : List (String × DataArray)) : DataContainerArray :=
  [{ name := "DataContainer"
     geometry := some (.image ⟨2, 2, 1⟩)
     attributeMatrices := [{ name := "CellData", numTuples := 4, arrays := arrays }] }]

/-- The filter set up on the attribute matrix of `arraysStore`. -/
def convertFilter : ItkConvertArrayTo8BitImageAttributeMatrix :=
  ⟨⟨"DataContainer", "CellData", ""⟩⟩

/-- A stand-in for the values of the wide element types, for the examples. -/
def demoWide : ScalarType → List Int → Nat → Int := fun _ _ _ => 7

/-! ## Lemmas on offsets and on the seed loop -/

theorem Region.computeOffset_lt (r : Region) (i : Index3) (h : r.isInside i) :
    r.computeOffset i < r.numberOfPixels := by
  obtain ⟨hx, hy, hz⟩ := h
  unfold Region.computeOffset Region.numberOfPixels
  have h1 : i.y + r.sy * i.z + 1 ≤ r.sy * r.sz := by
    have : r.sy * (i.z + 1) ≤ r.sy * r.sz := Nat.mul_le_mul_left _ hz
    rw [Nat.mul_add, Nat.mul_one] at this
    omega
  have h2 : r.sx * (i.y + r.sy * i.z + 1) ≤ r.sx * (r.sy * r.sz) := Nat.mul_le_mul_left _ h1
  rw [Nat.mul_add, Nat.mul_one] at h2
  rw [Nat.mul_assoc]
  omega

theorem Region.computeOffset_inj (r : Region) (a b : Index3) (ha : r.isInside a)
    (hb : r.isInside b) (h : r.computeOffset a = r.computeOffset b) : a = b := by
  obtain ⟨hax, hay, _⟩ := ha
  obtain ⟨hbx, hby, _⟩ := hb
  unfold Region.computeOffset at h
  have hx : a.x = b.x := by
    have := congrArg (fun n => n % r.sx) h
    simpa [Nat.add_mul_mod_self_left, Nat.mod_eq_of_lt hax, Nat.mod_eq_of_lt hbx] using this
  have hsx : 0 < r.sx := by omega
  have hyz : a.y + r.sy * a.z = b.y + r.sy * b.z := by
    have h3 : r.sx * (a.y + r.sy * a.z) = r.sx * (b.y + r.sy * b.z) := by omega
    exact Nat.eq_of_mul_eq_mul_left hsx h3
  have hy : a.y = b.y := by
    have := congrArg (fun n => n % r.sy) hyz
    simpa [Nat.add_mul_mod_self_left, Nat.mod_eq_of_lt hay, Nat.mod_eq_of_lt hby] using this
  have hsy : 0 < r.sy := by omega
  have hz : a.z = b.z := by
    have h3 : r.sy * a.z = r.sy * b.z := by omega
    exact Nat.eq_of_mul_eq_mul_left hsy h3
  cases a
  cases b
  simp_all

theorem seedLoop_region (img : Image Nat) (ps : List Index3) (i : Nat) :
    (seedLoop img ps i).region = img.region := by
  induction ps generalizing img i with
  | nil => rfl
  | cons p ps ih => simp [seedLoop, ih, Image.setPixel]

theorem seedLoop_length (img : Image Nat) (ps : List Index3) (i : Nat) :
    (seedLoop img ps i).buffer.length = img.buffer.length := by
  induction ps generalizing img i with
  | nil => rfl
  | cons p ps ih => simp [seedLoop, ih, Image.setPixel]

/-- A voxel whose offset is not written by the loop keeps its value. -/
theorem seedLoop_voxel_of_not_written (img : Image Nat) (ps : List Index3) (i v : Nat)
    (h : ∀ p ∈ ps, img.region.computeOffset p ≠ v) :
    (seedLoop img ps i).voxel v = img.voxel v := by
  induction ps generalizing img i with
  | nil => rfl
  | cons p ps ih =>
    have hp : img.region.computeOffset p ≠ v := h p (List.mem_cons_self _ _)
    have hps : ∀ q ∈ ps, (img.setPixel p (toUInt32 (i + 1))).region.computeOffset q ≠ v :=
      fun q hq => h q (List.mem_cons_of_mem _ hq)
    rw [seedLoop, ih _ _ hps]
    simp [Image.voxel, Image.setPixel, List.getElem?_set_ne hp]

/-- The voxel written for the `j`-th peak of the loop holds the counter value
`i + j + 1`, converted to 32 bits, provided later peaks have other offsets. -/
theorem seedLoop_voxel_of_written (img : Image Nat) (ps : List Index3) (i j : Nat)
    (hj : j < ps.length)
    (hnd : (ps.map img.region.computeOffset).Nodup)
    (hlt : ∀ p ∈ ps, img.region.computeOffset p < img.buffer.length) :
    (seedLoop img ps i).voxel (img.region.computeOffset ps[j]) = some (toUInt32 (i + j + 1)) := by
  induction ps generalizing img i j with
  | nil => simp at hj
  | cons p ps ih =>
    rw [List.map_cons, List.nodup_cons] at hnd
    obtain ⟨hnotin, hnd2⟩ := hnd
    cases j with
    | zero =>
      have hps : ∀ q ∈ ps, (img.setPixel p (toUInt32 (i + 1))).region.computeOffset q
          ≠ img.region.computeOffset p := by
        intro q hq heq
        exact hnotin (List.mem_map.mpr ⟨q, hq, heq⟩)
      rw [seedLoop]
      simp only [List.getElem_cons_zero]
      rw [seedLoop_voxel_of_not_written _ _ _ _ hps]
      have hp := hlt p (List.mem_cons_self _ _)
      simp [Image.voxel, Image.setPixel, hp]
    | succ j =>
      have hj2 : j < ps.length := by simpa using hj
      have h := ih (img.setPixel p (toUInt32 (i + 1))) (i + 1) j hj2 hnd2
        (by
          intro q hq
          simpa [Image.setPixel] using hlt q (List.mem_cons_of_mem _ hq))
      rw [seedLoop]
      simp only [List.getElem_cons_succ]
      have e : i + 1 + j + 1 = i + (j + 1) + 1 := by omega
      rw [← e]
      exact h

theorem seedLabels_getPixel_peak (r : Region) (peaks : List Index3)
    (hin : ∀ p ∈ peaks, r.isInside p) (hnd : peaks.Nodup) (i : Nat) (hi : i < peaks.length) :
    (seedLabels r peaks).getPixel peaks[i] = some (toUInt32 (i + 1)) := by
  have hnd2 : (peaks.map (Image.fillBuffer r 0).region.computeOffset).Nodup := by
    apply List.Nodup.map_on _ hnd
    intro a ha b hb hab
    exact Region.computeOffset_inj r a b (hin a ha) (hin b hb) hab
  have hlt : ∀ p ∈ peaks, (Image.fillBuffer r 0).region.computeOffset p <
      (Image.fillBuffer r (0 : Nat)).buffer.length := by
    intro p hp
    simpa [Image.fillBuffer] using Region.computeOffset_lt r p (hin p hp)
  have h := seedLoop_voxel_of_written (Image.fillBuffer r 0) peaks 0 i hi hnd2 hlt
  unfold seedLabels Image.getPixel
  rw [seedLoop_region]
  simpa [Image.voxel] using h

theorem seedLabels_getPixel_other (r : Region) (peaks : List Index3)
    (hin : ∀ p ∈ peaks, r.isInside p) (q : Index3) (hq : r.isInside q) (hnot : q ∉ peaks) :
    (seedLabels r peaks).getPixel q = some 0 := by
  have hne : ∀ p ∈ peaks, (Image.fillBuffer r (0 : Nat)).region.computeOffset p ≠
      r.computeOffset q := by
    intro p hp heq
    have : p = q := Region.computeOffset_inj r p q (hin p hp) hq heq
    exact hnot (this ▸ hp)
  have h := seedLoop_voxel_of_not_written (Image.fillBuffer r 0) peaks 0 _ hne
  unfold seedLabels Image.getPixel
  rw [seedLoop_region]
  have hlt := Region.computeOffset_lt r q hq
  simpa [Image.voxel, Image.fillBuffer, hlt] using h

theorem maskImageFilter_voxel (labels : Image Nat) (mask : Image Bool) (v : Nat) :
    (maskImageFilter labels mask).voxel v =
      match labels.voxel v, mask.voxel v with
      | some a, some b => some (if b then a else 0)
      | _, _ => none := by
  unfold maskImageFilter Image.voxel
  simp only [List.getElem?_zipWith]
  cases labels.buffer[v]? <;> cases mask.buffer[v]? <;> rfl

theorem maskImageFilter_length (labels : Image Nat) (mask : Image Bool) :
    (maskImageFilter labels mask).buffer.length =
      min labels.buffer.length mask.buffer.length := by
  simp [maskImageFilter]

theorem getNumberOfTuples_of_consistent (dca : DataContainerArray) (hcons : TuplesConsistent dca)
    (dcName amName arrName : String) (dc : DataContainer) (am : AttributeMatrix) (a : DataArray)
    (hdc : getDataContainer dca dcName = some dc)
    (ham : dc.getAttributeMatrix amName = some am)
    (harr : am.getAttributeArray arrName = some a) :
    a.getNumberOfTuples = am.numTuples := by
  have h1 : dc ∈ dca := List.mem_of_find?_eq_some hdc
  have h2 : am ∈ dc.attributeMatrices := List.mem_of_find?_eq_some ham
  unfold AttributeMatrix.getAttributeArray at harr
  cases hf : am.arrays.find? (fun x => x.1 == arrName) with
  | none => simp [hf] at harr
  | some x =>
    rw [hf] at harr
    have hx : x.2 = a := by simpa using harr
    have h3 : x ∈ am.arrays := List.mem_of_find?_eq_some hf
    rw [← hx]
    exact hcons dc h1 am h2 x h3

/-! ## Lemmas on the store -/

theorem find?_modifyFirst {α : Type} (p : α → Bool) (f : α → α) (hp : ∀ a, p (f a) = p a)
    (l : List α) : (modifyFirst p f l).find? p = (l.find? p).map f := by
  induction l with
  | nil => rfl
  | cons a as ih =>
    unfold modifyFirst
    by_cases h : p a = true
    · simp [h, hp]
    · simp [h, ih]

theorem getDataContainer_modifyAttributeMatrix (dca : DataContainerArray) (dcName amName : String)
    (g : AttributeMatrix → AttributeMatrix) :
    getDataContainer (modifyAttributeMatrix dca dcName amName g) dcName =
      (getDataContainer dca dcName).map (fun dc => { dc with
        attributeMatrices :=
          modifyFirst (fun am => am.name == amName) g dc.attributeMatrices }) := by
  unfold getDataContainer modifyAttributeMatrix
  apply find?_modifyFirst
  intro a
  rfl

theorem getAttributeMatrix_modifyFirst (dc : DataContainer) (amName : String)
    (g : AttributeMatrix → AttributeMatrix) (hg : ∀ m, (g m).name = m.name) :
    DataContainer.getAttributeMatrix { dc with
        attributeMatrices := modifyFirst (fun am => am.name == amName) g dc.attributeMatrices }
      amName = (dc.getAttributeMatrix amName).map g := by
  unfold DataContainer.getAttributeMatrix
  exact find?_modifyFirst (fun am => am.name == amName) g (fun a => by simp [hg]) dc.attributeMatrices

theorem getArrayFromPath_modifyAttributeMatrix (dca : DataContainerArray) (path : DataArrayPath)
    (g : AttributeMatrix → AttributeMatrix) (hg : ∀ m, (g m).name = m.name)
    (dc : DataContainer) (am : AttributeMatrix)
    (hdc : getDataContainer dca path.dataContainerName = some dc)
    (ham : dc.getAttributeMatrix path.attributeMatrixName = some am) :
    getArrayFromPath
        (modifyAttributeMatrix dca path.dataContainerName path.attributeMatrixName g) path =
      (g am).getAttributeArray path.dataArrayName := by
  unfold getArrayFromPath
  rw [getDataContainer_modifyAttributeMatrix, hdc]
  simp only [Option.map_some']
  rw [getAttributeMatrix_modifyFirst _ _ _ hg, ham]
  rfl

theorem getAttributeArray_append_new (m : AttributeMatrix) (n : String) (a : DataArray)
    (h : m.getAttributeArray n = none) :
    AttributeMatrix.getAttributeArray { m with arrays := m.arrays ++ [(n, a)] } n = some a := by
  unfold AttributeMatrix.getAttributeArray at h ⊢
  have h2 : m.arrays.find? (fun x => x.1 == n) = none := by
    cases hf : m.arrays.find? (fun x => x.1 == n) with
    | none => rfl
    | some x => simp [hf] at h
  simp [List.find?_append, h2]

theorem getAttributeArray_modifyFirst (m : AttributeMatrix) (n : String)
    (h : String × DataArray → String × DataArray) (hh : ∀ a, (h a).1 = a.1) :
    AttributeMatrix.getAttributeArray
        { m with arrays := modifyFirst (fun a => a.1 == n) h m.arrays } n =
      ((m.arrays.find? (fun a => a.1 == n)).map h).map Prod.snd := by
  unfold AttributeMatrix.getAttributeArray
  rw [find?_modifyFirst _ _ (fun a => by simp [hh])]

/-! ## Lemmas on `dataCheck` -/

theorem getPrereqBoolArrayFromPath_ok (codes : SimplCodes) (dca : DataContainerArray)
    (path : DataArrayPath) (cDims : List Nat) (sel : List Bool)
    (h : getPrereqBoolArrayFromPath codes dca path cDims = .ok sel) :
    ∃ dc am, getDataContainer dca path.dataContainerName = some dc ∧
      dc.getAttributeMatrix path.attributeMatrixName = some am ∧
      am.getAttributeArray path.dataArrayName = some (.bool cDims sel) := by
  unfold getPrereqBoolArrayFromPath at h
  split at h
  · cases h
  · split at h
    · cases h
    · rename_i dc hdc
      split at h
      · cases h
      · rename_i am ham
        split at h
        · cases h
        · rename_i dims data harr
          split at h
          · rename_i hd
            cases h
            subst hd
            exact ⟨dc, am, hdc, ham, harr⟩
          · cases h
        · cases h

theorem createNonPrereqUInt32ArrayFromPath_ok (codes : SimplCodes) (dca dca2 : DataContainerArray)
    (path : DataArrayPath) (v : Nat) (cDims : List Nat)
    (h : createNonPrereqUInt32ArrayFromPath codes dca path v cDims = .ok dca2) :
    ∃ dc am, getDataContainer dca path.dataContainerName = some dc ∧
      dc.getAttributeMatrix path.attributeMatrixName = some am ∧
      am.getAttributeArray path.dataArrayName = none ∧
      dca2 = modifyAttributeMatrix dca path.dataContainerName path.attributeMatrixName
          (fun m => { m with
            arrays := m.arrays ++
              [(path.dataArrayName, .uint32 cDims (List.replicate m.numTuples v))] }) := by
  unfold createNonPrereqUInt32ArrayFromPath at h
  split at h
  · cases h
  · split at h
    · cases h
    · rename_i dc hdc
      split at h
      · cases h
      · rename_i am ham
        split at h
        · cases h
        · rename_i harr
          cases h
          exact ⟨dc, am, hdc, ham, harr, rfl⟩

theorem getPrereqBoolArrayFromPath_error (codes : SimplCodes) (dca : DataContainerArray)
    (path : DataArrayPath) (cDims : List Nat) (e : Int)
    (h : getPrereqBoolArrayFromPath codes dca path cDims = .error e) : e < 0 := by
  unfold getPrereqBoolArrayFromPath at h
  repeat' split at h
  all_goals first
    | (cases h; exact codes.code_neg _)
    | cases h

theorem getPrereqImageGeometry_error (codes : SimplCodes) (dc : DataContainer) (e : Int)
    (h : dc.getPrereqImageGeometry codes = .error e) : e < 0 := by
  unfold DataContainer.getPrereqImageGeometry at h
  repeat' split at h
  all_goals first
    | (cases h; exact codes.code_neg _)
    | cases h

theorem getPrereqImageGeometry_ok (codes : SimplCodes) (dc : DataContainer) (dims : Region)
    (h : dc.getPrereqImageGeometry codes = .ok dims) : dc.geometry = some (.image dims) := by
  unfold DataContainer.getPrereqImageGeometry at h
  repeat' split at h
  all_goals first
    | (cases h; assumption)
    | cases h

theorem createNonPrereqUInt32ArrayFromPath_error (codes : SimplCodes)
    (dca : DataContainerArray) (path : DataArrayPath) (v : Nat) (cDims : List Nat) (e : Int)
    (h : createNonPrereqUInt32ArrayFromPath codes dca path v cDims = .error e) : e < 0 := by
  unfold createNonPrereqUInt32ArrayFromPath at h
  repeat' split at h
  all_goals first
    | (cases h; exact codes.code_neg _)
    | cases h

namespace ItkBinaryWatershedLabeled

variable {F : Type}

theorem dataCheck_cases (codes : SimplCodes) (f : ItkBinaryWatershedLabeled F)
    (dca : DataContainerArray) :
    ((f.dataCheck codes dca).errorCondition < 0 ∧ (f.dataCheck codes dca).store = dca) ∨
    (∃ dc am sel dims,
      getDataContainer dca f.selectedCellArrayPath.dataContainerName = some dc ∧
      dc.getAttributeMatrix f.selectedCellArrayPath.attributeMatrixName = some am ∧
      am.getAttributeArray f.selectedCellArrayPath.dataArrayName = some (.bool [1] sel) ∧
      dc.geometry = some (.image dims) ∧
      am.getAttributeArray f.newCellArrayName = none ∧
      f.dataCheck codes dca =
        ⟨0, 0, storeWithNewArray f dca, some sel, some f.newCellArrayPath⟩) := by
  unfold dataCheck
  split
  · rename_i e he
    exact Or.inl ⟨getPrereqBoolArrayFromPath_error _ _ _ _ _ he, rfl⟩
  · rename_i sel hsel
    obtain ⟨dc, am, hdc, ham, harr⟩ := getPrereqBoolArrayFromPath_ok _ _ _ _ _ hsel
    split
    · rename_i hnone
      rw [hdc] at hnone
      cases hnone
    rename_i dc1 hdc1
    have e0 : dc1 = dc := by
      have := hdc1.symm.trans hdc
      simpa using this
    subst e0
    split
    · rename_i e he
      exact Or.inl ⟨getPrereqImageGeometry_error _ _ _ he, rfl⟩
    · rename_i dims hdims
      split
      · rename_i e he
        exact Or.inl ⟨createNonPrereqUInt32ArrayFromPath_error _ _ _ _ _ _ he, rfl⟩
      · rename_i dca2 hcreate
        obtain ⟨dc2, am2, hdc2, ham2, hnone, hstore⟩ :=
          createNonPrereqUInt32ArrayFromPath_ok _ _ _ _ _ _ hcreate
        have e1 : dc2 = dc1 := by
          have := hdc2.symm.trans hdc
          simpa [newCellArrayPath] using this
        subst e1
        have e2 : am2 = am := by
          have := ham2.symm.trans ham
          simpa [newCellArrayPath] using this
        subst e2
        refine Or.inr ⟨_, _, sel, dims, hdc, ham, harr,
          getPrereqImageGeometry_ok _ _ _ hdims, hnone, ?_⟩
        rw [hstore]
        rfl

theorem labelField_storeWithNewArray (f : ItkBinaryWatershedLabeled F)
    (dca : DataContainerArray) (dc : DataContainer) (am : AttributeMatrix)
    (hdc : getDataContainer dca f.selectedCellArrayPath.dataContainerName = some dc)
    (ham : dc.getAttributeMatrix f.selectedCellArrayPath.attributeMatrixName = some am)
    (hnew : am.getAttributeArray f.newCellArrayName = none) :
    f.labelField (f.storeWithNewArray dca) = some (List.replicate am.numTuples 0) := by
  unfold labelField storeWithNewArray
  have h := getArrayFromPath_modifyAttributeMatrix dca f.newCellArrayPath
    (fun m => { m with
      arrays := m.arrays ++ [(f.newCellArrayName, .uint32 [1] (List.replicate m.numTuples 0))] })
    (fun _ => rfl) dc am hdc ham
  simp only [newCellArrayPath] at h ⊢
  rw [h, getAttributeArray_append_new _ _ _ hnew]

theorem labelField_modifyUInt32ArrayData (f : ItkBinaryWatershedLabeled F)
    (dca : DataContainerArray) (dc : DataContainer) (am : AttributeMatrix)
    (g : List Nat → List Nat)
    (hdc : getDataContainer dca f.selectedCellArrayPath.dataContainerName = some dc)
    (ham : dc.getAttributeMatrix f.selectedCellArrayPath.attributeMatrixName = some am)
    (hnew : am.getAttributeArray f.newCellArrayName = none) :
    f.labelField (modifyUInt32ArrayData (f.storeWithNewArray dca) f.newCellArrayPath g) =
      some (g (List.replicate am.numTuples 0)) := by
  have hdc2 := getDataContainer_modifyAttributeMatrix dca
    f.selectedCellArrayPath.dataContainerName f.selectedCellArrayPath.attributeMatrixName
    (fun m => { m with
      arrays := m.arrays ++ [(f.newCellArrayName, .uint32 [1] (List.replicate m.numTuples 0))] })
  rw [hdc] at hdc2
  have ham2 := getAttributeMatrix_modifyFirst dc f.selectedCellArrayPath.attributeMatrixName
    (fun m => { m with
      arrays := m.arrays ++ [(f.newCellArrayName, .uint32 [1] (List.replicate m.numTuples 0))] })
    (fun _ => rfl)
  rw [ham] at ham2
  have h := getArrayFromPath_modifyAttributeMatrix (f.storeWithNewArray dca) f.newCellArrayPath
    (fun m => { m with
      arrays := modifyFirst (fun a => a.1 == f.newCellArrayPath.dataArrayName)
        (fun a => (a.1, a.2.mapUInt32 g)) m.arrays })
    (fun _ => rfl) _ _ hdc2 ham2
  have hfind : am.arrays.find? (fun x => x.1 == f.newCellArrayName) = none := by
    unfold AttributeMatrix.getAttributeArray at hnew
    cases hf : am.arrays.find? (fun x => x.1 == f.newCellArrayName) with
    | none => rfl
    | some x => simp [hf] at hnew
  unfold labelField modifyUInt32ArrayData
  rw [h, getAttributeArray_modifyFirst]
  · simp [newCellArrayPath, List.find?_append, hfind, DataArray.mapUInt32]
  · intro a
    rfl

theorem execute_of_failed [Zero F] [Sub F] (env : ItkStages F) (codes : SimplCodes)
    (f : ItkBinaryWatershedLabeled F) (dca : DataContainerArray)
    (h : (f.dataCheck codes dca).errorCondition < 0) :
    f.execute env codes dca =
      { errorCondition := -11000
        warningCondition := (f.dataCheck codes dca).warningCondition
        store := dca
        errorMessages := [(-11000, "DataCheck did not pass during execute")]
        statusMessages := []
        trace := [] } := by
  have hs : (f.dataCheck codes dca).store = dca := by
    rcases dataCheck_cases codes f dca with ⟨_, hs⟩ | ⟨_, _, _, _, _, _, _, _, _, heq⟩
    · exact hs
    · rw [heq] at h
      simp at h
  unfold execute
  simp only [h, if_true, hs]

/-- What a passed `dataCheck` establishes, and what `execute` then runs. -/
theorem execute_of_passed [Zero F] [Sub F] (env : ItkStages F) (codes : SimplCodes)
    (f : ItkBinaryWatershedLabeled F) (dca : DataContainerArray)
    (h : ¬ (f.dataCheck codes dca).errorCondition < 0) :
    ∃ dc am sel dims,
      getDataContainer dca f.selectedCellArrayPath.dataContainerName = some dc ∧
      dc.getAttributeMatrix f.selectedCellArrayPath.attributeMatrixName = some am ∧
      am.getAttributeArray f.selectedCellArrayPath.dataArrayName = some (.bool [1] sel) ∧
      am.getAttributeArray f.newCellArrayName = none ∧
      f.inputImage codes dca = some ⟨dims, sel⟩ ∧
      f.execute env codes dca =
        runPipeline env f ⟨0, 0, f.storeWithNewArray dca, some sel, some f.newCellArrayPath⟩
          ⟨dims, sel⟩ := by
  rcases dataCheck_cases codes f dca with ⟨hneg, _⟩ | ⟨dc, am, sel, dims, hdc, ham, harr, hgeom, hnew, heq⟩
  · exact absurd hneg h
  · have hin : f.inputImage codes dca = some ⟨dims, sel⟩ := by
      unfold inputImage
      rw [heq]
      simp only
      unfold storeWithNewArray
      rw [getDataContainer_modifyAttributeMatrix, hdc]
      simp [createItkWrapperForDataPointer, hgeom]
    refine ⟨dc, am, sel, dims, hdc, ham, harr, hnew, hin, ?_⟩
    unfold execute
    simp only [hin]
    rw [heq]
    simp

theorem runPipeline_labelField [Zero F] [Sub F] (env : ItkStages F)
    (f : ItkBinaryWatershedLabeled F) (dca : DataContainerArray) (dc : DataContainer)
    (am : AttributeMatrix) (sel : Option (List Bool)) (img : Image Bool)
    (hdc : getDataContainer dca f.selectedCellArrayPath.dataContainerName = some dc)
    (ham : dc.getAttributeMatrix f.selectedCellArrayPath.attributeMatrixName = some am)
    (hnew : am.getAttributeArray f.newCellArrayName = none) :
    f.labelField (runPipeline env f
        ⟨0, 0, f.storeWithNewArray dca, sel, some f.newCellArrayPath⟩ img).store =
      some (labelsAfterRun env f.peakTolerance img (List.replicate am.numTuples 0)) := by
  unfold runPipeline labelsAfterRun
  simp only
  split
  · rename_i out hout
    rw [labelField_modifyUInt32ArrayData f dca dc am _ hdc ham hnew]
  · rename_i e he
    rw [labelField_storeWithNewArray f dca dc am hdc ham hnew]

theorem runPipeline_errorCondition [Zero F] [Sub F] (env : ItkStages F)
    (f : ItkBinaryWatershedLabeled F) (dc : DataCheckResult) (img : Image Bool) :
    (runPipeline env f dc img).errorCondition =
      if (env.signedMaurerDistanceMap true img).exception = none ∧
          (env.morphologicalWatershedFromMarkers
            (invertIntensity 0 (env.signedMaurerDistanceMap true img).output)
            (seedLabels img.region (env.localMaximaFind
              (env.signedMaurerDistanceMap true img).output f.peakTolerance true))
            false).exception = none
      then dc.errorCondition else -5 := by
  unfold runPipeline maskUpdate
  simp only
  rcases Option.eq_none_or_eq_some (env.signedMaurerDistanceMap true img).exception with
    hD | ⟨e, hD⟩
  · rcases Option.eq_none_or_eq_some (env.morphologicalWatershedFromMarkers
            (invertIntensity 0 (env.signedMaurerDistanceMap true img).output)
            (seedLabels img.region (env.localMaximaFind
              (env.signedMaurerDistanceMap true img).output f.peakTolerance true))
            false).exception with hW | ⟨e, hW⟩
    · simp [hD, hW]
    · simp [hD, hW]
  · simp [hD]

theorem importedBufferAfterUpdate_of_length_eq (out old : List Nat)
    (h : out.length = old.length) : importedBufferAfterUpdate out old = out := by
  unfold importedBufferAfterUpdate
  rw [if_pos (le_of_eq h), List.drop_of_length_le (le_of_eq h.symm), List.append_nil]

/-- Error condition and trace of `execute` after a passed `dataCheck`, in terms
of the wrapped input image alone. -/
theorem execute_of_passed_input [Zero F] [Sub F] (env : ItkStages F) (codes : SimplCodes)
    (f : ItkBinaryWatershedLabeled F) (dca : DataContainerArray) (mask : Image Bool)
    (hpass : ¬ (f.dataCheck codes dca).errorCondition < 0)
    (hmask : f.inputImage codes dca = some mask) :
    (f.execute env codes dca).errorCondition =
        (if (env.signedMaurerDistanceMap true mask).exception = none ∧
          (env.morphologicalWatershedFromMarkers
            (invertIntensity 0 (env.signedMaurerDistanceMap true mask).output)
            (seedLabels mask.region (env.localMaximaFind
              (env.signedMaurerDistanceMap true mask).output f.peakTolerance true))
            false).exception = none
        then 0 else -5) ∧
      (f.execute env codes dca).trace =
        [Stage.distanceMap, Stage.localMaxima, Stage.seedLabels] ++
          (maskUpdate env mask (env.signedMaurerDistanceMap true mask)
            (seedLabels mask.region (env.localMaximaFind
              (env.signedMaurerDistanceMap true mask).output f.peakTolerance true))).2 ∧
      ∃ n, f.labelField (f.execute env codes dca).store =
        some (labelsAfterRun env f.peakTolerance mask (List.replicate n 0)) := by
  obtain ⟨dc, am, sel, dims, hdc, ham, harr, hnew, hin, hexec⟩ :=
    execute_of_passed env codes f dca hpass
  rw [hin] at hmask
  have hm : mask = ⟨dims, sel⟩ := (Option.some.inj hmask).symm
  subst hm
  rw [hexec]
  refine ⟨?_, rfl, am.numTuples, ?_⟩
  · rw [runPipeline_errorCondition]
  · rw [runPipeline_labelField env f dca dc am _ _ hdc ham hnew]

/-- The label field `execute` leaves behind after a passed `dataCheck` on a
store whose arrays have the tuple count of their attribute matrix. -/
theorem execute_labelField_of_passed [Zero F] [Sub F] (env : ItkStages F) (codes : SimplCodes)
    (f : ItkBinaryWatershedLabeled F) (dca : DataContainerArray) (mask : Image Bool)
    (hpass : ¬ (f.dataCheck codes dca).errorCondition < 0)
    (hmask : f.inputImage codes dca = some mask)
    (hcons : TuplesConsistent dca) :
    f.labelField (f.execute env codes dca).store =
      some (labelsAfterRun env f.peakTolerance mask
        (List.replicate mask.buffer.length 0)) := by
  obtain ⟨dc, am, sel, dims, hdc, ham, harr, hnew, hin, hexec⟩ :=
    execute_of_passed env codes f dca hpass
  rw [hin] at hmask
  have hm : mask = ⟨dims, sel⟩ := (Option.some.inj hmask).symm
  have hlen : sel.length = am.numTuples :=
    getNumberOfTuples_of_consistent dca hcons _ _ _ dc am _ hdc ham harr
  subst hm
  rw [hexec, runPipeline_labelField env f dca dc am _ _ hdc ham hnew, hlen]

/-- When both ITK updates succeed, the created array holds the imported output
of the mask filter. -/
theorem labelsAfterRun_of_ok [Zero F] [Sub F] (env : ItkStages F) (tolerance : F)
    (mask : Image Bool) (old : List Nat)
    (hD : (env.signedMaurerDistanceMap true mask).exception = none)
    (hW : (env.morphologicalWatershedFromMarkers
            (invertIntensity 0 (env.signedMaurerDistanceMap true mask).output)
            (seedLabels mask.region (env.localMaximaFind
              (env.signedMaurerDistanceMap true mask).output tolerance true))
            false).exception = none) :
    labelsAfterRun env tolerance mask old =
      importedBufferAfterUpdate
        (maskImageFilter
          (env.morphologicalWatershedFromMarkers
            (invertIntensity 0 (env.signedMaurerDistanceMap true mask).output)
            (seedLabels mask.region (env.localMaximaFind
              (env.signedMaurerDistanceMap true mask).output tolerance true))
            false).output mask).buffer old := by
  unfold labelsAfterRun maskUpdate
  simp [hD, hW]

/-- When an ITK update throws, the created array keeps its contents. -/
theorem labelsAfterRun_of_exception [Zero F] [Sub F] (env : ItkStages F) (tolerance : F)
    (mask : Image Bool) (old : List Nat)
    (h : ¬ ((env.signedMaurerDistanceMap true mask).exception = none ∧
          (env.morphologicalWatershedFromMarkers
            (invertIntensity 0 (env.signedMaurerDistanceMap true mask).output)
            (seedLabels mask.region (env.localMaximaFind
              (env.signedMaurerDistanceMap true mask).output tolerance true))
            false).exception = none)) :
    labelsAfterRun env tolerance mask old = old := by
  unfold labelsAfterRun maskUpdate
  rcases Option.eq_none_or_eq_some (env.signedMaurerDistanceMap true mask).exception with
    hD | ⟨e, hD⟩
  · rcases Option.eq_none_or_eq_some (env.morphologicalWatershedFromMarkers
            (invertIntensity 0 (env.signedMaurerDistanceMap true mask).output)
            (seedLabels mask.region (env.localMaximaFind
              (env.signedMaurerDistanceMap true mask).output tolerance true))
            false).exception with hW | ⟨e, hW⟩
    · exact absurd ⟨hD, hW⟩ h
    · simp [hD, hW]
  · simp [hD]

/-- The error messages of `execute` after a passed `dataCheck`, in terms of the
wrapped input image alone. -/
theorem execute_errorMessages_of_passed [Zero F] [Sub F] (env : ItkStages F)
    (codes : SimplCodes) (f : ItkBinaryWatershedLabeled F) (dca : DataContainerArray)
    (mask : Image Bool)
    (hpass : ¬ (f.dataCheck codes dca).errorCondition < 0)
    (hmask : f.inputImage codes dca = some mask) :
    (∀ d, (env.signedMaurerDistanceMap true mask).exception = some d →
      (f.execute env codes dca).errorMessages =
        [(-5, exceptionMessage d), (-5, exceptionMessage d)]) ∧
    ((env.signedMaurerDistanceMap true mask).exception = none →
      (∀ d, (env.morphologicalWatershedFromMarkers
            (invertIntensity 0 (env.signedMaurerDistanceMap true mask).output)
            (seedLabels mask.region (env.localMaximaFind
              (env.signedMaurerDistanceMap true mask).output f.peakTolerance true))
            false).exception = some d →
        (f.execute env codes dca).errorMessages = [(-5, exceptionMessage d)]) ∧
      ((env.morphologicalWatershedFromMarkers
            (invertIntensity 0 (env.signedMaurerDistanceMap true mask).output)
            (seedLabels mask.region (env.localMaximaFind
              (env.signedMaurerDistanceMap true mask).output f.peakTolerance true))
            false).exception = none →
        (f.execute env codes dca).errorMessages = [])) := by
  obtain ⟨dc, am, sel, dims, hdc, ham, harr, hnew, hin, hexec⟩ :=
    execute_of_passed env codes f dca hpass
  rw [hin] at hmask
  have hm : mask = ⟨dims, sel⟩ := (Option.some.inj hmask).symm
  subst hm
  rw [hexec]
  refine ⟨?_, ?_⟩
  · intro d hd
    unfold runPipeline maskUpdate
    simp [hd]
  · intro hD
    refine ⟨?_, ?_⟩
    · intro d hd
      unfold runPipeline maskUpdate
      simp [hD, hd]
    · intro hW
      unfold runPipeline maskUpdate
      simp [hD, hW]

end ItkBinaryWatershedLabeled

/-! ## Properties of `ItkBinaryWatershedLabeled` -/

namespace ItkBinaryWatershedLabeled

variable {F : Type}

/-- C1: with every external stage taken as a total function, and on a store
that passes `dataCheck` and wraps the input image `mask`, the label field that
`execute` leaves in the store is the buffer of
`Mask(Watershed(Invert(D), Seeds(FindMaxima(D, tolerance, true)), false), mask)`
with `D = SignedDistance(mask, true)`, and the stages run in this forward
order; the watershed is assumed to return as many voxels as the mask has. -/
theorem execute_refines_segmentSpec [Zero F] [Sub F]
    (signedDistance : Bool → Image Bool → Image F)
    (findMaxima : Image F → F → Bool → List Index3)
    (watershed : Image F → Image Nat → Bool → Image Nat)
    (codes : SimplCodes) (f : ItkBinaryWatershedLabeled F) (dca : DataContainerArray)
    (mask : Image Bool)
    (hpass : ¬ (f.dataCheck codes dca).errorCondition < 0)
    (hmask : f.inputImage codes dca = some mask)
    (hcons : TuplesConsistent dca)
    (hsize : (watershed (invertIntensity 0 (signedDistance true mask))
        (seedLabels mask.region (findMaxima (signedDistance true mask) f.peakTolerance true))
        false).buffer.length = mask.buffer.length) :
    f.labelField
        (f.execute (ItkStages.ofFunctions signedDistance findMaxima watershed) codes dca).store =
      some (segmentSpec signedDistance findMaxima watershed mask f.peakTolerance).buffer ∧
    (f.execute (ItkStages.ofFunctions signedDistance findMaxima watershed) codes dca).trace =
      [Stage.distanceMap, Stage.localMaxima, Stage.seedLabels, Stage.invert, Stage.watershed,
        Stage.mask] := by
  have hlab := execute_labelField_of_passed
    (ItkStages.ofFunctions signedDistance findMaxima watershed) codes f dca mask hpass hmask hcons
  have htr := (execute_of_passed_input
    (ItkStages.ofFunctions signedDistance findMaxima watershed) codes f dca mask hpass hmask).2.1
  constructor
  · rw [hlab, labelsAfterRun_of_ok _ _ _ _ rfl rfl]
    congr 1
    apply importedBufferAfterUpdate_of_length_eq
    rw [maskImageFilter_length, List.length_replicate]
    simp only [ItkStages.ofFunctions]
    rw [hsize, Nat.min_self]
  · rw [htr]
    rfl

theorem execute_refines_segmentSpec_witness :
    ¬ (demoFilter.dataCheck demoCodes (demoStore [true, false, true, false])).errorCondition < 0 ∧
    demoFilter.inputImage demoCodes (demoStore [true, false, true, false]) =
      some ⟨⟨2, 2, 1⟩, [true, false, true, false]⟩ ∧
    TuplesConsistent (demoStore [true, false, true, false]) ∧
    demoFilter.labelField
        (demoFilter.execute (ItkStages.ofFunctions demoDistance demoFind demoFlood) demoCodes
          (demoStore [true, false, true, false])).store =
      some (segmentSpec demoDistance demoFind demoFlood ⟨⟨2, 2, 1⟩, [true, false, true, false]⟩
        demoFilter.peakTolerance).buffer :=
  ⟨by decide, by decide, by decide,
    (execute_refines_segmentSpec demoDistance demoFind demoFlood demoCodes demoFilter
      (demoStore [true, false, true, false]) ⟨⟨2, 2, 1⟩, [true, false, true, false]⟩
      (by decide) (by decide) (by decide) (by decide)).1⟩

end ItkBinaryWatershedLabeled

/-! ## Properties of the seed label image -/

/-- C2 (amended): for every grid and every list of fewer than `2 ^ 32`
pairwise-distinct in-bounds peaks, the seed image holds the label `i + 1` at
`peaks[i]` and 0 at every other voxel of the grid, every non-zero label lies in
`1..N`, and each label of `1..N` occurs on exactly one voxel. -/
theorem seedLabels_spec (r : Region) (peaks : List Index3)
    (hin : ∀ p ∈ peaks, r.isInside p) (hnd : peaks.Nodup) (hN : peaks.length < 2 ^ 32) :
    (∀ i (hi : i < peaks.length), (seedLabels r peaks).getPixel peaks[i] = some (i + 1)) ∧
    (∀ q, r.isInside q → q ∉ peaks → (seedLabels r peaks).getPixel q = some 0) ∧
    (∀ q l, r.isInside q → (seedLabels r peaks).getPixel q = some l → l ≠ 0 →
      1 ≤ l ∧ l ≤ peaks.length) ∧
    (∀ l, 1 ≤ l → l ≤ peaks.length →
      ∃! q, r.isInside q ∧ (seedLabels r peaks).getPixel q = some l) := by
  have hpeak : ∀ i (hi : i < peaks.length),
      (seedLabels r peaks).getPixel peaks[i] = some (i + 1) := by
    intro i hi
    rw [seedLabels_getPixel_peak r peaks hin hnd i hi]
    have : i + 1 < 2 ^ 32 := by omega
    rw [toUInt32, Nat.mod_eq_of_lt this]
  have hother := seedLabels_getPixel_other r peaks hin
  have hnonzero : ∀ q l, r.isInside q → (seedLabels r peaks).getPixel q = some l → l ≠ 0 →
      ∃ i, ∃ hi : i < peaks.length, peaks[i] = q ∧ l = i + 1 := by
    intro q l hq hl hl0
    by_cases hmem : q ∈ peaks
    · obtain ⟨i, hi, hiq⟩ := List.getElem_of_mem hmem
      refine ⟨i, hi, hiq, ?_⟩
      have := hpeak i hi
      rw [hiq, hl] at this
      exact Option.some.inj this
    · have := hother q hq hmem
      rw [hl] at this
      exact absurd (Option.some.inj this) hl0
  refine ⟨hpeak, hother, ?_, ?_⟩
  · intro q l hq hl hl0
    obtain ⟨i, hi, _, rfl⟩ := hnonzero q l hq hl hl0
    omega
  · intro l h1 hlN
    have hi : l - 1 < peaks.length := by omega
    refine ⟨peaks[l - 1], ⟨hin _ (List.getElem_mem _), ?_⟩, ?_⟩
    · rw [hpeak (l - 1) hi]
      congr 1
      omega
    · rintro q ⟨hq, hl⟩
      obtain ⟨i, hi2, hiq, hli⟩ := hnonzero q l hq hl (by omega)
      subst hiq
      congr 1
      omega

/-- C2 (counterexample): on a row of `2 ^ 32` voxels with every voxel a peak,
the peaks are in bounds and pairwise distinct, yet the last peak, of index
`2 ^ 32 - 1`, carries the label 0 and not `2 ^ 32`: the counter is cut to 32
bits. -/
theorem wrapPeaks_overflow :
    (∀ p ∈ wrapPeaks, wrapRegion.isInside p) ∧ wrapPeaks.Nodup ∧
      wrapPeaks[2 ^ 32 - 1]? = some ⟨2 ^ 32 - 1, 0, 0⟩ ∧
      (seedLabels wrapRegion wrapPeaks).getPixel ⟨2 ^ 32 - 1, 0, 0⟩ = some 0 ∧
      (seedLabels wrapRegion wrapPeaks).getPixel ⟨2 ^ 32 - 1, 0, 0⟩ ≠ some (2 ^ 32 - 1 + 1) := by
  have hin : ∀ p ∈ wrapPeaks, wrapRegion.isInside p := by
    intro p hp
    obtain ⟨i, hi, rfl⟩ := List.mem_map.mp hp
    exact ⟨List.mem_range.mp hi, Nat.one_pos, Nat.one_pos⟩
  have hnd : wrapPeaks.Nodup := by
    apply List.Nodup.map _ (List.nodup_range _)
    intro a b hab
    exact congrArg Index3.x hab
  have hlen : wrapPeaks.length = 2 ^ 32 := by
    unfold wrapPeaks
    rw [List.length_map, List.length_range]
  have hi : 2 ^ 32 - 1 < wrapPeaks.length := by
    rw [hlen]
    exact Nat.sub_lt (Nat.pos_pow_of_pos 32 (by decide)) Nat.one_pos
  have hget : wrapPeaks[2 ^ 32 - 1] = ⟨2 ^ 32 - 1, 0, 0⟩ := by
    unfold wrapPeaks
    rw [List.getElem_map, List.getElem_range]
  have hlabel := seedLabels_getPixel_peak wrapRegion wrapPeaks hin hnd (2 ^ 32 - 1) hi
  rw [hget] at hlabel
  have hzero : toUInt32 (2 ^ 32 - 1 + 1) = 0 := by
    unfold toUInt32
    decide
  rw [hzero] at hlabel
  refine ⟨hin, hnd, ?_, hlabel, ?_⟩
  · rw [List.getElem?_eq_getElem hi, hget]
  · rw [hlabel]
    intro h
    have := Option.some.inj h
    revert this
    decide

theorem seedLabels_spec_witness :
    (∀ p ∈ demoPeaks, demoRegion.isInside p) ∧ demoPeaks.Nodup ∧ demoPeaks.length < 2 ^ 32 ∧
      (seedLabels demoRegion demoPeaks).getPixel ⟨0, 1, 0⟩ = some 2 ∧
      (seedLabels demoRegion demoPeaks).getPixel ⟨0, 0, 0⟩ = some 0 :=
  ⟨by decide, by decide, by decide,
    (seedLabels_spec demoRegion demoPeaks (by decide) (by decide) (by decide)).1 1 (by decide),
    (seedLabels_spec demoRegion demoPeaks (by decide) (by decide) (by decide)).2.1 ⟨0, 0, 0⟩
      (by decide) (by decide)⟩

namespace ItkBinaryWatershedLabeled

variable {F : Type}

/-- C3: on a store that passes `dataCheck` and wraps the input image `mask`,
when the distance map update succeeds and the watershed returns the label
field `raw` with as many voxels as the mask, the label field `execute` leaves
in the store has the size of the mask, equals `raw` at every voxel where the
mask is true and is 0 at every voxel where the mask is false. -/
theorem execute_output_masked [Zero F] [Sub F] (env : ItkStages F) (codes : SimplCodes)
    (f : ItkBinaryWatershedLabeled F) (dca : DataContainerArray) (mask : Image Bool)
    (raw : Image Nat)
    (hpass : ¬ (f.dataCheck codes dca).errorCondition < 0)
    (hmask : f.inputImage codes dca = some mask)
    (hcons : TuplesConsistent dca)
    (hD : (env.signedMaurerDistanceMap true mask).exception = none)
    (hW : env.morphologicalWatershedFromMarkers
        (invertIntensity 0 (env.signedMaurerDistanceMap true mask).output)
        (seedLabels mask.region (env.localMaximaFind
          (env.signedMaurerDistanceMap true mask).output f.peakTolerance true))
        false = ⟨raw, none⟩)
    (hsize : raw.buffer.length = mask.buffer.length) :
    ∃ out, f.labelField (f.execute env codes dca).store = some out ∧
      out.length = mask.buffer.length ∧
      (∀ v, mask.voxel v = some true → out[v]? = raw.voxel v) ∧
      (∀ v, mask.voxel v = some false → out[v]? = some 0) := by
  have hlab := execute_labelField_of_passed env codes f dca mask hpass hmask hcons
  rw [labelsAfterRun_of_ok _ _ _ _ hD (by rw [hW]), hW] at hlab
  have hlen : (maskImageFilter raw mask).buffer.length = mask.buffer.length := by
    rw [maskImageFilter_length, hsize, Nat.min_self]
  rw [importedBufferAfterUpdate_of_length_eq _ _ (by rw [hlen, List.length_replicate])] at hlab
  refine ⟨_, hlab, hlen, ?_, ?_⟩
  · intro v hv
    have h := maskImageFilter_voxel raw mask v
    rw [hv] at h
    unfold Image.voxel at h
    rw [h]
    unfold Image.voxel
    cases raw.buffer[v]? <;> simp
  · intro v hv
    have h := maskImageFilter_voxel raw mask v
    rw [hv] at h
    unfold Image.voxel at h
    rw [h]
    have hv2 : v < raw.buffer.length := by
      unfold Image.voxel at hv
      have := (List.getElem?_eq_some_iff.mp hv).1
      omega
    simp [Image.voxel, List.getElem?_eq_getElem hv2]

theorem execute_output_masked_witness :
    ¬ (demoFilter.dataCheck demoCodes (demoStore [true, false, true, false])).errorCondition < 0 ∧
    demoFilter.inputImage demoCodes (demoStore [true, false, true, false]) =
      some ⟨⟨2, 2, 1⟩, [true, false, true, false]⟩ ∧
    TuplesConsistent (demoStore [true, false, true, false]) ∧
    ∃ out, demoFilter.labelField
        (demoFilter.execute floodStages demoCodes (demoStore [true, false, true, false])).store =
        some out ∧
      out.length = 4 ∧
      (∀ v, Image.voxel ⟨⟨2, 2, 1⟩, [true, false, true, false]⟩ v = some true →
        out[v]? = Image.voxel ⟨⟨2, 2, 1⟩, [1, 1, 1, 1]⟩ v) ∧
      (∀ v, Image.voxel ⟨⟨2, 2, 1⟩, [true, false, true, false]⟩ v = some false →
        out[v]? = some 0) :=
  ⟨by decide, by decide, by decide,
    execute_output_masked floodStages demoCodes demoFilter
      (demoStore [true, false, true, false]) ⟨⟨2, 2, 1⟩, [true, false, true, false]⟩
      ⟨⟨2, 2, 1⟩, [1, 1, 1, 1]⟩ (by decide) (by decide) (by decide) rfl rfl rfl⟩

end ItkBinaryWatershedLabeled

/-- The inversion with maximum 0 of an image with values in a linearly ordered
additive group is `0 - x` at every voxel; it reverses the order of any two
voxels, and a voxel of maximal value has the minimal inverted value. -/
theorem invertIntensity_zero_reverses_order {F : Type} [LinearOrderedAddCommGroup F]
    (D : Image F) :
    (∀ v, (invertIntensity 0 D).voxel v = (D.voxel v).map (fun d => 0 - d)) ∧
    (∀ a b da db ea eb, D.voxel a = some da → D.voxel b = some db →
      (invertIntensity 0 D).voxel a = some ea → (invertIntensity 0 D).voxel b = some eb →
      (da < db ↔ ea > eb)) ∧
    (∀ a da ea, D.voxel a = some da → (invertIntensity 0 D).voxel a = some ea →
      (∀ b db, D.voxel b = some db → db ≤ da) →
      ∀ b eb, (invertIntensity 0 D).voxel b = some eb → ea ≤ eb) := by
  have hv : ∀ v, (invertIntensity 0 D).voxel v = (D.voxel v).map (fun d => 0 - d) := by
    intro v
    simp [invertIntensity, Image.voxel]
  have hval : ∀ v d e, D.voxel v = some d → (invertIntensity 0 D).voxel v = some e →
      e = -d := by
    intro v d e hd he
    rw [hv, hd] at he
    simpa using he.symm
  refine ⟨hv, ?_, ?_⟩
  · intro a b da db ea eb hda hdb hea heb
    rw [hval a da ea hda hea, hval b db eb hdb heb]
    exact neg_lt_neg_iff.symm
  · intro a da ea hda hea hmax b eb heb
    rw [hv] at heb
    cases hdb : D.voxel b with
    | none => simp [hdb] at heb
    | some db =>
      have h1 := hmax b db hdb
      rw [hdb] at heb
      have h2 : eb = -db := by simpa using heb.symm
      rw [hval a da ea hda hea, h2]
      exact neg_le_neg h1

namespace ItkBinaryWatershedLabeled

variable {F : Type}

/-- C4: on a store that passes `dataCheck` and wraps the input image `mask`,
when the distance map update succeeds with the distance field `D`, whatever
`D` is, the flooding surface on which `execute` runs the watershed is the
inversion of `D` with maximum 0: the error condition and the label field that
`execute` leaves are those of the watershed stage applied to that surface, for
every watershed stage.  The surface is `0 - distance[v]` at every voxel, the
order of any two voxels is reversed, and a voxel of maximal distance has
minimal elevation. -/
theorem execute_floods_inverted_distance [LinearOrderedAddCommGroup F] (env : ItkStages F)
    (codes : SimplCodes) (f : ItkBinaryWatershedLabeled F) (dca : DataContainerArray)
    (mask : Image Bool) (D : Image F)
    (hpass : ¬ (f.dataCheck codes dca).errorCondition < 0)
    (hmask : f.inputImage codes dca = some mask)
    (hcons : TuplesConsistent dca)
    (hD : env.signedMaurerDistanceMap true mask = ⟨D, none⟩) :
    ∃ elevation : Image F,
      elevation.region = D.region ∧
      (∀ v, elevation.voxel v = (D.voxel v).map (fun d => 0 - d)) ∧
      (∀ a b da db ea eb, D.voxel a = some da → D.voxel b = some db →
        elevation.voxel a = some ea → elevation.voxel b = some eb → (da < db ↔ ea > eb)) ∧
      (∀ a da ea, D.voxel a = some da → elevation.voxel a = some ea →
        (∀ b db, D.voxel b = some db → db ≤ da) →
        ∀ b eb, elevation.voxel b = some eb → ea ≤ eb) ∧
      (f.execute env codes dca).errorCondition =
        (if (env.morphologicalWatershedFromMarkers elevation
              (seedLabels mask.region (env.localMaximaFind D f.peakTolerance true))
              false).exception = none
          then 0 else -5) ∧
      f.labelField (f.execute env codes dca).store = some
        (if (env.morphologicalWatershedFromMarkers elevation
              (seedLabels mask.region (env.localMaximaFind D f.peakTolerance true))
              false).exception = none
          then importedBufferAfterUpdate
            (maskImageFilter
              (env.morphologicalWatershedFromMarkers elevation
                (seedLabels mask.region (env.localMaximaFind D f.peakTolerance true))
                false).output mask).buffer
            (List.replicate mask.buffer.length 0)
          else List.replicate mask.buffer.length 0) := by
  have hDe : (env.signedMaurerDistanceMap true mask).exception = none := by rw [hD]
  have hDo : (env.signedMaurerDistanceMap true mask).output = D := by rw [hD]
  obtain ⟨hv, hord, hmax⟩ := invertIntensity_zero_reverses_order D
  refine ⟨invertIntensity 0 D, rfl, hv, hord, hmax, ?_, ?_⟩
  · rw [(execute_of_passed_input env codes f dca mask hpass hmask).1, hDo]
    simp only [hDe, true_and]
  · rw [execute_labelField_of_passed env codes f dca mask hpass hmask hcons]
    by_cases hW : (env.morphologicalWatershedFromMarkers (invertIntensity 0 D)
        (seedLabels mask.region (env.localMaximaFind D f.peakTolerance true))
        false).exception = none
    · rw [if_pos hW, labelsAfterRun_of_ok _ _ _ _ hDe (by rw [hDo]; exact hW), hDo]
    · rw [if_neg hW, labelsAfterRun_of_exception]
      rw [hDo]
      exact fun h => hW h.2

theorem execute_floods_inverted_distance_witness :
    ¬ (demoFilter.dataCheck demoCodes (demoStore [true, false, true, true])).errorCondition < 0 ∧
    demoFilter.inputImage demoCodes (demoStore [true, false, true, true]) =
      some ⟨⟨2, 2, 1⟩, [true, false, true, true]⟩ ∧
    TuplesConsistent (demoStore [true, false, true, true]) ∧
    probeStages.signedMaurerDistanceMap true ⟨⟨2, 2, 1⟩, [true, false, true, true]⟩ =
      ⟨⟨⟨2, 2, 1⟩, [1, -1, 1, 1]⟩, none⟩ ∧
    (∃ elevation : Image Int,
      elevation.region = ⟨2, 2, 1⟩ ∧
      (∀ v, elevation.voxel v =
        (Image.voxel ⟨⟨2, 2, 1⟩, [(1 : Int), -1, 1, 1]⟩ v).map (fun d => 0 - d)) ∧
      (demoFilter.execute probeStages demoCodes
          (demoStore [true, false, true, true])).errorCondition =
        (if (probeStages.morphologicalWatershedFromMarkers elevation
              (seedLabels ⟨2, 2, 1⟩ (probeStages.localMaximaFind
                ⟨⟨2, 2, 1⟩, [1, -1, 1, 1]⟩ demoFilter.peakTolerance true))
              false).exception = none
          then 0 else -5)) ∧
    demoFilter.labelField (demoFilter.execute probeStages demoCodes
      (demoStore [true, false, true, true])).store = some [1, 0, 1, 1] :=
  ⟨by decide, by decide, by decide, rfl,
    (execute_floods_inverted_distance probeStages demoCodes demoFilter
      (demoStore [true, false, true, true]) ⟨⟨2, 2, 1⟩, [true, false, true, true]⟩
      ⟨⟨2, 2, 1⟩, [1, -1, 1, 1]⟩ (by decide) (by decide) (by decide) rfl).imp
      (fun _ h => ⟨h.1, h.2.1, h.2.2.2.2.1⟩),
    by decide⟩

/-- The label field and the error condition that `execute` leaves depend on the
store through the wrapped input image only: with the same stages and the same
peak tolerance, two stores that pass `dataCheck` and wrap the same input image
give the same label field and the same error condition, whatever else the two
stores hold and however the arrays are named. -/
theorem execute_depends_on_input_image [Zero F] [Sub F] (env : ItkStages F)
    (codes1 codes2 : SimplCodes) (f1 f2 : ItkBinaryWatershedLabeled F)
    (dca1 dca2 : DataContainerArray) (mask : Image Bool)
    (hpass1 : ¬ (f1.dataCheck codes1 dca1).errorCondition < 0)
    (hpass2 : ¬ (f2.dataCheck codes2 dca2).errorCondition < 0)
    (hmask1 : f1.inputImage codes1 dca1 = some mask)
    (hmask2 : f2.inputImage codes2 dca2 = some mask)
    (hcons1 : TuplesConsistent dca1) (hcons2 : TuplesConsistent dca2)
    (htol : f1.peakTolerance = f2.peakTolerance) :
    f1.labelField (f1.execute env codes1 dca1).store =
        f2.labelField (f2.execute env codes2 dca2).store ∧
      (f1.execute env codes1 dca1).errorCondition =
        (f2.execute env codes2 dca2).errorCondition := by
  constructor
  · rw [execute_labelField_of_passed env codes1 f1 dca1 mask hpass1 hmask1 hcons1,
      execute_labelField_of_passed env codes2 f2 dca2 mask hpass2 hmask2 hcons2, htol]
  · rw [(execute_of_passed_input env codes1 f1 dca1 mask hpass1 hmask1).1,
      (execute_of_passed_input env codes2 f2 dca2 mask hpass2 hmask2).1, htol]

theorem execute_depends_on_input_image_example :
    ¬ (demoFilter.dataCheck demoCodes (demoStore [true, false, true, false])).errorCondition < 0 ∧
    ¬ (otherFilter.dataCheck demoCodes
        (otherStore [true, false, true, false])).errorCondition < 0 ∧
    demoFilter.inputImage demoCodes (demoStore [true, false, true, false]) =
      some ⟨⟨2, 2, 1⟩, [true, false, true, false]⟩ ∧
    otherFilter.inputImage demoCodes (otherStore [true, false, true, false]) =
      some ⟨⟨2, 2, 1⟩, [true, false, true, false]⟩ ∧
    demoFilter.labelField
        (demoFilter.execute floodStages demoCodes (demoStore [true, false, true, false])).store =
      otherFilter.labelField
        (otherFilter.execute floodStages demoCodes
          (otherStore [true, false, true, false])).store :=
  ⟨by decide, by decide, by decide, by decide,
    (execute_depends_on_input_image floodStages demoCodes demoCodes demoFilter otherFilter
      (demoStore [true, false, true, false]) (otherStore [true, false, true, false])
      ⟨⟨2, 2, 1⟩, [true, false, true, false]⟩ (by decide) (by decide) (by decide) (by decide)
      (by decide) (by decide) rfl).1⟩

/-- C7 (the code at the failing input): on a store that passes `dataCheck`,
when the distance map update throws, `execute` sets the error condition -5 but
does not return: the maxima extraction and the seed construction run after the
failed stage. -/
theorem execute_continues_after_distance_failure [Zero F] [Sub F] (env : ItkStages F)
    (codes : SimplCodes) (f : ItkBinaryWatershedLabeled F) (dca : DataContainerArray)
    (mask : Image Bool) (e : String)
    (hpass : ¬ (f.dataCheck codes dca).errorCondition < 0)
    (hmask : f.inputImage codes dca = some mask)
    (hfail : (env.signedMaurerDistanceMap true mask).exception = some e) :
    (f.execute env codes dca).errorCondition = -5 ∧
      Stage.localMaxima ∈ (f.execute env codes dca).trace ∧
      Stage.seedLabels ∈ (f.execute env codes dca).trace := by
  obtain ⟨herr, htr, _⟩ := execute_of_passed_input env codes f dca mask hpass hmask
  refine ⟨?_, ?_, ?_⟩
  · rw [herr, if_neg]
    rintro ⟨h, _⟩
    rw [hfail] at h
    cases h
  · rw [htr]
    simp
  · rw [htr]
    simp

theorem execute_continues_after_distance_failure_witness :
    ¬ (demoFilter.dataCheck demoCodes (demoStore [true, false, true, false])).errorCondition < 0 ∧
    demoFilter.inputImage demoCodes (demoStore [true, false, true, false]) =
      some ⟨⟨2, 2, 1⟩, [true, false, true, false]⟩ ∧
    (failingStages.signedMaurerDistanceMap true
      ⟨⟨2, 2, 1⟩, [true, false, true, false]⟩).exception = some "distance map failed" ∧
    (demoFilter.execute failingStages demoCodes
      (demoStore [true, false, true, false])).errorCondition = -5 ∧
    Stage.localMaxima ∈ (demoFilter.execute failingStages demoCodes
      (demoStore [true, false, true, false])).trace ∧
    Stage.seedLabels ∈ (demoFilter.execute failingStages demoCodes
      (demoStore [true, false, true, false])).trace :=
  ⟨by decide, by decide, rfl,
    execute_continues_after_distance_failure failingStages demoCodes demoFilter
      (demoStore [true, false, true, false]) ⟨⟨2, 2, 1⟩, [true, false, true, false]⟩
      "distance map failed" (by decide) (by decide) rfl⟩

end ItkBinaryWatershedLabeled

namespace ItkBinaryWatershedLabeled

variable {F : Type}

/-- C8 (counterexample): the store passes `dataCheck` and the distance map
update throws; `execute` ends with the error condition -5, and the store, which
held no array named `NewCellArrayName` before the call, now holds one, filled
with 0: the store is not unchanged. -/
theorem execute_error_leaves_new_array :
    (demoFilter.execute failingStages demoCodes
      (demoStore [true, false, true, false])).errorCondition = -5 ∧
    demoFilter.labelField (demoStore [true, false, true, false]) = none ∧
    demoFilter.labelField (demoFilter.execute failingStages demoCodes
      (demoStore [true, false, true, false])).store = some [0, 0, 0, 0] ∧
    (demoFilter.execute failingStages demoCodes (demoStore [true, false, true, false])).store ≠
      demoStore [true, false, true, false] := by
  decide

/-- C8 (amended): whenever `execute` ends with a negative error condition,
either the condition is -11000, raised for a failed `dataCheck`, and the store
is unchanged, or the condition is -5, raised for a failed ITK update, and the
array created by `dataCheck` under `NewCellArrayName` is in the store with the
value 0 at every tuple: no partial label is ever written. -/
theorem execute_error_store [Zero F] [Sub F] (env : ItkStages F) (codes : SimplCodes)
    (f : ItkBinaryWatershedLabeled F) (dca : DataContainerArray)
    (herr : (f.execute env codes dca).errorCondition < 0) :
    ((f.execute env codes dca).errorCondition = -11000 ∧ (f.execute env codes dca).store = dca) ∨
    ((f.execute env codes dca).errorCondition = -5 ∧
      ∃ n, f.labelField (f.execute env codes dca).store = some (List.replicate n 0)) := by
  by_cases hdc : (f.dataCheck codes dca).errorCondition < 0
  · left
    rw [execute_of_failed env codes f dca hdc]
    exact ⟨rfl, rfl⟩
  · right
    obtain ⟨_, _, sel, dims, _, _, _, _, hin, _⟩ := execute_of_passed env codes f dca hdc
    obtain ⟨he, _, n, hlab⟩ := execute_of_passed_input env codes f dca _ hdc hin
    rw [he] at herr ⊢
    split at herr
    · simp at herr
    · rename_i hex
      rw [if_neg hex]
      refine ⟨rfl, n, ?_⟩
      rw [hlab, labelsAfterRun_of_exception _ _ _ _ hex]

theorem execute_error_store_witness :
    (missingArrayFilter.execute demoStages demoCodes
      (demoStore [true, false, true, false])).errorCondition < 0 ∧
    (((missingArrayFilter.execute demoStages demoCodes
        (demoStore [true, false, true, false])).errorCondition = -11000 ∧
      (missingArrayFilter.execute demoStages demoCodes
        (demoStore [true, false, true, false])).store = demoStore [true, false, true, false]) ∨
    ((missingArrayFilter.execute demoStages demoCodes
        (demoStore [true, false, true, false])).errorCondition = -5 ∧
      ∃ n, missingArrayFilter.labelField (missingArrayFilter.execute demoStages demoCodes
        (demoStore [true, false, true, false])).store = some (List.replicate n 0))) :=
  ⟨by decide,
    execute_error_store demoStages demoCodes missingArrayFilter
      (demoStore [true, false, true, false]) (by decide)⟩

/-- C9: if `dataCheck` leaves a negative error condition, `execute` reports
"DataCheck did not pass during execute" with the error condition -11000 and
returns: no stage has run and the store is as it was. -/
theorem execute_dataCheck_failed [Zero F] [Sub F] (env : ItkStages F) (codes : SimplCodes)
    (f : ItkBinaryWatershedLabeled F) (dca : DataContainerArray)
    (hdc : (f.dataCheck codes dca).errorCondition < 0) :
    (f.execute env codes dca).errorCondition = -11000 ∧
      (f.execute env codes dca).errorMessages =
        [(-11000, "DataCheck did not pass during execute")] ∧
      (f.execute env codes dca).trace = [] ∧
      (f.execute env codes dca).store = dca := by
  rw [execute_of_failed env codes f dca hdc]
  exact ⟨rfl, rfl, rfl, rfl⟩

theorem execute_dataCheck_failed_witness :
    (missingArrayFilter.dataCheck demoCodes
      (demoStore [true, false, true, false])).errorCondition < 0 ∧
    (missingArrayFilter.execute floodStages demoCodes
      (demoStore [true, false, true, false])).errorCondition = -11000 ∧
    (missingArrayFilter.execute floodStages demoCodes
      (demoStore [true, false, true, false])).trace = [] :=
  ⟨by decide,
    (execute_dataCheck_failed floodStages demoCodes missingArrayFilter
      (demoStore [true, false, true, false]) (by decide)).1,
    (execute_dataCheck_failed floodStages demoCodes missingArrayFilter
      (demoStore [true, false, true, false]) (by decide)).2.2.1⟩

/-- C10 (counterexample): a 2 x 2 x 1 mask that is all false and one that is
all true both pass `dataCheck`, and with stages that do not throw `execute`
ends with the error condition 0: no error is reported for a mask of one
class. -/
theorem execute_uniform_mask_no_error :
    (demoFilter.dataCheck demoCodes (demoStore [false, false, false, false])).errorCondition = 0 ∧
    (demoFilter.execute demoStages demoCodes
      (demoStore [false, false, false, false])).errorCondition = 0 ∧
    (demoFilter.dataCheck demoCodes (demoStore [true, true, true, true])).errorCondition = 0 ∧
    (demoFilter.execute demoStages demoCodes
      (demoStore [true, true, true, true])).errorCondition = 0 := by
  decide

/-- C10 (amended): `dataCheck` followed by `execute` ends with a negative error
condition exactly when `dataCheck` fails or an ITK update (the distance map, or
the watershed behind the mask) throws on the wrapped input image; the filter
itself does not examine the contents or the extents of the mask. -/
theorem execute_error_iff [Zero F] [Sub F] (env : ItkStages F) (codes : SimplCodes)
    (f : ItkBinaryWatershedLabeled F) (dca : DataContainerArray) :
    (f.execute env codes dca).errorCondition < 0 ↔
      ((f.dataCheck codes dca).errorCondition < 0 ∨
        ∃ mask, f.inputImage codes dca = some mask ∧
          ¬ ((env.signedMaurerDistanceMap true mask).exception = none ∧
            (env.morphologicalWatershedFromMarkers
              (invertIntensity 0 (env.signedMaurerDistanceMap true mask).output)
              (seedLabels mask.region (env.localMaximaFind
                (env.signedMaurerDistanceMap true mask).output f.peakTolerance true))
              false).exception = none)) := by
  by_cases hdc : (f.dataCheck codes dca).errorCondition < 0
  · rw [execute_of_failed env codes f dca hdc]
    simp [hdc]
  · obtain ⟨_, _, sel, dims, _, _, _, _, hin, _⟩ := execute_of_passed env codes f dca hdc
    obtain ⟨he, _, _⟩ := execute_of_passed_input env codes f dca _ hdc hin
    rw [he]
    constructor
    · intro h
      right
      refine ⟨_, hin, ?_⟩
      intro hex
      rw [if_pos hex] at h
      simp at h
    · rintro (h | ⟨mask, hm, hex⟩)
      · exact absurd h hdc
      · rw [hin] at hm
        cases hm
        rw [if_neg hex]
        decide

end ItkBinaryWatershedLabeled

/-! ## Further lemmas on the store -/

theorem modifyFirst_modifyFirst {α : Type} (p : α → Bool) (f g : α → α)
    (hf : ∀ a, p (f a) = p a) (l : List α) :
    modifyFirst p g (modifyFirst p f l) = modifyFirst p (fun a => g (f a)) l := by
  induction l with
  | nil => rfl
  | cons a as ih =>
    by_cases h : p a = true
    · simp [modifyFirst, h, hf]
    · simp [modifyFirst, h, ih]

theorem modifyFirst_congr {α : Type} (p : α → Bool) (f g : α → α) (l : List α)
    (h : ∀ a, l.find? p = some a → f a = g a) : modifyFirst p f l = modifyFirst p g l := by
  induction l with
  | nil => rfl
  | cons a as ih =>
    by_cases hp : p a = true
    · have := h a (by simp [List.find?, hp])
      simp [modifyFirst, hp, this]
    · have ih2 := ih (fun b hb => h b (by simp [List.find?, hp, hb]))
      simp [modifyFirst, hp, ih2]

theorem modifyFirst_append_singleton {α : Type} (p : α → Bool) (f : α → α) (l : List α)
    (x : α) (hnone : l.find? p = none) (hx : p x = true) :
    modifyFirst p f (l ++ [x]) = l ++ [f x] := by
  induction l with
  | nil => simp [modifyFirst, hx]
  | cons a as ih =>
    have hp : ¬ p a = true := by
      intro hp
      simp [List.find?, hp] at hnone
    have hnone2 : as.find? p = none := by
      simpa [List.find?, hp] using hnone
    simp [modifyFirst, hp, ih hnone2]

theorem modifyAttributeMatrix_modifyAttributeMatrix (dca : DataContainerArray)
    (dcName amName : String) (g1 g2 : AttributeMatrix → AttributeMatrix)
    (h1 : ∀ m, (g1 m).name = m.name) :
    modifyAttributeMatrix (modifyAttributeMatrix dca dcName amName g1) dcName amName g2 =
      modifyAttributeMatrix dca dcName amName (fun m => g2 (g1 m)) := by
  unfold modifyAttributeMatrix
  have e := modifyFirst_modifyFirst (fun dc : DataContainer => dc.name == dcName)
    (fun dc => { dc with
      attributeMatrices := modifyFirst (fun am => am.name == amName) g1 dc.attributeMatrices })
    (fun dc => { dc with
      attributeMatrices := modifyFirst (fun am => am.name == amName) g2 dc.attributeMatrices })
    (fun _ => rfl) dca
  rw [e]
  congr 1
  funext dc
  simp only
  rw [modifyFirst_modifyFirst (fun am : AttributeMatrix => am.name == amName) g1 g2
    (fun a => by simp [h1])]

theorem modifyAttributeMatrix_congr (dca : DataContainerArray) (dcName amName : String)
    (g1 g2 : AttributeMatrix → AttributeMatrix) (dc : DataContainer) (am : AttributeMatrix)
    (hdc : getDataContainer dca dcName = some dc)
    (ham : dc.getAttributeMatrix amName = some am)
    (h : g1 am = g2 am) :
    modifyAttributeMatrix dca dcName amName g1 = modifyAttributeMatrix dca dcName amName g2 := by
  unfold modifyAttributeMatrix
  apply modifyFirst_congr
  intro dc2 hdc2
  have e : dc2 = dc := by
    unfold getDataContainer at hdc
    rw [hdc] at hdc2
    exact (Option.some.inj hdc2).symm
  subst e
  congr 1
  apply modifyFirst_congr
  intro am2 ham2
  have e2 : am2 = am := by
    unfold DataContainer.getAttributeMatrix at ham
    rw [ham] at ham2
    exact (Option.some.inj ham2).symm
  subst e2
  exact h

/-- Variant of `getArrayFromPath_modifyAttributeMatrix` that takes the
preservation of the name last, so that rewriting leaves it as a goal. -/
theorem getArrayFromPath_modify (dca : DataContainerArray) (path : DataArrayPath)
    (g : AttributeMatrix → AttributeMatrix) (dc : DataContainer) (am : AttributeMatrix)
    (hdc : getDataContainer dca path.dataContainerName = some dc)
    (ham : dc.getAttributeMatrix path.attributeMatrixName = some am)
    (hg : ∀ m, (g m).name = m.name) :
    getArrayFromPath
        (modifyAttributeMatrix dca path.dataContainerName path.attributeMatrixName g) path =
      (g am).getAttributeArray path.dataArrayName :=
  getArrayFromPath_modifyAttributeMatrix dca path g hg dc am hdc ham

theorem getAttributeArray_append_old (m : AttributeMatrix) (n k : String) (a b : DataArray)
    (h : m.getAttributeArray n = some a) :
    AttributeMatrix.getAttributeArray { m with arrays := m.arrays ++ [(k, b)] } n = some a := by
  unfold AttributeMatrix.getAttributeArray at h ⊢
  cases hf : m.arrays.find? (fun x => x.1 == n) with
  | none => simp [hf] at h
  | some x =>
    rw [hf] at h
    simp [List.find?_append, hf]
    simpa using h

namespace ItkBinaryWatershedLabeled
variable {F : Type}

theorem importedBufferAfterUpdate_length (out old : List Nat) :
    (importedBufferAfterUpdate out old).length = old.length := by
  unfold importedBufferAfterUpdate
  split
  · rename_i h
    simp only [List.length_append, List.length_drop]
    omega
  · rfl

theorem labelsAfterRun_length [Zero F] [Sub F] (env : ItkStages F) (tolerance : F)
    (mask : Image Bool) (old : List Nat) :
    (labelsAfterRun env tolerance mask old).length = old.length := by
  unfold labelsAfterRun
  simp only
  split
  · exact importedBufferAfterUpdate_length _ _
  · rfl

/-- The store `execute` leaves behind after a passed `dataCheck`: the store it
was given, with one `uint32` array appended to the attribute matrix of the
selected array. -/
theorem execute_store_of_passed [Zero F] [Sub F] (env : ItkStages F) (codes : SimplCodes)
    (f : ItkBinaryWatershedLabeled F) (dca : DataContainerArray) (mask : Image Bool)
    (hpass : ¬ (f.dataCheck codes dca).errorCondition < 0)
    (hmask : f.inputImage codes dca = some mask)
    (hcons : TuplesConsistent dca) :
    (f.execute env codes dca).store =
      modifyAttributeMatrix dca f.selectedCellArrayPath.dataContainerName
        f.selectedCellArrayPath.attributeMatrixName
        (fun m => { m with
          arrays := m.arrays ++ [(f.newCellArrayName, .uint32 [1]
            (labelsAfterRun env f.peakTolerance mask
              (List.replicate mask.buffer.length 0)))] }) := by
  obtain ⟨dc, am, sel, dims, hdc, ham, harr, hnew, hin, hexec⟩ :=
    execute_of_passed env codes f dca hpass
  rw [hin] at hmask
  have hm : mask = ⟨dims, sel⟩ := (Option.some.inj hmask).symm
  have hlen : sel.length = am.numTuples :=
    getNumberOfTuples_of_consistent dca hcons _ _ _ dc am _ hdc ham harr
  subst hm
  have hfind : am.arrays.find? (fun x => x.1 == f.newCellArrayName) = none := by
    unfold AttributeMatrix.getAttributeArray at hnew
    cases hf : am.arrays.find? (fun x => x.1 == f.newCellArrayName) with
    | none => rfl
    | some x => simp [hf] at hnew
  rw [hexec]
  unfold runPipeline labelsAfterRun
  simp only
  split
  · rename_i out hout
    unfold modifyUInt32ArrayData storeWithNewArray
    simp only [newCellArrayPath]
    have e := modifyAttributeMatrix_modifyAttributeMatrix dca
      f.selectedCellArrayPath.dataContainerName f.selectedCellArrayPath.attributeMatrixName
      (fun m => { m with
        arrays := m.arrays ++
          [(f.newCellArrayName, DataArray.uint32 [1] (List.replicate m.numTuples 0))] })
      (fun m => { m with
        arrays := modifyFirst (fun a => a.1 == f.newCellArrayName)
          (fun a => (a.1, DataArray.mapUInt32 (importedBufferAfterUpdate out.buffer) a.2))
          m.arrays })
      (fun _ => rfl)
    rw [e]
    apply modifyAttributeMatrix_congr _ _ _ _ _ dc am hdc ham
    simp only
    rw [modifyFirst_append_singleton _ _ _ _ hfind (by simp)]
    simp [DataArray.mapUInt32, hlen]
  · unfold storeWithNewArray
    apply modifyAttributeMatrix_congr _ _ _ _ _ dc am hdc ham
    simp [hlen]

end ItkBinaryWatershedLabeled

/-! ## Claim C11: the input mask is read-only -/

namespace ItkBinaryWatershedLabeled
variable {F : Type}

/-- C11: after a run of `execute` that ends without a negative error condition,
on a store whose arrays have the tuple count of their attribute matrix, the
selected bool array is in the store with the contents it had before, no array
was stored under `NewCellArrayName` before the run, and the store is the one
`execute` was given with exactly one array added: a `uint32` array named
`NewCellArrayName` with as many tuples as the input has voxels. -/
theorem execute_input_read_only [Zero F] [Sub F] (env : ItkStages F) (codes : SimplCodes)
    (f : ItkBinaryWatershedLabeled F) (dca : DataContainerArray) (mask : Image Bool)
    (hok : ¬ (f.execute env codes dca).errorCondition < 0)
    (hmask : f.inputImage codes dca = some mask)
    (hcons : TuplesConsistent dca) :
    getArrayFromPath dca f.selectedCellArrayPath = some (.bool [1] mask.buffer) ∧
    getArrayFromPath (f.execute env codes dca).store f.selectedCellArrayPath =
      some (.bool [1] mask.buffer) ∧
    getArrayFromPath dca f.newCellArrayPath = none ∧
    ∃ out, out.length = mask.buffer.length ∧
      getArrayFromPath (f.execute env codes dca).store f.newCellArrayPath =
        some (.uint32 [1] out) ∧
      (f.execute env codes dca).store =
        modifyAttributeMatrix dca f.selectedCellArrayPath.dataContainerName
          f.selectedCellArrayPath.attributeMatrixName
          (fun m => { m with arrays := m.arrays ++ [(f.newCellArrayName, .uint32 [1] out)] }) := by
  have hpass : ¬ (f.dataCheck codes dca).errorCondition < 0 := by
    intro hneg
    rw [execute_of_failed env codes f dca hneg] at hok
    exact hok (by show (-11000 : Int) < 0; decide)
  have hstore := execute_store_of_passed env codes f dca mask hpass hmask hcons
  obtain ⟨dc, am, sel, dims, hdc, ham, harr, hnew, hin, _⟩ :=
    execute_of_passed env codes f dca hpass
  rw [hin] at hmask
  have hm : mask = ⟨dims, sel⟩ := (Option.some.inj hmask).symm
  subst hm
  have hbefore : getArrayFromPath dca f.selectedCellArrayPath = some (.bool [1] sel) := by
    unfold getArrayFromPath
    rw [hdc]
    simp only
    rw [ham]
    exact harr
  have hnone : getArrayFromPath dca f.newCellArrayPath = none := by
    unfold getArrayFromPath
    simp only [newCellArrayPath]
    rw [hdc]
    simp only
    rw [ham]
    exact hnew
  refine ⟨hbefore, ?_, hnone, _,
    (labelsAfterRun_length env f.peakTolerance _ _).trans (List.length_replicate _ _),
    ?_, hstore⟩
  · rw [hstore, getArrayFromPath_modify dca f.selectedCellArrayPath _ dc am hdc ham]
    · exact getAttributeArray_append_old am _ _ _ _ harr
    · intro _
      rfl
  · rw [hstore]
    have h := getArrayFromPath_modifyAttributeMatrix dca f.newCellArrayPath
      (fun m => { m with
        arrays := m.arrays ++ [(f.newCellArrayName, .uint32 [1]
          (labelsAfterRun env f.peakTolerance ⟨dims, sel⟩ (List.replicate sel.length 0)))] })
      (fun _ => rfl) dc am hdc ham
    simp only [newCellArrayPath] at h ⊢
    rw [h]
    exact getAttributeArray_append_new am _ _ hnew

theorem execute_input_read_only_witness :
    ¬ (demoFilter.execute floodStages demoCodes
        (demoStore [true, false, true, false])).errorCondition < 0 ∧
    demoFilter.inputImage demoCodes (demoStore [true, false, true, false]) =
      some ⟨⟨2, 2, 1⟩, [true, false, true, false]⟩ ∧
    TuplesConsistent (demoStore [true, false, true, false]) ∧
    getArrayFromPath (demoFilter.execute floodStages demoCodes
        (demoStore [true, false, true, false])).store demoFilter.selectedCellArrayPath =
      some (.bool [1] [true, false, true, false]) :=
  ⟨by decide, by decide, by decide,
    (execute_input_read_only floodStages demoCodes demoFilter
      (demoStore [true, false, true, false]) ⟨⟨2, 2, 1⟩, [true, false, true, false]⟩
      (by decide) (by decide) (by decide)).2.1⟩

end ItkBinaryWatershedLabeled

/-! ## Lemmas on the filters that write a result of the input's pixel type -/

theorem getPrereqUInt8ArrayFromPath_error (codes : SimplCodes) (dca : DataContainerArray)
    (path : DataArrayPath) (cDims : List Nat) (e : Int)
    (h : getPrereqUInt8ArrayFromPath codes dca path cDims = .error e) : e < 0 := by
  unfold getPrereqUInt8ArrayFromPath at h
  repeat' split at h
  all_goals first
    | (cases h; exact codes.code_neg _)
    | cases h

theorem getPrereqUInt8ArrayFromPath_ok (codes : SimplCodes) (dca : DataContainerArray)
    (path : DataArrayPath) (cDims : List Nat) (sel : List Int)
    (h : getPrereqUInt8ArrayFromPath codes dca path cDims = .ok sel) :
    ∃ dc am a, getDataContainer dca path.dataContainerName = some dc ∧
      dc.getAttributeMatrix path.attributeMatrixName = some am ∧
      am.getAttributeArray path.dataArrayName = some a ∧
      a.getTypeAsString = "uint8_t" ∧ a.getComponentDimensions = cDims ∧ a.values = sel := by
  unfold getPrereqUInt8ArrayFromPath at h
  split at h
  · cases h
  · split at h
    · cases h
    · rename_i dc hdc
      split at h
      · cases h
      · rename_i am ham
        split at h
        · cases h
        · rename_i a harr
          split at h
          · rename_i ht
            split at h
            · rename_i hd
              cases h
              exact ⟨dc, am, a, hdc, ham, harr, ht, hd, rfl⟩
            · cases h
          · cases h

theorem getPrereqArrayOfAnyType_error (codes : SimplCodes) (dca : DataContainerArray)
    (path : DataArrayPath) (cDims : List Nat) (e : Int)
    (h : getPrereqArrayOfAnyType codes dca path cDims = .error e) : e < 0 := by
  unfold getPrereqArrayOfAnyType at h
  repeat' split at h
  all_goals first
    | (cases h; exact codes.code_neg _)
    | cases h

theorem getPrereqArrayOfAnyType_ok (codes : SimplCodes) (dca : DataContainerArray)
    (path : DataArrayPath) (cDims : List Nat) (a : DataArray)
    (h : getPrereqArrayOfAnyType codes dca path cDims = .ok a) :
    ∃ dc am, getDataContainer dca path.dataContainerName = some dc ∧
      dc.getAttributeMatrix path.attributeMatrixName = some am ∧
      am.getAttributeArray path.dataArrayName = some a ∧
      a.getComponentDimensions = cDims := by
  unfold getPrereqArrayOfAnyType at h
  split at h
  · cases h
  · split at h
    · cases h
    · rename_i dc hdc
      split at h
      · cases h
      · rename_i am ham
        split at h
        · cases h
        · rename_i a2 harr
          split at h
          · rename_i ht
            split at h
            · rename_i hd
              cases h
              exact ⟨dc, am, hdc, ham, harr, hd⟩
            · cases h
          · cases h

theorem createNonPrereqArrayFromPath_error (codes : SimplCodes)
    (dca : DataContainerArray) (path : DataArrayPath) (mk : Nat → DataArray) (e : Int)
    (h : createNonPrereqArrayFromPath codes dca path mk = .error e) : e < 0 := by
  unfold createNonPrereqArrayFromPath at h
  repeat' split at h
  all_goals first
    | (cases h; exact codes.code_neg _)
    | cases h

theorem createNonPrereqArrayFromPath_ok (codes : SimplCodes) (dca dca2 : DataContainerArray)
    (path : DataArrayPath) (mk : Nat → DataArray)
    (h : createNonPrereqArrayFromPath codes dca path mk = .ok dca2) :
    ∃ dc am, getDataContainer dca path.dataContainerName = some dc ∧
      dc.getAttributeMatrix path.attributeMatrixName = some am ∧
      am.getAttributeArray path.dataArrayName = none ∧
      dca2 = modifyAttributeMatrix dca path.dataContainerName path.attributeMatrixName
          (fun m => { m with arrays := m.arrays ++ [(path.dataArrayName, mk m.numTuples)] }) := by
  unfold createNonPrereqArrayFromPath at h
  split at h
  · cases h
  · split at h
    · cases h
    · rename_i dc hdc
      split at h
      · cases h
      · rename_i am ham
        split at h
        · cases h
        · rename_i harr
          cases h
          exact ⟨dc, am, hdc, ham, harr, rfl⟩

theorem dataCheckDefaultPixel_cases (codes : SimplCodes) (path : DataArrayPath)
    (save : Bool) (newName : String) (dca : DataContainerArray) :
    ((dataCheckDefaultPixel codes path save newName dca).errorCondition < 0 ∧
      (dataCheckDefaultPixel codes path save newName dca).store = dca) ∨
    (∃ dc am a dims,
      getDataContainer dca path.dataContainerName = some dc ∧
      dc.getAttributeMatrix path.attributeMatrixName = some am ∧
      am.getAttributeArray path.dataArrayName = some a ∧
      a.getTypeAsString = "uint8_t" ∧
      dc.geometry = some (.image dims) ∧
      am.getAttributeArray (if save then newName else "thisIsATempName") = none ∧
      dataCheckDefaultPixel codes path save newName dca =
        ⟨0, storeWithCreatedArray dca path (if save then newName else "thisIsATempName")
            (fun n => uint8Array [1] (List.replicate n 0)),
          some a.values, if save then newName else "thisIsATempName",
          some ⟨path.dataContainerName, path.attributeMatrixName,
            if save then newName else "thisIsATempName"⟩⟩) := by
  unfold dataCheckDefaultPixel
  split
  · rename_i e he
    exact Or.inl ⟨getPrereqUInt8ArrayFromPath_error _ _ _ _ _ he, rfl⟩
  · rename_i sel hsel
    obtain ⟨dc, am, a, hdc, ham, harr, ht, _, hv⟩ := getPrereqUInt8ArrayFromPath_ok _ _ _ _ _ hsel
    split
    · rename_i hnone
      rw [hdc] at hnone
      cases hnone
    rename_i dc1 hdc1
    have e0 : dc1 = dc := by
      have := hdc1.symm.trans hdc
      simpa using this
    subst e0
    split
    · rename_i e he
      exact Or.inl ⟨getPrereqImageGeometry_error _ _ _ he, rfl⟩
    · rename_i dims hdims
      simp only
      split
      · rename_i e he
        exact Or.inl ⟨createNonPrereqArrayFromPath_error _ _ _ _ _ he, rfl⟩
      · rename_i dca2 hcreate
        obtain ⟨dc2, am2, hdc2, ham2, hnone, hstore⟩ :=
          createNonPrereqArrayFromPath_ok _ _ _ _ _ hcreate
        have e1 : dc2 = dc1 := by
          have := hdc2.symm.trans hdc
          simpa using this
        subst e1
        have e2 : am2 = am := by
          have := ham2.symm.trans ham
          simpa using this
        subst e2
        refine Or.inr ⟨_, _, a, dims, hdc, ham, harr, ht,
          getPrereqImageGeometry_ok _ _ _ hdims, hnone, ?_⟩
        rw [hstore, ← hv]
        rfl

theorem find?_eq_none_of_getAttributeArray (am : AttributeMatrix) (n : String)
    (h : am.getAttributeArray n = none) : am.arrays.find? (fun x => x.1 == n) = none := by
  unfold AttributeMatrix.getAttributeArray at h
  cases hf : am.arrays.find? (fun x => x.1 == n) with
  | none => rfl
  | some x => simp [hf] at h

theorem not_mem_names_of_getAttributeArray (am : AttributeMatrix) (n : String)
    (h : am.getAttributeArray n = none) : ∀ a ∈ am.arrays, a.1 ≠ n := by
  have hf := find?_eq_none_of_getAttributeArray am n h
  intro a ha heq
  have := List.find?_eq_none.mp hf a ha
  simp [heq] at this

theorem mem_names_of_getAttributeArray (am : AttributeMatrix) (n : String) (a : DataArray)
    (h : am.getAttributeArray n = some a) : n ∈ am.getAttributeArrayNames := by
  unfold AttributeMatrix.getAttributeArray at h
  cases hf : am.arrays.find? (fun x => x.1 == n) with
  | none => simp [hf] at h
  | some x =>
    have hx : x ∈ am.arrays := List.mem_of_find?_eq_some hf
    have hk : (x.1 == n) = true := by
      have := List.find?_some hf
      simpa using this
    have hk2 : x.1 = n := by simpa using hk
    unfold AttributeMatrix.getAttributeArrayNames
    exact List.mem_map.mpr ⟨x, hx, hk2⟩

theorem DataArray.values_length (a : DataArray) : a.values.length = a.getNumberOfTuples := by
  cases a <;> simp [DataArray.values, DataArray.getNumberOfTuples]

theorem DataArray.withValues_getNumberOfTuples (a : DataArray) (v : List Int) :
    (a.withValues v).getNumberOfTuples = v.length := by
  cases a <;> simp [DataArray.withValues, DataArray.getNumberOfTuples]

theorem importBuffer_length {α : Type} (out old : List α) :
    (importBuffer out old).length = old.length := by
  unfold importBuffer
  split
  · simp only [List.length_append, List.length_drop]
    omega
  · rfl

theorem importBuffer_of_length_eq {α : Type} (out old : List α)
    (h : out.length = old.length) : importBuffer out old = out := by
  unfold importBuffer
  rw [if_pos (le_of_eq h), List.drop_of_length_le (le_of_eq h.symm), List.append_nil]

theorem arrayAfterUpdate_getNumberOfTuples (created : DataArray) (upd : UpdateResult Int) :
    (arrayAfterUpdate created upd).getNumberOfTuples = created.getNumberOfTuples := by
  unfold arrayAfterUpdate
  split
  · rfl
  · rw [DataArray.withValues_getNumberOfTuples, importBuffer_length, DataArray.values_length]

theorem arrayNamesAt_modifyAttributeMatrix (dca : DataContainerArray) (dcName amName : String)
    (g : AttributeMatrix → AttributeMatrix) (dc : DataContainer) (am : AttributeMatrix)
    (hdc : getDataContainer dca dcName = some dc)
    (ham : dc.getAttributeMatrix amName = some am)
    (hg : ∀ m, (g m).name = m.name) :
    arrayNamesAt (modifyAttributeMatrix dca dcName amName g) dcName amName =
      (g am).getAttributeArrayNames := by
  unfold arrayNamesAt
  rw [getDataContainer_modifyAttributeMatrix, hdc]
  simp only [Option.map_some']
  rw [getAttributeMatrix_modifyFirst _ _ _ hg, ham]
  rfl

theorem arrayNamesAt_eq (dca : DataContainerArray) (dcName amName : String)
    (dc : DataContainer) (am : AttributeMatrix)
    (hdc : getDataContainer dca dcName = some dc)
    (ham : dc.getAttributeMatrix amName = some am) :
    arrayNamesAt dca dcName amName = am.getAttributeArrayNames := by
  unfold arrayNamesAt
  rw [hdc]
  simp only
  rw [ham]

theorem getArrayFromPath_eq (dca : DataContainerArray) (path : DataArrayPath)
    (dc : DataContainer) (am : AttributeMatrix)
    (hdc : getDataContainer dca path.dataContainerName = some dc)
    (ham : dc.getAttributeMatrix path.attributeMatrixName = some am) :
    getArrayFromPath dca path = am.getAttributeArray path.dataArrayName := by
  unfold getArrayFromPath
  rw [hdc]
  simp only
  rw [ham]

/-- Writing the output of an update into the array created by `dataCheck`. -/
theorem writeFilterOutput_created (dca : DataContainerArray) (path : DataArrayPath)
    (name : String) (mk : Nat → DataArray) (upd : UpdateResult Int)
    (dc : DataContainer) (am : AttributeMatrix)
    (hdc : getDataContainer dca path.dataContainerName = some dc)
    (ham : dc.getAttributeMatrix path.attributeMatrixName = some am)
    (hnew : am.getAttributeArray name = none) :
    writeFilterOutput (storeWithCreatedArray dca path name mk)
        ⟨path.dataContainerName, path.attributeMatrixName, name⟩ upd =
      modifyAttributeMatrix dca path.dataContainerName path.attributeMatrixName
        (fun m => { m with
          arrays := m.arrays ++ [(name, arrayAfterUpdate (mk am.numTuples) upd)] }) := by
  have hfind := find?_eq_none_of_getAttributeArray am name hnew
  unfold writeFilterOutput arrayAfterUpdate storeWithCreatedArray
  split
  · apply modifyAttributeMatrix_congr _ _ _ _ _ dc am hdc ham
    rfl
  · unfold modifyArray
    simp only
    have e := modifyAttributeMatrix_modifyAttributeMatrix dca path.dataContainerName
      path.attributeMatrixName
      (fun m => { m with arrays := m.arrays ++ [(name, mk m.numTuples)] })
      (fun m => { m with
        arrays := modifyFirst (fun a => a.1 == name)
          (fun a => (a.1, a.2.withValues (importBuffer upd.output.buffer a.2.values)))
          m.arrays })
      (fun _ => rfl)
    rw [e]
    apply modifyAttributeMatrix_congr _ _ _ _ _ dc am hdc ham
    simp only
    rw [modifyFirst_append_singleton _ _ _ _ hfind (by simp)]

/-- A store that differs from `before` by one array appended under a fresh
name adds one array. -/
theorem addsOneArray_of_append (before : DataContainerArray) (selected : DataArrayPath)
    (newName : String) (input r : DataArray) (dc : DataContainer) (am : AttributeMatrix)
    (hdc : getDataContainer before selected.dataContainerName = some dc)
    (ham : dc.getAttributeMatrix selected.attributeMatrixName = some am)
    (harr : am.getAttributeArray selected.dataArrayName = some input)
    (hnew : am.getAttributeArray newName = none)
    (hr : r.getNumberOfTuples = input.getNumberOfTuples) :
    AddsOneArray before
      (modifyAttributeMatrix before selected.dataContainerName selected.attributeMatrixName
        (fun m => { m with arrays := m.arrays ++ [(newName, r)] }))
      selected newName := by
  refine ⟨input, r, ?_, ?_, ?_, ?_, hr, ?_, rfl⟩
  · rw [getArrayFromPath_eq before selected dc am hdc ham]
    exact harr
  · rw [getArrayFromPath_modify before selected _ dc am hdc ham]
    · exact getAttributeArray_append_old am _ _ _ _ harr
    · intro _
      rfl
  · rw [getArrayFromPath_eq before ⟨_, _, newName⟩ dc am hdc ham]
    exact hnew
  · have h := getArrayFromPath_modify before
      ⟨selected.dataContainerName, selected.attributeMatrixName, newName⟩
      (fun m => { m with arrays := m.arrays ++ [(newName, r)] }) dc am hdc ham (fun _ => rfl)
    simp only at h
    rw [h]
    exact getAttributeArray_append_new am _ _ hnew
  · rw [arrayNamesAt_modifyAttributeMatrix before _ _ _ dc am hdc ham,
      arrayNamesAt_eq before _ _ dc am hdc ham]
    · simp [AttributeMatrix.getAttributeArrayNames]
    · intro _
      rfl

/-- A store that differs from `before` by the selected array removed and the
result appended under its name replaces the selected array. -/
theorem replacesSelectedArray_of_filter_append (before : DataContainerArray)
    (selected : DataArrayPath) (input r : DataArray) (dc : DataContainer)
    (am : AttributeMatrix)
    (hdc : getDataContainer before selected.dataContainerName = some dc)
    (ham : dc.getAttributeMatrix selected.attributeMatrixName = some am)
    (harr : am.getAttributeArray selected.dataArrayName = some input)
    (htemp : am.getAttributeArray "thisIsATempName" = none)
    (hr : r.getNumberOfTuples = input.getNumberOfTuples) :
    ReplacesSelectedArray before
      (modifyAttributeMatrix before selected.dataContainerName selected.attributeMatrixName
        (fun m => { m with
          arrays := m.arrays.filter (fun a => !(a.1 == selected.dataArrayName)) ++
            [(selected.dataArrayName, r)] }))
      selected := by
  have hsel : selected.dataArrayName ∈ am.getAttributeArrayNames :=
    mem_names_of_getAttributeArray am _ _ harr
  have hne : selected.dataArrayName ≠ "thisIsATempName" := by
    intro heq
    rw [heq, htemp] at harr
    cases harr
  have hnames : arrayNamesAt
      (modifyAttributeMatrix before selected.dataContainerName selected.attributeMatrixName
        (fun m => { m with
          arrays := m.arrays.filter (fun a => !(a.1 == selected.dataArrayName)) ++
            [(selected.dataArrayName, r)] }))
      selected.dataContainerName selected.attributeMatrixName =
      (am.arrays.filter (fun a => !(a.1 == selected.dataArrayName))).map Prod.fst ++
        [selected.dataArrayName] := by
    rw [arrayNamesAt_modifyAttributeMatrix before _ _ _ dc am hdc ham]
    · simp [AttributeMatrix.getAttributeArrayNames]
    · intro _
      rfl
  refine ⟨input, r, ?_, ?_, hr, ?_, ?_, rfl⟩
  · rw [getArrayFromPath_eq before selected dc am hdc ham]
    exact harr
  · rw [getArrayFromPath_modify before selected _ dc am hdc ham]
    · unfold AttributeMatrix.getAttributeArray
      have hnone : (am.arrays.filter (fun a => !(a.1 == selected.dataArrayName))).find?
          (fun x => x.1 == selected.dataArrayName) = none := by
        apply List.find?_eq_none.mpr
        intro x hx
        have := (List.mem_filter.mp hx).2
        simpa using this
      simp [List.find?_append, hnone]
    · intro _
      rfl
  · intro n
    rw [hnames, arrayNamesAt_eq before _ _ dc am hdc ham]
    unfold AttributeMatrix.getAttributeArrayNames at hsel ⊢
    constructor
    · intro h
      rcases List.mem_append.mp h with h1 | h1
      · obtain ⟨x, hx, rfl⟩ := List.mem_map.mp h1
        exact List.mem_map.mpr ⟨x, (List.mem_filter.mp hx).1, rfl⟩
      · have : n = selected.dataArrayName := by simpa using h1
        rw [this]
        exact hsel
    · intro h
      by_cases hn : n = selected.dataArrayName
      · apply List.mem_append.mpr
        right
        simp [hn]
      · obtain ⟨x, hx, rfl⟩ := List.mem_map.mp h
        apply List.mem_append.mpr
        left
        exact List.mem_map.mpr ⟨x, List.mem_filter.mpr ⟨hx, by simpa using hn⟩, rfl⟩
  · rw [hnames]
    intro h
    rcases List.mem_append.mp h with h1 | h1
    · obtain ⟨x, hx, hxn⟩ := List.mem_map.mp h1
      exact not_mem_names_of_getAttributeArray am _ htemp x (List.mem_filter.mp hx).1 hxn
    · have : "thisIsATempName" = selected.dataArrayName := by simpa using h1
      exact hne this.symm

/-- The cleanup by removal and renaming, on the store with the created array
appended under the temporary name. -/
theorem removeAndRename_created (dca : DataContainerArray) (selected : DataArrayPath)
    (temp : String) (input r : DataArray) (dc : DataContainer) (am : AttributeMatrix)
    (hdc : getDataContainer dca selected.dataContainerName = some dc)
    (ham : dc.getAttributeMatrix selected.attributeMatrixName = some am)
    (harr : am.getAttributeArray selected.dataArrayName = some input)
    (htemp : am.getAttributeArray temp = none) :
    removeAndRename
        (modifyAttributeMatrix dca selected.dataContainerName selected.attributeMatrixName
          (fun m => { m with arrays := m.arrays ++ [(temp, r)] }))
        selected temp =
      modifyAttributeMatrix dca selected.dataContainerName selected.attributeMatrixName
        (fun m => { m with
          arrays := m.arrays.filter (fun a => !(a.1 == selected.dataArrayName)) ++
            [(selected.dataArrayName, r)] }) := by
  have hne : ¬ temp = selected.dataArrayName := by
    intro heq
    rw [← heq, htemp] at harr
    cases harr
  have hnot := not_mem_names_of_getAttributeArray am temp htemp
  unfold removeAndRename
  have e := modifyAttributeMatrix_modifyAttributeMatrix dca selected.dataContainerName
    selected.attributeMatrixName
    (fun m => { m with arrays := m.arrays ++ [(temp, r)] })
    (fun attrMat =>
      (attrMat.removeAttributeArray selected.dataArrayName).renameAttributeArray
        temp selected.dataArrayName)
    (fun _ => rfl)
  rw [e]
  apply modifyAttributeMatrix_congr _ _ _ _ _ dc am hdc ham
  simp only
  have hne2 : (temp == selected.dataArrayName) = false := by simpa using hne
  have hfilter : (am.arrays ++ [(temp, r)]).filter (fun a => !(a.1 == selected.dataArrayName)) =
      am.arrays.filter (fun a => !(a.1 == selected.dataArrayName)) ++ [(temp, r)] := by
    simp [List.filter_append, List.filter, hne2]
  have hnone1 : (am.arrays.filter (fun a => !(a.1 == selected.dataArrayName))).find?
      (fun x => x.1 == temp) = none := by
    apply List.find?_eq_none.mpr
    intro x hx
    have := hnot x (List.mem_filter.mp hx).1
    simpa using this
  have hnone2 : (am.arrays.filter (fun a => !(a.1 == selected.dataArrayName))).find?
      (fun x => x.1 == selected.dataArrayName) = none := by
    apply List.find?_eq_none.mpr
    intro x hx
    have := (List.mem_filter.mp hx).2
    simpa using this
  unfold AttributeMatrix.removeAttributeArray AttributeMatrix.renameAttributeArray
    AttributeMatrix.getAttributeArray
  simp only [hfilter, List.find?_append, hnone1, hnone2]
  simp only [List.find?, beq_self_eq_true, Option.none_or, Option.map_some',
    List.map_append, List.map_cons, List.map_nil, if_true]
  simp only [hne2, Option.map_none']
  have hmap : List.map (fun a : String × DataArray =>
        if (a.1 == temp) = true then (selected.dataArrayName, a.2) else a)
      (am.arrays.filter (fun a => !(a.1 == selected.dataArrayName))) =
      am.arrays.filter (fun a => !(a.1 == selected.dataArrayName)) := by
    conv_rhs => rw [← List.map_id (am.arrays.filter (fun a => !(a.1 == selected.dataArrayName)))]
    apply List.map_congr_left
    intro x hx
    have hx2 := hnot x (List.mem_filter.mp hx).1
    have hx3 : (x.1 == temp) = false := by simpa using hx2
    simp [hx3]
  rw [hmap]

/-- The frame left by a pixel filter whose created array ends up holding `r`:
one array added when the result is saved as a new array, the selected array
replaced when it is not. -/
theorem frame_of_created (dca : DataContainerArray) (selected : DataArrayPath)
    (save : Bool) (newName : String) (input r : DataArray) (dc : DataContainer)
    (am : AttributeMatrix)
    (hcons : TuplesConsistent dca)
    (hdc : getDataContainer dca selected.dataContainerName = some dc)
    (ham : dc.getAttributeMatrix selected.attributeMatrixName = some am)
    (harr : am.getAttributeArray selected.dataArrayName = some input)
    (hnew : am.getAttributeArray (if save then newName else "thisIsATempName") = none)
    (hr : r.getNumberOfTuples = am.numTuples) :
    (save = true → AddsOneArray dca
      (modifyAttributeMatrix dca selected.dataContainerName selected.attributeMatrixName
        (fun m => { m with arrays := m.arrays ++ [(newName, r)] })) selected newName) ∧
    (save = false → ReplacesSelectedArray dca
      (removeAndRename
        (modifyAttributeMatrix dca selected.dataContainerName selected.attributeMatrixName
          (fun m => { m with arrays := m.arrays ++ [("thisIsATempName", r)] }))
        selected "thisIsATempName") selected) := by
  have hin : input.getNumberOfTuples = am.numTuples :=
    getNumberOfTuples_of_consistent dca hcons _ _ _ dc am _ hdc ham harr
  constructor
  · intro hs
    rw [hs] at hnew
    simp only [if_true] at hnew
    exact addsOneArray_of_append dca selected newName input r dc am hdc ham harr hnew
      (hr.trans hin.symm)
  · intro hs
    rw [hs] at hnew
    simp only [Bool.false_eq_true, if_false] at hnew
    rw [removeAndRename_created dca selected _ input r dc am hdc ham harr hnew]
    exact replacesSelectedArray_of_filter_append dca selected input r dc am hdc ham harr hnew
      (hr.trans hin.symm)

theorem inputImage_of_passed (dca : DataContainerArray) (path : DataArrayPath)
    (name : String) (mk : Nat → DataArray) (v : List Int) (p : Option DataArrayPath)
    (dc : DataContainer) (dims : Region)
    (hdc : getDataContainer dca path.dataContainerName = some dc)
    (hgeom : dc.geometry = some (.image dims)) :
    PixelDataCheckResult.inputImage ⟨0, storeWithCreatedArray dca path name mk, some v, name, p⟩
      path = some ⟨dims, v⟩ := by
  unfold PixelDataCheckResult.inputImage storeWithCreatedArray
  simp only
  rw [getDataContainer_modifyAttributeMatrix, hdc]
  simp [wrapDataPointer, hgeom]

/-! ## The runs of the pixel filters -/

theorem wrapUnsigned_8_range (p : Int) : 0 ≤ wrapUnsigned 8 p ∧ wrapUnsigned 8 p ≤ 255 := by
  unfold wrapUnsigned
  have h1 : (0 : Int) ≤ p % 2 ^ 8 := Int.emod_nonneg p (by decide)
  have h2 : p % 2 ^ 8 < 2 ^ 8 := Int.emod_lt_of_pos p (by decide)
  have h3 : (2 : Int) ^ 8 = 256 := by decide
  omega

theorem binaryThresholdImageFilter_uint8 (p : Int) (img : Image Int) :
    binaryThresholdImageFilter (wrapUnsigned 8 p) 255 255 0 img =
      ⟨⟨img.region, img.buffer.map (binaryThreshold (wrapUnsigned 8 p) 255 255 0)⟩, none⟩ := by
  unfold binaryThresholdImageFilter
  have := (wrapUnsigned_8_range p).2
  rw [if_neg (by omega)]

namespace ManualThreshold

theorem threshold_of_failed (codes : SimplCodes) (f : ManualThreshold)
    (dca : DataContainerArray) (h : (f.dataCheck codes dca).errorCondition < 0) :
    (f.execute codes dca).errorCondition < 0 ∧ (f.execute codes dca).store = dca := by
  have hs : (f.dataCheck codes dca).store = dca := by
    rcases dataCheckDefaultPixel_cases codes f.selectedCellArrayPath f.saveAsNewArray
      f.newCellArrayName dca with ⟨_, hs⟩ | ⟨_, _, _, _, _, _, _, _, _, _, heq⟩
    · exact hs
    · unfold dataCheck at h
      rw [heq] at h
      simp at h
  unfold execute
  simp only [h, if_true, hs]
  trivial

/-- What `execute` leaves behind after a passed `dataCheck`. -/
theorem threshold_of_passed (codes : SimplCodes) (f : ManualThreshold)
    (dca : DataContainerArray) (h : ¬ (f.dataCheck codes dca).errorCondition < 0) :
    ∃ dc am a,
      getDataContainer dca f.selectedCellArrayPath.dataContainerName = some dc ∧
      dc.getAttributeMatrix f.selectedCellArrayPath.attributeMatrixName = some am ∧
      am.getAttributeArray f.selectedCellArrayPath.dataArrayName = some a ∧
      a.getTypeAsString = "uint8_t" ∧
      am.getAttributeArray (if f.saveAsNewArray then f.newCellArrayName else "thisIsATempName") =
        none ∧
      (f.execute codes dca).errorCondition = 0 ∧
      (f.execute codes dca).store =
        (if f.saveAsNewArray then
          modifyAttributeMatrix dca f.selectedCellArrayPath.dataContainerName
            f.selectedCellArrayPath.attributeMatrixName
            (fun m => { m with arrays := m.arrays ++ [(f.newCellArrayName,
              uint8Array [1] (importBuffer
                (a.values.map (binaryThreshold (wrapUnsigned 8 f.manualParameter) 255 255 0))
                (List.replicate am.numTuples 0)))] })
        else removeAndRename
          (modifyAttributeMatrix dca f.selectedCellArrayPath.dataContainerName
            f.selectedCellArrayPath.attributeMatrixName
            (fun m => { m with arrays := m.arrays ++ [("thisIsATempName",
              uint8Array [1] (importBuffer
                (a.values.map (binaryThreshold (wrapUnsigned 8 f.manualParameter) 255 255 0))
                (List.replicate am.numTuples 0)))] }))
          f.selectedCellArrayPath "thisIsATempName") := by
  rcases dataCheckDefaultPixel_cases codes f.selectedCellArrayPath f.saveAsNewArray
    f.newCellArrayName dca with ⟨hneg, _⟩ | ⟨dc, am, a, dims, hdc, ham, harr, ht, hgeom, hnew, heq⟩
  · exact absurd hneg h
  · refine ⟨dc, am, a, hdc, ham, harr, ht, hnew, ?_, ?_⟩
    · unfold execute dataCheck
      rw [heq]
      simp only [inputImage_of_passed dca _ _ _ _ _ dc dims hdc hgeom,
        binaryThresholdImageFilter_uint8]
      simp
    · unfold execute dataCheck
      rw [heq]
      simp only [inputImage_of_passed dca _ _ _ _ _ dc dims hdc hgeom,
        binaryThresholdImageFilter_uint8, newCellArrayPath]
      have hw := writeFilterOutput_created dca f.selectedCellArrayPath
        (if f.saveAsNewArray then f.newCellArrayName else "thisIsATempName")
        (fun n => uint8Array [1] (List.replicate n 0))
        ⟨⟨dims, a.values.map (binaryThreshold (wrapUnsigned 8 f.manualParameter) 255 255 0)⟩, none⟩
        dc am hdc ham hnew
      simp only [lt_self_iff_false, if_false]
      rw [hw]
      cases hs : f.saveAsNewArray <;> simp [arrayAfterUpdate, uint8Array, DataArray.withValues,
        DataArray.values]

end ManualThreshold

namespace ItkMeanKernel

variable {F : Type}

theorem meanKernel_of_failed (env : MeanKernelStages F) (codes : SimplCodes) (f : ItkMeanKernel)
    (dca : DataContainerArray) (h : (f.dataCheck codes dca).errorCondition < 0) :
    (f.execute env codes dca).errorCondition < 0 ∧ (f.execute env codes dca).store = dca := by
  have hs : (f.dataCheck codes dca).store = dca := by
    rcases dataCheckDefaultPixel_cases codes f.selectedCellArrayPath f.saveAsNewArray
      f.newCellArrayName dca with ⟨_, hs⟩ | ⟨_, _, _, _, _, _, _, _, _, _, heq⟩
    · exact hs
    · unfold dataCheck at h
      rw [heq] at h
      simp at h
  unfold execute
  simp only [h, if_true, hs]
  trivial

/-- What `execute` leaves behind after a passed `dataCheck`. -/
theorem meanKernel_of_passed (env : MeanKernelStages F) (codes : SimplCodes) (f : ItkMeanKernel)
    (dca : DataContainerArray) (h : ¬ (f.dataCheck codes dca).errorCondition < 0) :
    ∃ dc am a r,
      getDataContainer dca f.selectedCellArrayPath.dataContainerName = some dc ∧
      dc.getAttributeMatrix f.selectedCellArrayPath.attributeMatrixName = some am ∧
      am.getAttributeArray f.selectedCellArrayPath.dataArrayName = some a ∧
      a.getTypeAsString = "uint8_t" ∧
      am.getAttributeArray (if f.saveAsNewArray then f.newCellArrayName else "thisIsATempName") =
        none ∧
      r.getNumberOfTuples = am.numTuples ∧
      (f.execute env codes dca).store =
        (if f.saveAsNewArray then
          modifyAttributeMatrix dca f.selectedCellArrayPath.dataContainerName
            f.selectedCellArrayPath.attributeMatrixName
            (fun m => { m with arrays := m.arrays ++ [(f.newCellArrayName, r)] })
        else removeAndRename
          (modifyAttributeMatrix dca f.selectedCellArrayPath.dataContainerName
            f.selectedCellArrayPath.attributeMatrixName
            (fun m => { m with arrays := m.arrays ++ [("thisIsATempName", r)] }))
          f.selectedCellArrayPath "thisIsATempName") := by
  rcases dataCheckDefaultPixel_cases codes f.selectedCellArrayPath f.saveAsNewArray
    f.newCellArrayName dca with ⟨hneg, _⟩ | ⟨dc, am, a, dims, hdc, ham, harr, ht, hgeom, hnew, heq⟩
  · exact absurd hneg h
  · refine ⟨dc, am, a,
      arrayAfterUpdate (uint8Array [1] (List.replicate am.numTuples 0))
        (rescaleUpdate env (env.meanImageFilter f.kernelSize ⟨dims, a.values⟩)),
      hdc, ham, harr, ht, hnew, ?_, ?_⟩
    · rw [arrayAfterUpdate_getNumberOfTuples]
      simp [uint8Array, DataArray.getNumberOfTuples]
    · unfold execute dataCheck
      rw [heq]
      simp only [inputImage_of_passed dca _ _ _ _ _ dc dims hdc hgeom, newCellArrayPath]
      have hw := writeFilterOutput_created dca f.selectedCellArrayPath
        (if f.saveAsNewArray then f.newCellArrayName else "thisIsATempName")
        (fun n => uint8Array [1] (List.replicate n 0))
        (rescaleUpdate env (env.meanImageFilter f.kernelSize ⟨dims, a.values⟩))
        dc am hdc ham hnew
      simp only [lt_self_iff_false, if_false]
      rw [hw]
      cases hs : f.saveAsNewArray <;> simp

end ItkMeanKernel

namespace ImageMath

variable {V : Type}

theorem imageMath_of_failed (operation : Nat → V → Image Int → UpdateResult Int)
    (codes : SimplCodes) (f : ImageMath V) (dca : DataContainerArray)
    (h : (f.dataCheck codes dca).errorCondition < 0) :
    ∃ s, f.execute operation codes dca = .ok s ∧ s.errorCondition < 0 ∧ s.store = dca := by
  have hs : (f.dataCheck codes dca).store = dca := by
    rcases dataCheckDefaultPixel_cases codes f.selectedCellArrayPath f.saveAsNewArray
      f.newCellArrayName dca with ⟨_, hs⟩ | ⟨_, _, _, _, _, _, _, _, _, _, heq⟩
    · exact hs
    · unfold dataCheck at h
      rw [heq] at h
      simp at h
  unfold execute
  simp only [h, if_true, hs]
  exact ⟨_, rfl, h, rfl⟩

/-- What `execute` leaves behind when it returns after a passed `dataCheck`. -/
theorem imageMath_of_passed (operation : Nat → V → Image Int → UpdateResult Int)
    (codes : SimplCodes) (f : ImageMath V) (dca : DataContainerArray) (s : FilterState)
    (h : ¬ (f.dataCheck codes dca).errorCondition < 0)
    (hs : f.execute operation codes dca = .ok s) :
    ∃ dc am a r,
      getDataContainer dca f.selectedCellArrayPath.dataContainerName = some dc ∧
      dc.getAttributeMatrix f.selectedCellArrayPath.attributeMatrixName = some am ∧
      am.getAttributeArray f.selectedCellArrayPath.dataArrayName = some a ∧
      a.getTypeAsString = "uint8_t" ∧
      am.getAttributeArray (if f.saveAsNewArray then f.newCellArrayName else "thisIsATempName") =
        none ∧
      r.getNumberOfTuples = am.numTuples ∧
      s.errorCondition = 0 ∧
      s.store =
        (if f.saveAsNewArray then
          modifyAttributeMatrix dca f.selectedCellArrayPath.dataContainerName
            f.selectedCellArrayPath.attributeMatrixName
            (fun m => { m with arrays := m.arrays ++ [(f.newCellArrayName, r)] })
        else removeAndRename
          (modifyAttributeMatrix dca f.selectedCellArrayPath.dataContainerName
            f.selectedCellArrayPath.attributeMatrixName
            (fun m => { m with arrays := m.arrays ++ [("thisIsATempName", r)] }))
          f.selectedCellArrayPath "thisIsATempName") := by
  rcases dataCheckDefaultPixel_cases codes f.selectedCellArrayPath f.saveAsNewArray
    f.newCellArrayName dca with ⟨hneg, _⟩ | ⟨dc, am, a, dims, hdc, ham, harr, ht, hgeom, hnew, heq⟩
  · exact absurd hneg h
  · unfold execute dataCheck at hs
    rw [heq] at hs
    simp only [inputImage_of_passed dca _ _ _ _ _ dc dims hdc hgeom, newCellArrayPath,
      lt_self_iff_false, if_false] at hs
    by_cases hop : 0 ≤ f.operator ∧ f.operator ≤ 11
    · simp only [hop, and_self, if_true] at hs
      rcases Option.eq_none_or_eq_some
        (operation f.operator.toNat f.value ⟨dims, a.values⟩).exception with hex | ⟨d, hex⟩
      · simp only [hex] at hs
        have hw := writeFilterOutput_created dca f.selectedCellArrayPath
          (if f.saveAsNewArray then f.newCellArrayName else "thisIsATempName")
          (fun n => uint8Array [1] (List.replicate n 0))
          (operation f.operator.toNat f.value ⟨dims, a.values⟩)
          dc am hdc ham hnew
        rw [hw] at hs
        refine ⟨dc, am, a,
          arrayAfterUpdate (uint8Array [1] (List.replicate am.numTuples 0))
            (operation f.operator.toNat f.value ⟨dims, a.values⟩),
          hdc, ham, harr, ht, hnew, ?_, ?_, ?_⟩
        · rw [arrayAfterUpdate_getNumberOfTuples]
          simp [uint8Array, DataArray.getNumberOfTuples]
        · cases hs
          rfl
        · cases hs
          cases hsv : f.saveAsNewArray <;> simp
      · simp [hex] at hs
    · simp only [hop, if_false] at hs
      refine ⟨dc, am, a, uint8Array [1] (List.replicate am.numTuples 0),
        hdc, ham, harr, ht, hnew, ?_, ?_, ?_⟩
      · simp [uint8Array, DataArray.getNumberOfTuples]
      · cases hs
        rfl
      · cases hs
        have e : storeWithCreatedArray dca f.selectedCellArrayPath
            (if f.saveAsNewArray then f.newCellArrayName else "thisIsATempName")
            (fun n => uint8Array [1] (List.replicate n 0)) =
            modifyAttributeMatrix dca f.selectedCellArrayPath.dataContainerName
              f.selectedCellArrayPath.attributeMatrixName
              (fun m => { m with arrays := m.arrays ++
                [(if f.saveAsNewArray then f.newCellArrayName else "thisIsATempName",
                  uint8Array [1] (List.replicate am.numTuples 0))] }) := by
          unfold storeWithCreatedArray
          apply modifyAttributeMatrix_congr _ _ _ _ _ dc am hdc ham
          rfl
        simp only [e]
        cases hsv : f.saveAsNewArray <;> simp

end ImageMath

/-- Adding again, under its own name, the array that was appended leaves the
attribute matrix as it is. -/
theorem addAttributeArray_appended (am : AttributeMatrix) (n : String) (r : DataArray)
    (hnew : am.getAttributeArray n = none) :
    AttributeMatrix.addAttributeArray { am with arrays := am.arrays ++ [(n, r)] } n r =
      { am with arrays := am.arrays ++ [(n, r)] } := by
  unfold AttributeMatrix.addAttributeArray
  split
  · rfl
  · rw [getAttributeArray_append_new am n r hnew]
    simp only
    have hnot := not_mem_names_of_getAttributeArray am n hnew
    have hmap : List.map (fun a : String × DataArray => if (a.1 == n) = true then (n, r) else a)
        am.arrays = am.arrays := by
      conv_rhs => rw [← List.map_id am.arrays]
      apply List.map_congr_left
      intro x hx
      have hx3 : (x.1 == n) = false := by simpa using hnot x hx
      simp [hx3]
    rw [List.map_append, hmap]
    simp

namespace ItkManualThresholdTemplate

theorem template_dataCheck_cases (codes : SimplCodes) (f : ItkManualThresholdTemplate)
    (dca : DataContainerArray) :
    ((f.dataCheck codes dca).errorCondition < 0 ∧ (f.dataCheck codes dca).store = dca) ∨
    (∃ dc am a dims,
      getDataContainer dca f.selectedCellArrayArrayPath.dataContainerName = some dc ∧
      dc.getAttributeMatrix f.selectedCellArrayArrayPath.attributeMatrixName = some am ∧
      am.getAttributeArray f.selectedCellArrayArrayPath.dataArrayName = some a ∧
      dc.geometry = some (.image dims) ∧
      am.getAttributeArray (if f.saveAsNewArray then f.newCellArrayName else "thisIsATempName") =
        none ∧
      f.dataCheck codes dca =
        ⟨0, storeWithCreatedArray dca f.selectedCellArrayArrayPath
            (if f.saveAsNewArray then f.newCellArrayName else "thisIsATempName")
            (fun n => a.withValues (List.replicate n 0)),
          some a, if f.saveAsNewArray then f.newCellArrayName else "thisIsATempName",
          some ⟨f.selectedCellArrayArrayPath.dataContainerName,
            f.selectedCellArrayArrayPath.attributeMatrixName,
            if f.saveAsNewArray then f.newCellArrayName else "thisIsATempName"⟩⟩) := by
  unfold dataCheck
  split
  · rename_i e he
    exact Or.inl ⟨getPrereqArrayOfAnyType_error _ _ _ _ _ he, rfl⟩
  · rename_i a hsel
    obtain ⟨dc, am, hdc, ham, harr, _⟩ := getPrereqArrayOfAnyType_ok _ _ _ _ _ hsel
    simp only
    split
    · rename_i hnone
      rw [hdc] at hnone
      cases hnone
    rename_i dc1 hdc1
    have e0 : dc1 = dc := by
      have := hdc1.symm.trans hdc
      simpa using this
    subst e0
    split
    · rename_i e he
      exact Or.inl ⟨getPrereqImageGeometry_error _ _ _ he, rfl⟩
    · rename_i dims hdims
      split
      · rename_i e he
        exact Or.inl ⟨createNonPrereqArrayFromPath_error _ _ _ _ _ he, rfl⟩
      · rename_i dca2 hcreate
        obtain ⟨dc2, am2, hdc2, ham2, hnone, hstore⟩ :=
          createNonPrereqArrayFromPath_ok _ _ _ _ _ hcreate
        have e1 : dc2 = dc1 := by
          have := hdc2.symm.trans hdc
          simpa using this
        subst e1
        have e2 : am2 = am := by
          have := ham2.symm.trans ham
          simpa using this
        subst e2
        refine Or.inr ⟨_, _, a, dims, hdc, ham, harr,
          getPrereqImageGeometry_ok _ _ _ hdims, hnone, ?_⟩
        rw [hstore]
        rfl

/-- What `execute` leaves behind when it saves its result as a new array and
ends without a negative error condition. -/
theorem template_of_saved (codes : SimplCodes) (f : ItkManualThresholdTemplate)
    (dca : DataContainerArray) (hsave : f.saveAsNewArray = true)
    (hok : ¬ (f.execute codes dca).errorCondition < 0) :
    ∃ dc am a r,
      getDataContainer dca f.selectedCellArrayArrayPath.dataContainerName = some dc ∧
      dc.getAttributeMatrix f.selectedCellArrayArrayPath.attributeMatrixName = some am ∧
      am.getAttributeArray f.selectedCellArrayArrayPath.dataArrayName = some a ∧
      am.getAttributeArray f.newCellArrayName = none ∧
      r.getNumberOfTuples = am.numTuples ∧
      (f.execute codes dca).store =
        modifyAttributeMatrix dca f.selectedCellArrayArrayPath.dataContainerName
          f.selectedCellArrayArrayPath.attributeMatrixName
          (fun m => { m with arrays := m.arrays ++ [(f.newCellArrayName, r)] }) := by
  rcases template_dataCheck_cases codes f dca with ⟨hneg, _⟩ |
    ⟨dc, am, a, dims, hdc, ham, harr, hgeom, hnew, heq⟩
  · exfalso
    apply hok
    unfold execute
    simp only [hneg, if_true]
    decide
  · rw [hsave] at hnew heq
    simp only [if_true] at hnew heq
    obtain ⟨m, hm, hmg⟩ : ∃ m, getDataContainer (storeWithCreatedArray dca
        f.selectedCellArrayArrayPath f.newCellArrayName
        (fun n => a.withValues (List.replicate n 0)))
        f.selectedCellArrayArrayPath.dataContainerName = some m ∧ m.geometry = dc.geometry := by
      unfold storeWithCreatedArray
      rw [getDataContainer_modifyAttributeMatrix, hdc]
      exact ⟨_, rfl, rfl⟩
    have hwrap : wrapDataPointer m a.values = ⟨dims, a.values⟩ := by
      simp [wrapDataPointer, hmg, hgeom]
    unfold execute at hok ⊢
    rw [heq] at hok ⊢
    simp only [lt_self_iff_false, if_false, hm, hwrap] at hok ⊢
    cases ht : ScalarType.ofTypeName a.getTypeAsString with
    | none =>
      exfalso
      apply hok
      simp only [ht]
      decide
    | some t =>
      simp only [ht, newCellArrayPath]
      have hw := writeFilterOutput_created dca f.selectedCellArrayArrayPath
        f.newCellArrayName (fun n => a.withValues (List.replicate n 0))
        (thresholdUpdate t f.manualParameter ⟨dims, a.values⟩)
        dc am hdc ham hnew
      rw [hw]
      refine ⟨dc, am, a,
        arrayAfterUpdate (a.withValues (List.replicate am.numTuples 0))
          (thresholdUpdate t f.manualParameter ⟨dims, a.values⟩),
        hdc, ham, harr, hnew, ?_, ?_⟩
      · rw [arrayAfterUpdate_getNumberOfTuples, DataArray.withValues_getNumberOfTuples,
          List.length_replicate]
      · have e := modifyAttributeMatrix_modifyAttributeMatrix dca
          f.selectedCellArrayArrayPath.dataContainerName
          f.selectedCellArrayArrayPath.attributeMatrixName
          (fun m => { m with arrays := m.arrays ++ [(f.newCellArrayName,
            arrayAfterUpdate (a.withValues (List.replicate am.numTuples 0))
              (thresholdUpdate t f.manualParameter ⟨dims, a.values⟩))] })
          (f.cleanup ⟨0, storeWithCreatedArray dca f.selectedCellArrayArrayPath
              f.newCellArrayName (fun n => a.withValues (List.replicate n 0)),
            some a, f.newCellArrayName,
            some ⟨f.selectedCellArrayArrayPath.dataContainerName,
              f.selectedCellArrayArrayPath.attributeMatrixName, f.newCellArrayName⟩⟩)
          (fun _ => rfl)
        rw [e]
        apply modifyAttributeMatrix_congr _ _ _ _ _ dc am hdc ham
        simp only
        unfold cleanup
        simp only [hsave, if_true]
        rw [getAttributeArray_append_new am _ _ hnew]
        simp only
        exact addAttributeArray_appended am _ _ hnew

end ItkManualThresholdTemplate

/-! ## Claims C12 to C15: the frame and the values of the pixel filters -/

theorem getArrayFromPath_filter_append (dca : DataContainerArray) (selected : DataArrayPath)
    (r : DataArray) (dc : DataContainer) (am : AttributeMatrix)
    (hdc : getDataContainer dca selected.dataContainerName = some dc)
    (ham : dc.getAttributeMatrix selected.attributeMatrixName = some am) :
    getArrayFromPath
        (modifyAttributeMatrix dca selected.dataContainerName selected.attributeMatrixName
          (fun m => { m with
            arrays := m.arrays.filter (fun a => !(a.1 == selected.dataArrayName)) ++
              [(selected.dataArrayName, r)] }))
        selected = some r := by
  rw [getArrayFromPath_modify dca selected _ dc am hdc ham]
  · unfold AttributeMatrix.getAttributeArray
    have hnone : (am.arrays.filter (fun a => !(a.1 == selected.dataArrayName))).find?
        (fun x => x.1 == selected.dataArrayName) = none := by
      apply List.find?_eq_none.mpr
      intro x hx
      have := (List.mem_filter.mp hx).2
      simpa using this
    simp [List.find?_append, hnone]
  · intro _
    rfl

theorem binaryThreshold_uint8 (t x : Int) (ht : 0 ≤ t ∧ t ≤ 255) (hx : x ≤ 255) :
    binaryThreshold (wrapUnsigned 8 t) 255 255 0 x = if x ≥ t then 255 else 0 := by
  have hw : wrapUnsigned 8 t = t := by
    unfold wrapUnsigned
    apply Int.emod_eq_of_lt ht.1
    have h3 : (2 : Int) ^ 8 = 256 := by decide
    omega
  unfold binaryThreshold
  rw [hw]
  by_cases h : t ≤ x
  · simp [h, hx]
  · simp [h]

namespace ManualThreshold

/-- C14: for every `uint8_t` image (samples in `0..255`) in a store whose arrays
have the tuple count of their attribute matrix, and every threshold `t` in
`0..255`, a run of `ManualThreshold::execute` that ends without a negative
error condition stores, under the new name or in place of the input, the array
with 255 where `input[i] >= t` and 0 elsewhere; this is the output of the loop
documented as "example without itk". -/
theorem execute_eq_filterWithoutItk (codes : SimplCodes) (f : ManualThreshold)
    (dca : DataContainerArray) (a : DataArray)
    (hok : ¬ (f.execute codes dca).errorCondition < 0)
    (hcons : TuplesConsistent dca)
    (hin : getArrayFromPath dca f.selectedCellArrayPath = some a)
    (hrange : ∀ x ∈ a.values, 0 ≤ x ∧ x ≤ 255)
    (ht : 0 ≤ f.manualParameter ∧ f.manualParameter ≤ 255) :
    getArrayFromPath (f.execute codes dca).store
        (if f.saveAsNewArray then
          ⟨f.selectedCellArrayPath.dataContainerName, f.selectedCellArrayPath.attributeMatrixName,
            f.newCellArrayName⟩
        else f.selectedCellArrayPath) =
      some (uint8Array [1]
        (a.values.map (fun x => if x ≥ f.manualParameter then 255 else 0))) ∧
    a.values.map (fun x => if x ≥ f.manualParameter then 255 else 0) =
      filterWithoutItk .uint8 a.values f.manualParameter := by
  have hpass : ¬ (f.dataCheck codes dca).errorCondition < 0 :=
    fun hneg => hok (threshold_of_failed codes f dca hneg).1
  obtain ⟨dc, am, a2, hdc, ham, harr, _, hnew, _, hstore⟩ := threshold_of_passed codes f dca hpass
  have ha : a2 = a := by
    rw [getArrayFromPath_eq dca _ dc am hdc ham, harr] at hin
    exact Option.some.inj hin
  subst ha
  have hlen : a2.values.length = am.numTuples := by
    rw [DataArray.values_length]
    exact getNumberOfTuples_of_consistent dca hcons _ _ _ dc am _ hdc ham harr
  have hvals : importBuffer
      (a2.values.map (binaryThreshold (wrapUnsigned 8 f.manualParameter) 255 255 0))
      (List.replicate am.numTuples 0) =
      a2.values.map (fun x => if x ≥ f.manualParameter then 255 else 0) := by
    rw [importBuffer_of_length_eq _ _ (by simp [hlen])]
    apply List.map_congr_left
    intro x hx
    exact binaryThreshold_uint8 _ _ ht (hrange x hx).2
  constructor
  · rw [hstore, hvals]
    cases hs : f.saveAsNewArray
    · rw [hs] at hnew
      simp only [Bool.false_eq_true, if_false] at hnew ⊢
      rw [removeAndRename_created dca _ _ a2 _ dc am hdc ham harr hnew]
      exact getArrayFromPath_filter_append dca _ _ dc am hdc ham
    · rw [hs] at hnew
      simp only [if_true] at hnew ⊢
      have h := getArrayFromPath_modify dca
        ⟨f.selectedCellArrayPath.dataContainerName,
          f.selectedCellArrayPath.attributeMatrixName, f.newCellArrayName⟩
        (fun m => { m with arrays := m.arrays ++ [(f.newCellArrayName, uint8Array [1]
          (a2.values.map (fun x => if x ≥ f.manualParameter then 255 else 0)))] })
        dc am hdc ham (fun _ => rfl)
      simp only at h
      rw [h]
      exact getAttributeArray_append_new am _ _ hnew
  · unfold filterWithoutItk
    apply List.map_congr_left
    intro x _
    rfl

theorem execute_eq_filterWithoutItk_witness :
    ¬ (execute demoCodes ⟨pixelPath, "Threshold", true, 128⟩
        (pixelStore (uint8Array [1] [0, 127, 128, 255]))).errorCondition < 0 ∧
    TuplesConsistent (pixelStore (uint8Array [1] [0, 127, 128, 255])) ∧
    getArrayFromPath (execute demoCodes ⟨pixelPath, "Threshold", true, 128⟩
        (pixelStore (uint8Array [1] [0, 127, 128, 255]))).store
        ⟨"DataContainer", "CellData", "Threshold"⟩ =
      some (uint8Array [1] [0, 0, 255, 255]) :=
  ⟨by decide, by decide,
    (execute_eq_filterWithoutItk demoCodes ⟨pixelPath, "Threshold", true, 128⟩
      (pixelStore (uint8Array [1] [0, 127, 128, 255])) (uint8Array [1] [0, 127, 128, 255])
      (by decide) (by decide) (by decide) (by decide) (by decide)).1⟩

end ManualThreshold

namespace ItkManualThresholdTemplate

/-- C15 (the code at the failing input): on the `uint16_t` array
`[0, 127, 128, 300]` with the parameter 128, `ItkManualThresholdTemplate::execute` ends
without error and stores `[0, 0, 255, 0]`, while the documented loop without
ITK gives `[0, 0, 255, 255]`: the sample 300 is above the upper threshold
`0xFF` and is marked 0. -/
theorem execute_uint16_differs_from_filterWithoutItk :
    (execute demoCodes ⟨pixelPath, "Threshold", true, 128⟩
      (pixelStore (.other "uint16_t" [1] [0, 127, 128, 300]))).errorCondition = 0 ∧
    getArrayFromPath (execute demoCodes ⟨pixelPath, "Threshold", true, 128⟩
      (pixelStore (.other "uint16_t" [1] [0, 127, 128, 300]))).store
      ⟨"DataContainer", "CellData", "Threshold"⟩ =
      some (.other "uint16_t" [1] [0, 0, 255, 0]) ∧
    filterWithoutItk .uint16 [0, 127, 128, 300] (ScalarType.uint16.cast 128) =
      [0, 0, 255, 255] := by
  decide

end ItkManualThresholdTemplate

/-- With `SaveAsNewArray = false`, a run of `ImageMath`, `ItkMeanKernel` or
`ManualThreshold` that ends without a negative error condition replaces the
selected array: same array names, the result under the selected name, no
array named `thisIsATempName`. -/
theorem removeAndRename_filters_replace_selected {V F : Type} (codes : SimplCodes)
    (dca : DataContainerArray) (hcons : TuplesConsistent dca) :
    (∀ (operation : Nat → V → Image Int → UpdateResult Int) (f : ImageMath V)
        (s : FilterState),
      f.saveAsNewArray = false → f.execute operation codes dca = .ok s →
      ¬ s.errorCondition < 0 →
      ReplacesSelectedArray dca s.store f.selectedCellArrayPath) ∧
    (∀ (env : MeanKernelStages F) (f : ItkMeanKernel),
      f.saveAsNewArray = false → ¬ (f.execute env codes dca).errorCondition < 0 →
      ReplacesSelectedArray dca (f.execute env codes dca).store f.selectedCellArrayPath) ∧
    (∀ (f : ManualThreshold),
      f.saveAsNewArray = false → ¬ (f.execute codes dca).errorCondition < 0 →
      ReplacesSelectedArray dca (f.execute codes dca).store f.selectedCellArrayPath) := by
  refine ⟨?_, ?_, ?_⟩
  · intro operation f s hsave hs hok
    have hpass : ¬ (f.dataCheck codes dca).errorCondition < 0 := by
      intro hneg
      obtain ⟨s2, hs2, hneg2, _⟩ := ImageMath.imageMath_of_failed operation codes f dca hneg
      rw [hs] at hs2
      cases hs2
      exact hok hneg2
    obtain ⟨dc, am, a, r, hdc, ham, harr, _, hnew, hr, _, hstore⟩ :=
      ImageMath.imageMath_of_passed operation codes f dca s hpass hs
    rw [hstore, hsave]
    simp only [Bool.false_eq_true, if_false]
    exact (frame_of_created dca _ f.saveAsNewArray f.newCellArrayName a r dc am hcons hdc ham
      harr hnew hr).2 hsave
  · intro env f hsave hok
    have hpass : ¬ (f.dataCheck codes dca).errorCondition < 0 :=
      fun hneg => hok (ItkMeanKernel.meanKernel_of_failed env codes f dca hneg).1
    obtain ⟨dc, am, a, r, hdc, ham, harr, _, hnew, hr, hstore⟩ :=
      ItkMeanKernel.meanKernel_of_passed env codes f dca hpass
    rw [hstore, hsave]
    simp only [Bool.false_eq_true, if_false]
    exact (frame_of_created dca _ f.saveAsNewArray f.newCellArrayName a r dc am hcons hdc ham
      harr hnew hr).2 hsave
  · intro f hsave hok
    have hpass : ¬ (f.dataCheck codes dca).errorCondition < 0 :=
      fun hneg => hok (ManualThreshold.threshold_of_failed codes f dca hneg).1
    obtain ⟨dc, am, a, hdc, ham, harr, _, hnew, _, hstore⟩ :=
      ManualThreshold.threshold_of_passed codes f dca hpass
    rw [hstore, hsave]
    simp only [Bool.false_eq_true, if_false]
    refine (frame_of_created dca _ f.saveAsNewArray f.newCellArrayName a _ dc am hcons hdc ham
      harr hnew ?_).2 hsave
    show (importBuffer _ _).length = _
    rw [importBuffer_length, List.length_replicate]

/-- C12 (the code at the failing input): `ItkManualThresholdTemplate::execute` with
`SaveAsNewArray = false` on the `uint8_t` array `Image = [0, 127, 128, 255]` and
the parameter 128 ends without error, and afterwards the attribute matrix
holds the two names `thisIsATempName` and `Image`, where it held the one name
`Image` before: the temporary name remains. -/
theorem template_in_place_keeps_temp_name :
    (ItkManualThresholdTemplate.execute demoCodes ⟨pixelPath, "", false, 128⟩
      (pixelStore (uint8Array [1] [0, 127, 128, 255]))).errorCondition = 0 ∧
    arrayNamesAt (pixelStore (uint8Array [1] [0, 127, 128, 255]))
      "DataContainer" "CellData" = ["Image"] ∧
    "thisIsATempName" ∈
      arrayNamesAt (ItkManualThresholdTemplate.execute demoCodes ⟨pixelPath, "", false, 128⟩
        (pixelStore (uint8Array [1] [0, 127, 128, 255]))).store "DataContainer" "CellData" ∧
    (arrayNamesAt (ItkManualThresholdTemplate.execute demoCodes ⟨pixelPath, "", false, 128⟩
      (pixelStore (uint8Array [1] [0, 127, 128, 255]))).store
      "DataContainer" "CellData").length = 2 ∧
    getArrayFromPath (ItkManualThresholdTemplate.execute demoCodes ⟨pixelPath, "", false, 128⟩
      (pixelStore (uint8Array [1] [0, 127, 128, 255]))).store pixelPath =
      some (uint8Array [1] [0, 0, 255, 255]) := by
  decide

/-- C13: for each of `ImageMath`, `ItkMeanKernel`, `ManualThreshold` and
`ItkManualThresholdTemplate` run with `SaveAsNewArray = true` on a store whose arrays
have the tuple count of their attribute matrix, after an execute that ends
without a negative error condition the selected array is stored unchanged
under its name, no array was stored under `NewCellArrayName` before, and the
store is the old one with exactly one array added, named `NewCellArrayName`,
with the tuple count of the input (so every other array is as it was). -/
theorem execute_saveAsNewArray_adds_one_array {V F : Type} (codes : SimplCodes)
    (dca : DataContainerArray) (hcons : TuplesConsistent dca) :
    (∀ (operation : Nat → V → Image Int → UpdateResult Int) (f : ImageMath V)
        (s : FilterState),
      f.saveAsNewArray = true → f.execute operation codes dca = .ok s →
      ¬ s.errorCondition < 0 →
      AddsOneArray dca s.store f.selectedCellArrayPath f.newCellArrayName) ∧
    (∀ (env : MeanKernelStages F) (f : ItkMeanKernel),
      f.saveAsNewArray = true → ¬ (f.execute env codes dca).errorCondition < 0 →
      AddsOneArray dca (f.execute env codes dca).store f.selectedCellArrayPath
        f.newCellArrayName) ∧
    (∀ (f : ManualThreshold),
      f.saveAsNewArray = true → ¬ (f.execute codes dca).errorCondition < 0 →
      AddsOneArray dca (f.execute codes dca).store f.selectedCellArrayPath
        f.newCellArrayName) ∧
    (∀ (f : ItkManualThresholdTemplate),
      f.saveAsNewArray = true → ¬ (f.execute codes dca).errorCondition < 0 →
      AddsOneArray dca (f.execute codes dca).store f.selectedCellArrayArrayPath
        f.newCellArrayName) := by
  refine ⟨?_, ?_, ?_, ?_⟩
  · intro operation f s hsave hs hok
    have hpass : ¬ (f.dataCheck codes dca).errorCondition < 0 := by
      intro hneg
      obtain ⟨s2, hs2, hneg2, _⟩ := ImageMath.imageMath_of_failed operation codes f dca hneg
      rw [hs] at hs2
      cases hs2
      exact hok hneg2
    obtain ⟨dc, am, a, r, hdc, ham, harr, _, hnew, hr, _, hstore⟩ :=
      ImageMath.imageMath_of_passed operation codes f dca s hpass hs
    rw [hstore, hsave]
    simp only [if_true]
    exact (frame_of_created dca _ f.saveAsNewArray f.newCellArrayName a r dc am hcons hdc ham
      harr hnew hr).1 hsave
  · intro env f hsave hok
    have hpass : ¬ (f.dataCheck codes dca).errorCondition < 0 :=
      fun hneg => hok (ItkMeanKernel.meanKernel_of_failed env codes f dca hneg).1
    obtain ⟨dc, am, a, r, hdc, ham, harr, _, hnew, hr, hstore⟩ :=
      ItkMeanKernel.meanKernel_of_passed env codes f dca hpass
    rw [hstore, hsave]
    simp only [if_true]
    exact (frame_of_created dca _ f.saveAsNewArray f.newCellArrayName a r dc am hcons hdc ham
      harr hnew hr).1 hsave
  · intro f hsave hok
    have hpass : ¬ (f.dataCheck codes dca).errorCondition < 0 :=
      fun hneg => hok (ManualThreshold.threshold_of_failed codes f dca hneg).1
    obtain ⟨dc, am, a, hdc, ham, harr, _, hnew, _, hstore⟩ :=
      ManualThreshold.threshold_of_passed codes f dca hpass
    rw [hstore, hsave]
    simp only [if_true]
    refine (frame_of_created dca _ f.saveAsNewArray f.newCellArrayName a _ dc am hcons hdc ham
      harr hnew ?_).1 hsave
    show (importBuffer _ _).length = _
    rw [importBuffer_length, List.length_replicate]
  · intro f hsave hok
    obtain ⟨dc, am, a, r, hdc, ham, harr, hnew, hr, hstore⟩ :=
      ItkManualThresholdTemplate.template_of_saved codes f dca hsave hok
    rw [hstore]
    refine (frame_of_created dca _ true f.newCellArrayName a r dc am hcons hdc ham
      harr ?_ hr).1 rfl
    simpa using hnew

theorem execute_saveAsNewArray_adds_one_array_witness :
    TuplesConsistent (pixelStore (uint8Array [1] [0, 127, 128, 255])) ∧
    (∃ s, ImageMath.execute demoOperation demoCodes ⟨pixelPath, "Threshold", true, 0, 1⟩
        (pixelStore (uint8Array [1] [0, 127, 128, 255])) = .ok s ∧
      AddsOneArray (pixelStore (uint8Array [1] [0, 127, 128, 255])) s.store pixelPath
        "Threshold") ∧
    AddsOneArray (pixelStore (uint8Array [1] [0, 127, 128, 255]))
      (ItkMeanKernel.execute demoMeanStages demoCodes
        ⟨pixelPath, "Threshold", true, false, (1, 1, 1)⟩
        (pixelStore (uint8Array [1] [0, 127, 128, 255]))).store pixelPath "Threshold" ∧
    AddsOneArray (pixelStore (uint8Array [1] [0, 127, 128, 255]))
      (ManualThreshold.execute demoCodes ⟨pixelPath, "Threshold", true, 128⟩
        (pixelStore (uint8Array [1] [0, 127, 128, 255]))).store pixelPath "Threshold" ∧
    AddsOneArray (pixelStore (uint8Array [1] [0, 127, 128, 255]))
      (ItkManualThresholdTemplate.execute demoCodes ⟨pixelPath, "Threshold", true, 128⟩
        (pixelStore (uint8Array [1] [0, 127, 128, 255]))).store pixelPath "Threshold" :=
  ⟨by decide,
    ⟨_, rfl, (execute_saveAsNewArray_adds_one_array (V := Int) (F := Int) demoCodes
      (pixelStore (uint8Array [1] [0, 127, 128, 255])) (by decide)).1 demoOperation
      ⟨pixelPath, "Threshold", true, 0, 1⟩ _ rfl rfl (by decide)⟩,
    (execute_saveAsNewArray_adds_one_array (V := Int) (F := Int) demoCodes
      (pixelStore (uint8Array [1] [0, 127, 128, 255])) (by decide)).2.1 demoMeanStages
      ⟨pixelPath, "Threshold", true, false, (1, 1, 1)⟩ rfl (by decide),
    (execute_saveAsNewArray_adds_one_array (V := Int) (F := Int) demoCodes
      (pixelStore (uint8Array [1] [0, 127, 128, 255])) (by decide)).2.2.1
      ⟨pixelPath, "Threshold", true, 128⟩ rfl (by decide),
    (execute_saveAsNewArray_adds_one_array (V := Int) (F := Int) demoCodes
      (pixelStore (uint8Array [1] [0, 127, 128, 255])) (by decide)).2.2.2
      ⟨pixelPath, "Threshold", true, 128⟩ rfl (by decide)⟩

/-! ## Claims C19 and C20: the flags of the stages and the messages of the failures -/

namespace ItkBinaryWatershedLabeled

variable {F : Type}

/-- C19: a freshly constructed filter has `PeakTolerance` 1, and with that
tolerance `execute`, on a store that passes `dataCheck` and wraps the input
image `mask`, runs the distance map with `InsideIsPositive = true` and the
watershed with `MarkWatershedLine = false`.  With `D` what the distance map
returns for the flag `true` on `mask`, and `W` what the watershed returns for
the flag `false` on the inverted output of `D` and the seeds of the maxima
found with the tolerance 1: an exception of `D` is reported with the error
condition -5; otherwise an exception of `W` is reported with the error
condition -5; otherwise the error condition is 0 and the label field is the
output of `W` behind the mask.  What the stages do for the other value of
either flag has no influence on the run. -/
theorem execute_runs_stages_with_default_flags [Zero F] [Sub F] [One F] (env : ItkStages F)
    (codes : SimplCodes) (f : ItkBinaryWatershedLabeled F) (dca : DataContainerArray)
    (mask : Image Bool) (D : UpdateResult F) (W : UpdateResult Nat)
    (hdefault : f.peakTolerance = (New : ItkBinaryWatershedLabeled F).peakTolerance)
    (hpass : ¬ (f.dataCheck codes dca).errorCondition < 0)
    (hmask : f.inputImage codes dca = some mask)
    (hcons : TuplesConsistent dca)
    (hD : env.signedMaurerDistanceMap true mask = D)
    (hW : env.morphologicalWatershedFromMarkers (invertIntensity 0 D.output)
      (seedLabels mask.region (env.localMaximaFind D.output 1 true)) false = W) :
    (New : ItkBinaryWatershedLabeled F).peakTolerance = 1 ∧
    (∀ d, D.exception = some d →
      (f.execute env codes dca).errorCondition = -5 ∧
      (-5, exceptionMessage d) ∈ (f.execute env codes dca).errorMessages) ∧
    (D.exception = none → ∀ d, W.exception = some d →
      (f.execute env codes dca).errorCondition = -5 ∧
      (f.execute env codes dca).errorMessages = [(-5, exceptionMessage d)]) ∧
    (D.exception = none → W.exception = none →
      (f.execute env codes dca).errorCondition = 0 ∧
      (f.execute env codes dca).errorMessages = [] ∧
      f.labelField (f.execute env codes dca).store =
        some (importedBufferAfterUpdate (maskImageFilter W.output mask).buffer
          (List.replicate mask.buffer.length 0))) ∧
    (∀ env2 : ItkStages F,
      (∀ img, env2.signedMaurerDistanceMap true img = env.signedMaurerDistanceMap true img) →
      env2.localMaximaFind = env.localMaximaFind →
      (∀ e m, env2.morphologicalWatershedFromMarkers e m false =
        env.morphologicalWatershedFromMarkers e m false) →
      f.execute env2 codes dca = f.execute env codes dca) := by
  have htol : f.peakTolerance = 1 := hdefault
  subst hD
  rw [← htol] at hW
  obtain ⟨herr, _, _⟩ := execute_of_passed_input env codes f dca mask hpass hmask
  obtain ⟨hm1, hm2⟩ := execute_errorMessages_of_passed env codes f dca mask hpass hmask
  have hlab := execute_labelField_of_passed env codes f dca mask hpass hmask hcons
  rw [hW] at herr
  refine ⟨rfl, ?_, ?_, ?_, ?_⟩
  · intro d hd
    refine ⟨?_, ?_⟩
    · rw [herr, if_neg]
      rintro ⟨h, _⟩
      rw [hd] at h
      cases h
    · rw [hm1 d hd]
      exact List.mem_cons_self _ _
  · intro hDn d hd
    refine ⟨?_, ?_⟩
    · rw [herr, if_neg]
      rintro ⟨_, h⟩
      rw [hd] at h
      cases h
    · exact (hm2 hDn).1 d (by rw [hW]; exact hd)
  · intro hDn hWn
    refine ⟨?_, ?_, ?_⟩
    · rw [herr, if_pos ⟨hDn, hWn⟩]
    · exact (hm2 hDn).2 (by rw [hW]; exact hWn)
    · rw [hlab, labelsAfterRun_of_ok _ _ _ _ hDn (by rw [hW]; exact hWn), hW]
  · intro env2 hdist hfind hflood
    unfold execute runPipeline maskUpdate
    simp only [hdist, hfind, hflood]

theorem execute_runs_stages_with_default_flags_witness :
    demoFilter.peakTolerance = (New : ItkBinaryWatershedLabeled Int).peakTolerance ∧
    ¬ (demoFilter.dataCheck demoCodes (demoStore [true, false, true, false])).errorCondition < 0 ∧
    demoFilter.inputImage demoCodes (demoStore [true, false, true, false]) =
      some ⟨⟨2, 2, 1⟩, [true, false, true, false]⟩ ∧
    TuplesConsistent (demoStore [true, false, true, false]) ∧
    (flagSensitiveStages.signedMaurerDistanceMap false
      ⟨⟨2, 2, 1⟩, [true, false, true, false]⟩).exception = some "outside" ∧
    (flagSensitiveStages.morphologicalWatershedFromMarkers
      ⟨⟨2, 2, 1⟩, [-1, 1, -1, 1]⟩ ⟨⟨2, 2, 1⟩, [1, 0, 0, 0]⟩ true).exception = some "line" ∧
    (New : ItkBinaryWatershedLabeled Int).peakTolerance = 1 ∧
    (demoFilter.execute flagSensitiveStages demoCodes
      (demoStore [true, false, true, false])).errorCondition = 0 ∧
    (demoFilter.execute flagSensitiveStages demoCodes
      (demoStore [true, false, true, false])).errorMessages = [] ∧
    demoFilter.labelField (demoFilter.execute flagSensitiveStages demoCodes
      (demoStore [true, false, true, false])).store = some [1, 0, 1, 0] :=
  ⟨rfl, by decide, by decide, by decide, rfl, rfl,
    (execute_runs_stages_with_default_flags flagSensitiveStages demoCodes demoFilter
      (demoStore [true, false, true, false]) ⟨⟨2, 2, 1⟩, [true, false, true, false]⟩
      ⟨⟨⟨2, 2, 1⟩, [1, -1, 1, -1]⟩, none⟩ ⟨⟨⟨2, 2, 1⟩, [1, 1, 1, 1]⟩, none⟩
      rfl (by decide) (by decide) (by decide) rfl rfl).1,
    (execute_runs_stages_with_default_flags flagSensitiveStages demoCodes demoFilter
      (demoStore [true, false, true, false]) ⟨⟨2, 2, 1⟩, [true, false, true, false]⟩
      ⟨⟨⟨2, 2, 1⟩, [1, -1, 1, -1]⟩, none⟩ ⟨⟨⟨2, 2, 1⟩, [1, 1, 1, 1]⟩, none⟩
      rfl (by decide) (by decide) (by decide) rfl rfl).2.2.2.1 rfl rfl⟩

/-- C20 (the code on both failures): after a passed `dataCheck`, a run whose
distance map update throws the exception described by `d` and a run whose
watershed update throws the exception described by `d` both end with the error
condition -5, and every message either run sends is the pair
`(-5, "Failed to execute itk::KMeans filter. ..." ++ d)`; both runs send it. -/
theorem execute_failure_messages_coincide [Zero F] [Sub F]
    (signedDistance : Bool → Image Bool → Image F)
    (findMaxima : Image F → F → Bool → List Index3)
    (watershed : Image F → Image Nat → Bool → Image Nat) (d : String)
    (codes : SimplCodes) (f : ItkBinaryWatershedLabeled F) (dca : DataContainerArray)
    (hpass : ¬ (f.dataCheck codes dca).errorCondition < 0) :
    (f.execute (distanceFailure signedDistance findMaxima watershed d) codes dca).errorCondition
      = -5 ∧
    (f.execute (watershedFailure signedDistance findMaxima watershed d) codes dca).errorCondition
      = -5 ∧
    ∀ p : Int × String,
      (p ∈ (f.execute (distanceFailure signedDistance findMaxima watershed d) codes
          dca).errorMessages ↔ p = (-5, exceptionMessage d)) ∧
      (p ∈ (f.execute (watershedFailure signedDistance findMaxima watershed d) codes
          dca).errorMessages ↔ p = (-5, exceptionMessage d)) := by
  obtain ⟨dc, am, sel, dims, _, _, _, _, _, h1⟩ :=
    execute_of_passed (distanceFailure signedDistance findMaxima watershed d) codes f dca hpass
  obtain ⟨dc2, am2, sel2, dims2, _, _, _, _, _, h2⟩ :=
    execute_of_passed (watershedFailure signedDistance findMaxima watershed d) codes f dca hpass
  rw [h1, h2]
  refine ⟨?_, ?_, ?_⟩
  · simp [runPipeline, maskUpdate, distanceFailure]
  · simp [runPipeline, maskUpdate, watershedFailure]
  · intro p
    constructor
    · simp [runPipeline, maskUpdate, distanceFailure]
    · simp [runPipeline, maskUpdate, watershedFailure]

theorem execute_failure_messages_coincide_witness :
    (demoFilter.execute (distanceFailure demoDistance demoFind demoFlood "failed") demoCodes
        (demoStore [true, false, true, false])).errorMessages =
      [(-5, exceptionMessage "failed"), (-5, exceptionMessage "failed")] ∧
    (demoFilter.execute (watershedFailure demoDistance demoFind demoFlood "failed") demoCodes
        (demoStore [true, false, true, false])).errorMessages =
      [(-5, exceptionMessage "failed")] ∧
    (demoFilter.execute (distanceFailure demoDistance demoFind demoFlood "failed") demoCodes
        (demoStore [true, false, true, false])).errorCondition = -5 ∧
    (demoFilter.execute (watershedFailure demoDistance demoFind demoFlood "failed") demoCodes
        (demoStore [true, false, true, false])).errorCondition = -5 :=
  ⟨by decide, by decide,
    (execute_failure_messages_coincide demoDistance demoFind demoFlood "failed" demoCodes
      demoFilter (demoStore [true, false, true, false]) (by decide)).1,
    (execute_failure_messages_coincide demoDistance demoFind demoFlood "failed" demoCodes
      demoFilter (demoStore [true, false, true, false]) (by decide)).2.1⟩

end ItkBinaryWatershedLabeled

/-! ## Lemmas on grids and their neighbours -/

theorem mem_indices (r : Region) (i : Index3) : i ∈ r.indices ↔ r.isInside i := by
  unfold Region.indices Region.isInside
  simp only [List.mem_flatMap, List.mem_map, List.mem_range]
  constructor
  · rintro ⟨z, hz, y, hy, x, hx, rfl⟩
    exact ⟨hx, hy, hz⟩
  · rintro ⟨hx, hy, hz⟩
    exact ⟨i.z, hz, i.y, hy, i.x, hx, rfl⟩

theorem faceNeighbours_length_le (r : Region) (i : Index3) :
    (faceNeighbours r i).length ≤ 6 := by
  unfold faceNeighbours
  refine Nat.le_trans (List.length_filter_le _ _) ?_
  simp only [List.length_append, List.length_cons, List.length_nil]
  split <;> split <;> split <;> simp

theorem isInside_of_mem_faceNeighbours (r : Region) (i j : Index3)
    (h : j ∈ faceNeighbours r i) : r.isInside j := by
  unfold faceNeighbours at h
  simpa using (List.mem_filter.mp h).2

theorem mem_faceNeighbours_x (r : Region) (x y z : Nat) (h : r.isInside ⟨x + 1, y, z⟩) :
    (⟨x + 1, y, z⟩ : Index3) ∈ faceNeighbours r ⟨x, y, z⟩ ∧
    (⟨x, y, z⟩ : Index3) ∈ faceNeighbours r ⟨x + 1, y, z⟩ := by
  have h2 : r.isInside ⟨x, y, z⟩ := ⟨Nat.lt_of_succ_lt h.1, h.2.1, h.2.2⟩
  unfold faceNeighbours
  constructor
  · apply List.mem_filter.mpr
    exact ⟨by simp, by simpa using h⟩
  · apply List.mem_filter.mpr
    exact ⟨by simp, by simpa using h2⟩

theorem mem_faceNeighbours_y (r : Region) (x y z : Nat) (h : r.isInside ⟨x, y + 1, z⟩) :
    (⟨x, y + 1, z⟩ : Index3) ∈ faceNeighbours r ⟨x, y, z⟩ ∧
    (⟨x, y, z⟩ : Index3) ∈ faceNeighbours r ⟨x, y + 1, z⟩ := by
  have h2 : r.isInside ⟨x, y, z⟩ := ⟨h.1, Nat.lt_of_succ_lt h.2.1, h.2.2⟩
  unfold faceNeighbours
  constructor
  · apply List.mem_filter.mpr
    exact ⟨by simp, by simpa using h⟩
  · apply List.mem_filter.mpr
    exact ⟨by simp, by simpa using h2⟩

theorem mem_faceNeighbours_z (r : Region) (x y z : Nat) (h : r.isInside ⟨x, y, z + 1⟩) :
    (⟨x, y, z + 1⟩ : Index3) ∈ faceNeighbours r ⟨x, y, z⟩ ∧
    (⟨x, y, z⟩ : Index3) ∈ faceNeighbours r ⟨x, y, z + 1⟩ := by
  have h2 : r.isInside ⟨x, y, z⟩ := ⟨h.1, h.2.1, Nat.lt_of_succ_lt h.2.2⟩
  unfold faceNeighbours
  constructor
  · apply List.mem_filter.mpr
    exact ⟨by simp, by simpa using h⟩
  · apply List.mem_filter.mpr
    exact ⟨by simp, by simpa using h2⟩

/-- A property of the positions below `n` that passes between adjacent
positions holds at every position once it holds at one. -/
theorem line_connected (P : Nat → Prop) (n a b : Nat) (ha : a < n) (hb : b < n) (hP : P a)
    (up : ∀ k, k + 1 < n → P k → P (k + 1)) (down : ∀ k, k + 1 < n → P (k + 1) → P k) :
    P b := by
  have h0 : P 0 := by
    clear hb
    induction a with
    | zero => exact hP
    | succ k ih => exact ih (Nat.lt_of_succ_lt ha) (down k ha hP)
  clear ha hP
  induction b with
  | zero => exact h0
  | succ k ih => exact up k hb (ih (Nat.lt_of_succ_lt hb))

/-- A set of voxels of the grid that holds a voxel and, with a voxel, its face
neighbours, holds every voxel of the grid. -/
theorem grid_connected (r : Region) (S : Index3 → Prop) (p : Index3) (hp : r.isInside p)
    (hS : S p) (hclosed : ∀ i, r.isInside i → S i → ∀ j ∈ faceNeighbours r i, S j)
    (i : Index3) (hi : r.isInside i) : S i := by
  obtain ⟨px, py, pz⟩ := p
  obtain ⟨ix, iy, iz⟩ := i
  obtain ⟨hpx, hpy, hpz⟩ := hp
  obtain ⟨hix, hiy, hiz⟩ := hi
  simp only at hpx hpy hpz hix hiy hiz
  have h1 : S ⟨ix, py, pz⟩ := by
    refine line_connected (fun x => S ⟨x, py, pz⟩) r.sx px ix hpx hix hS ?_ ?_
    · intro k hk h
      exact hclosed ⟨k, py, pz⟩ ⟨Nat.lt_of_succ_lt hk, hpy, hpz⟩ h _
        (mem_faceNeighbours_x r k py pz ⟨hk, hpy, hpz⟩).1
    · intro k hk h
      exact hclosed ⟨k + 1, py, pz⟩ ⟨hk, hpy, hpz⟩ h _
        (mem_faceNeighbours_x r k py pz ⟨hk, hpy, hpz⟩).2
  have h2 : S ⟨ix, iy, pz⟩ := by
    refine line_connected (fun y => S ⟨ix, y, pz⟩) r.sy py iy hpy hiy h1 ?_ ?_
    · intro k hk h
      exact hclosed ⟨ix, k, pz⟩ ⟨hix, Nat.lt_of_succ_lt hk, hpz⟩ h _
        (mem_faceNeighbours_y r ix k pz ⟨hix, hk, hpz⟩).1
    · intro k hk h
      exact hclosed ⟨ix, k + 1, pz⟩ ⟨hix, hk, hpz⟩ h _
        (mem_faceNeighbours_y r ix k pz ⟨hix, hk, hpz⟩).2
  refine line_connected (fun z => S ⟨ix, iy, z⟩) r.sz pz iz hpz hiz h2 ?_ ?_
  · intro k hk h
    exact hclosed ⟨ix, iy, k⟩ ⟨hix, hiy, Nat.lt_of_succ_lt hk⟩ h _
      (mem_faceNeighbours_z r ix iy k ⟨hix, hiy, hk⟩).1
  · intro k hk h
    exact hclosed ⟨ix, iy, k + 1⟩ ⟨hix, hiy, hk⟩ h _
      (mem_faceNeighbours_z r ix iy k ⟨hix, hiy, hk⟩).2

/-- Every offset below the number of voxels is the offset of a voxel of the
grid. -/
theorem Region.computeOffset_surj (r : Region) (k : Nat) (hk : k < r.numberOfPixels) :
    ∃ i, r.isInside i ∧ r.computeOffset i = k := by
  unfold Region.numberOfPixels at hk
  have hsx : 0 < r.sx := by
    rcases Nat.eq_zero_or_pos r.sx with h | h
    · rw [h] at hk
      simp at hk
    · exact h
  have hsy : 0 < r.sy := by
    rcases Nat.eq_zero_or_pos r.sy with h | h
    · rw [h] at hk
      simp at hk
    · exact h
  refine ⟨⟨k % r.sx, (k / r.sx) % r.sy, k / r.sx / r.sy⟩, ⟨Nat.mod_lt _ hsx, Nat.mod_lt _ hsy, ?_⟩, ?_⟩
  · show k / r.sx / r.sy < r.sz
    apply Nat.div_lt_of_lt_mul
    apply Nat.div_lt_of_lt_mul
    rw [← Nat.mul_assoc]
    exact hk
  · unfold Region.computeOffset
    show k % r.sx + r.sx * (k / r.sx % r.sy + r.sy * (k / r.sx / r.sy)) = k
    rw [Nat.mod_add_div (k / r.sx) r.sy, Nat.mod_add_div k r.sx]

theorem getPixel_setPixel_same {α : Type} (img : Image α) (i : Index3) (v : α)
    (hlen : img.buffer.length = img.region.numberOfPixels) (hi : img.region.isInside i) :
    (img.setPixel i v).getPixel i = some v := by
  unfold Image.setPixel Image.getPixel
  simp only
  rw [List.getElem?_set_self]
  rw [hlen]
  exact Region.computeOffset_lt _ _ hi

theorem getPixel_setPixel_other {α : Type} (img : Image α) (i j : Index3) (v : α)
    (hi : img.region.isInside i) (hj : img.region.isInside j) (hne : j ≠ i) :
    (img.setPixel i v).getPixel j = img.getPixel j := by
  unfold Image.setPixel Image.getPixel
  simp only
  rw [List.getElem?_set_ne]
  intro h
  exact hne (Region.computeOffset_inj _ _ _ hj hi h.symm)

theorem getPixel_isSome {α : Type} (img : Image α) (i : Index3)
    (hlen : img.buffer.length = img.region.numberOfPixels) (hi : img.region.isInside i) :
    ∃ v, img.getPixel i = some v := by
  unfold Image.getPixel
  have h : img.region.computeOffset i < img.buffer.length := by
    rw [hlen]
    exact Region.computeOffset_lt _ _ hi
  exact ⟨img.buffer[img.region.computeOffset i], List.getElem?_eq_getElem h⟩

theorem count_zero_set (l : List Nat) (k v : Nat) (hk : l[k]? = some 0) (hv : v ≠ 0) :
    (l.set k v).count 0 + 1 = l.count 0 := by
  induction l generalizing k with
  | nil => simp at hk
  | cons a as ih =>
    cases k with
    | zero =>
      simp only [List.getElem?_cons_zero, Option.some.injEq] at hk
      subst hk
      simp [List.count_cons, hv]
    | succ k =>
      simp only [List.getElem?_cons_succ] at hk
      simp only [List.set_cons_succ, List.count_cons]
      have := ih k hk
      omega

/-! ## Lemmas on the queue of the flood -/

variable {E : Type}

theorem minEntry_mem [LinearOrder E] (m : QueueEntry E) (es : List (QueueEntry E)) :
    minEntry m es ∈ m :: es := by
  induction es generalizing m with
  | nil => simp [minEntry]
  | cons e es ih =>
    unfold minEntry
    split
    · exact List.mem_cons_of_mem _ (ih e)
    · rcases List.mem_cons.mp (ih m) with h | h
      · rw [h]
        exact List.mem_cons_self _ _
      · exact List.mem_cons_of_mem _ (List.mem_cons_of_mem _ h)

theorem popMin_eq_none [LinearOrder E] (q : List (QueueEntry E)) (h : popMin q = none) :
    q = [] := by
  cases q with
  | nil => rfl
  | cons e es => simp [popMin] at h

theorem popMin_eq_some [LinearOrder E] (q rest : List (QueueEntry E)) (m : QueueEntry E)
    (h : popMin q = some (m, rest)) :
    m ∈ q ∧ rest.length + 1 = q.length ∧ (∀ x ∈ rest, x ∈ q) ∧
      (∀ x ∈ q, x = m ∨ x ∈ rest) := by
  cases q with
  | nil => simp [popMin] at h
  | cons e es =>
    simp only [popMin, Option.some.injEq, Prod.mk.injEq] at h
    obtain ⟨hm, hrest⟩ := h
    have hmem : m ∈ e :: es := hm ▸ minEntry_mem e es
    rw [hm] at hrest
    subst hrest
    refine ⟨hmem, ?_, ?_, ?_⟩
    · rw [List.length_erase_of_mem hmem]
      simp
    · intro x hx
      exact List.mem_of_mem_erase hx
    · intro x hx
      by_cases hxm : x = m
      · exact Or.inl hxm
      · exact Or.inr ((List.mem_erase_of_ne hxm).mpr hx)

theorem pushAll_spec (elevation : Image E) (l : Nat) (js : List Index3)
    (q : List (QueueEntry E)) (n : Nat) :
    (pushAll elevation l js q n).1.length ≤ q.length + js.length ∧
    (∀ x ∈ (pushAll elevation l js q n).1, x ∈ q ∨ (x.label = l ∧ x.voxel ∈ js)) ∧
    (∀ x ∈ q, x ∈ (pushAll elevation l js q n).1) ∧
    (∀ j ∈ js, (∃ e, elevation.getPixel j = some e) →
      ∃ x ∈ (pushAll elevation l js q n).1, x.voxel = j) := by
  induction js generalizing q n with
  | nil => simp [pushAll]
  | cons j js ih =>
    unfold pushAll
    rcases Option.eq_none_or_eq_some (elevation.getPixel j) with hj | ⟨e, hj⟩
    · simp only [hj]
      obtain ⟨h1, h2, h3, h4⟩ := ih q n
      refine ⟨?_, ?_, h3, ?_⟩
      · simp only [List.length_cons]
        omega
      · intro x hx
        rcases h2 x hx with h | ⟨ha, hb⟩
        · exact Or.inl h
        · exact Or.inr ⟨ha, List.mem_cons_of_mem _ hb⟩
      · intro k hk hsome
        rcases List.mem_cons.mp hk with h | h
        · subst h
          obtain ⟨e, he⟩ := hsome
          rw [hj] at he
          cases he
        · exact h4 k h hsome
    · simp only [hj]
      obtain ⟨h1, h2, h3, h4⟩ := ih (q ++ [⟨e, n, j, l⟩]) (n + 1)
      refine ⟨?_, ?_, ?_, ?_⟩
      · simp only [List.length_append, List.length_cons, List.length_nil] at h1 ⊢
        omega
      · intro x hx
        rcases h2 x hx with h | ⟨ha, hb⟩
        · rcases List.mem_append.mp h with h | h
          · exact Or.inl h
          · simp only [List.mem_singleton] at h
            subst h
            exact Or.inr ⟨rfl, List.mem_cons_self _ _⟩
        · exact Or.inr ⟨ha, List.mem_cons_of_mem _ hb⟩
      · intro x hx
        exact h3 x (List.mem_append_left _ hx)
      · intro k hk hsome
        rcases List.mem_cons.mp hk with h | h
        · subst h
          exact ⟨⟨e, n, k, l⟩, h3 _ (List.mem_append_right _ (List.mem_singleton.mpr rfl)), rfl⟩
        · exact h4 k h hsome

theorem seedQueue_spec (elevation : Image E) (markers : Image Nat) (is : List Index3) (n : Nat) :
    (∀ x ∈ seedQueue elevation markers is n,
      x.voxel ∈ is ∧ x.label ≠ 0 ∧ markers.getPixel x.voxel = some x.label) ∧
    (∀ i ∈ is, ∀ l e, markers.getPixel i = some l → l ≠ 0 → elevation.getPixel i = some e →
      ∃ x ∈ seedQueue elevation markers is n, x.voxel = i) := by
  induction is generalizing n with
  | nil => simp [seedQueue]
  | cons i is ih =>
    unfold seedQueue
    rcases Option.eq_none_or_eq_some (markers.getPixel i) with hm | ⟨l, hm⟩
    · simp only [hm]
      obtain ⟨h1, h2⟩ := ih n
      refine ⟨fun x hx => ⟨List.mem_cons_of_mem _ (h1 x hx).1, (h1 x hx).2⟩, ?_⟩
      intro k hk l e hl hl0 he
      rcases List.mem_cons.mp hk with h | h
      · subst h
        rw [hm] at hl
        cases hl
      · exact h2 k h l e hl hl0 he
    · rcases Option.eq_none_or_eq_some (elevation.getPixel i) with hel | ⟨e, hel⟩
      · simp only [hm, hel]
        obtain ⟨h1, h2⟩ := ih n
        refine ⟨fun x hx => ⟨List.mem_cons_of_mem _ (h1 x hx).1, (h1 x hx).2⟩, ?_⟩
        intro k hk l2 e2 hl hl0 he
        rcases List.mem_cons.mp hk with h | h
        · subst h
          rw [hel] at he
          cases he
        · exact h2 k h l2 e2 hl hl0 he
      · simp only [hm, hel]
        by_cases hl0 : l = 0
        · simp only [hl0, if_true]
          obtain ⟨h1, h2⟩ := ih n
          refine ⟨fun x hx => ⟨List.mem_cons_of_mem _ (h1 x hx).1, (h1 x hx).2⟩, ?_⟩
          intro k hk l2 e2 hl hl20 he
          rcases List.mem_cons.mp hk with h | h
          · subst h
            rw [hm] at hl
            cases hl
            exact absurd hl0 hl20
          · exact h2 k h l2 e2 hl hl20 he
        · simp only [hl0, if_false]
          obtain ⟨h1, h2⟩ := ih (n + 1)
          constructor
          · intro x hx
            rcases List.mem_cons.mp hx with h | h
            · subst h
              exact ⟨List.mem_cons_self _ _, hl0, hm⟩
            · exact ⟨List.mem_cons_of_mem _ (h1 x h).1, (h1 x h).2⟩
          · intro k hk l2 e2 hl hl20 he
            rcases List.mem_cons.mp hk with h | h
            · subst h
              exact ⟨_, List.mem_cons_self _ _, rfl⟩
            · obtain ⟨x, hx, hxv⟩ := h2 k h l2 e2 hl hl20 he
              exact ⟨x, List.mem_cons_of_mem _ hx, hxv⟩

/-! ## The flood from a single marker -/

theorem floodStep_of_unlabeled [LinearOrder E] (elevation : Image E) (s : FloodState E)
    (m : QueueEntry E) (rest : List (QueueEntry E)) (hpop : popMin s.queue = some (m, rest))
    (h0 : s.labels.getPixel m.voxel = some 0) :
    floodStep elevation s =
      { labels := s.labels.setPixel m.voxel m.label
        queue := (pushAll elevation m.label
          ((faceNeighbours s.labels.region m.voxel).filter
            (fun j => (s.labels.setPixel m.voxel m.label).getPixel j = some 0)) rest s.next).1
        next := (pushAll elevation m.label
          ((faceNeighbours s.labels.region m.voxel).filter
            (fun j => (s.labels.setPixel m.voxel m.label).getPixel j = some 0)) rest s.next).2 } := by
  unfold floodStep
  rw [hpop]
  simp only [h0, if_true]
  rfl

theorem floodStep_of_labeled [LinearOrder E] (elevation : Image E) (s : FloodState E)
    (m : QueueEntry E) (rest : List (QueueEntry E)) (hpop : popMin s.queue = some (m, rest))
    (h0 : s.labels.getPixel m.voxel ≠ some 0) :
    floodStep elevation s = { s with queue := rest } := by
  unfold floodStep
  rw [hpop]
  simp only [h0, if_false]

theorem floodStep_inv [LinearOrder E] (elevation : Image E) (r : Region) (l : Nat)
    (p : Index3) (s : FloodState E)
    (hregion : elevation.region = r) (helev : elevation.buffer.length = r.numberOfPixels)
    (hl : l ≠ 0) (inv : FloodInv r l p s) :
    FloodInv r l p (floodStep elevation s) := by
  rcases Option.eq_none_or_eq_some (popMin s.queue) with hpop | ⟨⟨m, rest⟩, hpop⟩
  · have : floodStep elevation s = s := by
      unfold floodStep
      rw [hpop]
    rw [this]
    exact inv
  obtain ⟨hm, _, hrest, hsplit⟩ := popMin_eq_some s.queue rest m hpop
  obtain ⟨hml, hmin⟩ := inv.queue m hm
  have hmin2 : s.labels.region.isInside m.voxel := by
    rw [inv.region]
    exact hmin
  have hlen2 : s.labels.buffer.length = s.labels.region.numberOfPixels := by
    rw [inv.region]
    exact inv.length
  by_cases h0 : s.labels.getPixel m.voxel = some 0
  · rw [floodStep_of_unlabeled elevation s m rest hpop h0]
    obtain ⟨_, hq2, hq3, hq4⟩ := pushAll_spec elevation m.label
      ((faceNeighbours s.labels.region m.voxel).filter
        (fun j => (s.labels.setPixel m.voxel m.label).getPixel j = some 0)) rest s.next
    have hsame : (s.labels.setPixel m.voxel m.label).getPixel m.voxel = some l := by
      rw [getPixel_setPixel_same s.labels m.voxel m.label hlen2 hmin2, hml]
    have hother : ∀ j, r.isInside j → j ≠ m.voxel →
        (s.labels.setPixel m.voxel m.label).getPixel j = s.labels.getPixel j := by
      intro j hj hne
      exact getPixel_setPixel_other s.labels m.voxel j m.label hmin2 (inv.region ▸ hj) hne
    have hkeep : ∀ j, r.isInside j → s.labels.getPixel j = some l →
        (s.labels.setPixel m.voxel m.label).getPixel j = some l := by
      intro j hj hjl
      by_cases hne : j = m.voxel
      · rw [hne]
        exact hsame
      · rw [hother j hj hne]
        exact hjl
    have hlabels : ∀ i, r.isInside i →
        (s.labels.setPixel m.voxel m.label).getPixel i = some 0 ∨
        (s.labels.setPixel m.voxel m.label).getPixel i = some l := by
      intro i hi
      by_cases hne : i = m.voxel
      · rw [hne]
        exact Or.inr hsame
      · rw [hother i hi hne]
        exact inv.labels i hi
    refine ⟨inv.region, ?_, hlabels, ?_, ?_, ?_⟩
    · show (s.labels.buffer.set _ _).length = _
      rw [List.length_set]
      exact inv.length
    · intro e he
      rcases hq2 e he with h | ⟨ha, hb⟩
      · exact inv.queue e (hrest e h)
      · refine ⟨ha.trans hml, ?_⟩
        have := isInside_of_mem_faceNeighbours _ _ _ (List.mem_filter.mp hb).1
        rw [inv.region] at this
        exact this
    · rcases inv.marker with h | ⟨e, he, hev⟩
      · by_cases hp : r.isInside p
        · exact Or.inl (hkeep p hp h)
        · -- the marker voxel is labeled, so it lies in the grid
          by_cases hne : p = m.voxel
          · exact absurd (hne ▸ hmin) hp
          · left
            unfold Image.setPixel Image.getPixel at *
            simp only at *
            by_cases hoff : s.labels.region.computeOffset m.voxel = s.labels.region.computeOffset p
            · rw [← hoff, h0] at h
              exact absurd (Option.some.inj h).symm hl
            · rw [List.getElem?_set_ne hoff]
              exact h
      · rcases hsplit e he with h | h
        · left
          rw [← hev, h]
          exact hsame
        · exact Or.inr ⟨e, hq3 e h, hev⟩
    · intro i hi hil j hj
      have hjin : r.isInside j := isInside_of_mem_faceNeighbours _ _ _ hj
      rcases hlabels j hjin with hj0 | hjl
      · right
        have hjsome : ∃ e, elevation.getPixel j = some e :=
          getPixel_isSome elevation j (hregion ▸ helev) (hregion ▸ hjin)
        by_cases hne : i = m.voxel
        · refine hq4 j (List.mem_filter.mpr ⟨?_, by simpa using hj0⟩) hjsome
          rw [inv.region, ← hne]
          exact hj
        · have hil2 : s.labels.getPixel i = some l := by
            rw [← hother i hi hne]
            exact hil
          rcases inv.closed i hi hil2 j hj with h | ⟨e, he, hev⟩
          · rw [hkeep j hjin h] at hj0
            exact absurd (Option.some.inj hj0) hl
          · rcases hsplit e he with h | h
            · rw [← hev, h, hsame] at hj0
              exact absurd (Option.some.inj hj0) hl
            · exact ⟨e, hq3 e h, hev⟩
      · exact Or.inl hjl
  · rw [floodStep_of_labeled elevation s m rest hpop h0]
    have hmlab : s.labels.getPixel m.voxel = some l := by
      rcases inv.labels m.voxel hmin with h | h
      · exact absurd h h0
      · exact h
    refine ⟨inv.region, inv.length, inv.labels, ?_, ?_, ?_⟩
    · intro e he
      exact inv.queue e (hrest e he)
    · rcases inv.marker with h | ⟨e, he, hev⟩
      · exact Or.inl h
      · rcases hsplit e he with h | h
        · left
          rw [← hev, h]
          exact hmlab
        · exact Or.inr ⟨e, h, hev⟩
    · intro i hi hil j hj
      rcases inv.closed i hi hil j hj with h | ⟨e, he, hev⟩
      · exact Or.inl h
      · rcases hsplit e he with h | h
        · left
          rw [← hev, h]
          exact hmlab
        · exact Or.inr ⟨e, h, hev⟩

theorem floodStep_rounds [LinearOrder E] (elevation : Image E) (r : Region) (l : Nat)
    (p : Index3) (s : FloodState E) (hl : l ≠ 0) (inv : FloodInv r l p s)
    (hq : s.queue ≠ []) :
    (floodStep elevation s).rounds + 1 ≤ s.rounds := by
  rcases Option.eq_none_or_eq_some (popMin s.queue) with hpop | ⟨⟨m, rest⟩, hpop⟩
  · exact absurd (popMin_eq_none s.queue hpop) hq
  obtain ⟨hm, hlen, _, _⟩ := popMin_eq_some s.queue rest m hpop
  obtain ⟨hml, _⟩ := inv.queue m hm
  by_cases h0 : s.labels.getPixel m.voxel = some 0
  · rw [floodStep_of_unlabeled elevation s m rest hpop h0]
    obtain ⟨hq1, _, _, _⟩ := pushAll_spec elevation m.label
      ((faceNeighbours s.labels.region m.voxel).filter
        (fun j => (s.labels.setPixel m.voxel m.label).getPixel j = some 0)) rest s.next
    have hf : ((faceNeighbours s.labels.region m.voxel).filter
        (fun j => (s.labels.setPixel m.voxel m.label).getPixel j = some 0)).length ≤ 6 :=
      Nat.le_trans (List.length_filter_le _ _) (faceNeighbours_length_le _ _)
    have hc : (s.labels.setPixel m.voxel m.label).buffer.count 0 + 1 = s.labels.buffer.count 0 :=
      count_zero_set s.labels.buffer (s.labels.region.computeOffset m.voxel) m.label
        h0 (hml ▸ hl)
    unfold FloodState.rounds
    dsimp only
    omega
  · rw [floodStep_of_labeled elevation s m rest hpop h0]
    unfold FloodState.rounds
    dsimp only
    omega

theorem floodLoop_inv [LinearOrder E] (elevation : Image E) (r : Region) (l : Nat)
    (p : Index3) (hregion : elevation.region = r)
    (helev : elevation.buffer.length = r.numberOfPixels) (hl : l ≠ 0)
    (fuel : Nat) (s : FloodState E) (inv : FloodInv r l p s) (hfuel : s.rounds ≤ fuel) :
    FloodInv r l p (floodLoop elevation fuel s) ∧ (floodLoop elevation fuel s).queue = [] := by
  induction fuel generalizing s with
  | zero =>
    unfold floodLoop
    refine ⟨inv, ?_⟩
    unfold FloodState.rounds at hfuel
    exact List.length_eq_zero.mp (by omega)
  | succ fuel ih =>
    unfold floodLoop
    rcases hq : s.queue with _ | ⟨e, es⟩
    · exact ⟨inv, hq⟩
    · simp only
      have hne : s.queue ≠ [] := by
        rw [hq]
        exact List.cons_ne_nil _ _
      have := floodStep_rounds elevation r l p s hl inv hne
      exact ih (floodStep elevation s) (floodStep_inv elevation r l p s hregion helev hl inv)
        (by omega)

theorem floodStart_inv (elevation : Image E) (markers : Image Nat) (p : Index3) (l : Nat)
    (hregion : elevation.region = markers.region)
    (helev : elevation.buffer.length = markers.region.numberOfPixels)
    (hp : markers.region.isInside p) (hl : l ≠ 0) (hpl : markers.getPixel p = some l)
    (hother : ∀ q, markers.region.isInside q → q ≠ p → markers.getPixel q = some 0) :
    FloodInv markers.region l p (floodStart elevation markers) ∧
    (floodStart elevation markers).rounds =
      (floodStart elevation markers).queue.length + 6 * markers.region.numberOfPixels := by
  obtain ⟨hs1, hs2⟩ := seedQueue_spec elevation markers markers.region.indices 0
  have hzero : ∀ i, markers.region.isInside i →
      (Image.fillBuffer markers.region (0 : Nat)).getPixel i = some 0 := by
    intro i hi
    unfold Image.fillBuffer Image.getPixel
    simp only
    rw [List.getElem?_replicate]
    simp [Region.computeOffset_lt _ _ hi]
  constructor
  · refine ⟨rfl, ?_, ?_, ?_, ?_, ?_⟩
    · simp [floodStart, Image.fillBuffer]
    · intro i hi
      exact Or.inl (hzero i hi)
    · intro e he
      obtain ⟨hv, hne, hlab⟩ := hs1 e he
      have hin : markers.region.isInside e.voxel := (mem_indices _ _).mp hv
      refine ⟨?_, hin⟩
      by_cases hep : e.voxel = p
      · rw [hep, hpl] at hlab
        exact (Option.some.inj hlab).symm
      · rw [hother e.voxel hin hep] at hlab
        exact absurd (Option.some.inj hlab).symm hne
    · right
      obtain ⟨e, he⟩ := getPixel_isSome elevation p (hregion ▸ helev) (hregion ▸ hp)
      exact hs2 p ((mem_indices _ _).mpr hp) l e hpl hl he
    · intro i hi hil
      have h := hzero i hi
      have h2 : (floodStart elevation markers).labels.getPixel i = some 0 := h
      rw [h2] at hil
      exact absurd (Option.some.inj hil).symm hl
  · unfold FloodState.rounds floodStart Image.fillBuffer
    simp

/-! ## Claim C17: the watershed from a single marker -/

/-- C17: for every elevation field on a grid and every marker field on the same
grid whose only non-zero marker is the label `l` at the voxel `p`, the
marker-controlled watershed without watershed line (the priority flood of
section 4.4 of the specification) ends with an empty queue and returns the
label field that is `l` at every voxel. -/
theorem markerWatershed_single_marker {E : Type} [LinearOrder E] (elevation : Image E)
    (markers : Image Nat) (p : Index3) (l : Nat)
    (hregion : elevation.region = markers.region)
    (helev : elevation.buffer.length = markers.region.numberOfPixels)
    (hp : markers.region.isInside p) (hl : l ≠ 0) (hpl : markers.getPixel p = some l)
    (hother : ∀ q ∈ markers.region.indices, q ≠ p → markers.getPixel q = some 0) :
    (flood elevation markers).queue = [] ∧
    markerWatershed elevation markers = Image.fillBuffer markers.region l := by
  obtain ⟨inv0, hrounds⟩ := floodStart_inv elevation markers p l hregion helev hp hl hpl
    (fun q hq hne => hother q ((mem_indices _ _).mpr hq) hne)
  obtain ⟨inv, hqueue⟩ := floodLoop_inv elevation markers.region l p hregion helev hl
    ((floodStart elevation markers).queue.length + 6 * markers.region.numberOfPixels)
    (floodStart elevation markers) inv0 (Nat.le_of_eq hrounds)
  have hqueue2 : (flood elevation markers).queue = [] := hqueue
  have inv2 : FloodInv markers.region l p (flood elevation markers) := inv
  refine ⟨hqueue2, ?_⟩
  have hall : ∀ i, markers.region.isInside i →
      (flood elevation markers).labels.getPixel i = some l := by
    intro i hi
    refine grid_connected markers.region
      (fun j => (flood elevation markers).labels.getPixel j = some l) p hp ?_ ?_ i hi
    · rcases inv2.marker with h | ⟨e, he, _⟩
      · exact h
      · rw [hqueue2] at he
        cases he
    · intro a ha hal b hb
      rcases inv2.closed a ha hal b hb with h | ⟨e, he, _⟩
      · exact h
      · rw [hqueue2] at he
        cases he
  unfold markerWatershed
  have hbuf : (flood elevation markers).labels.buffer =
      List.replicate markers.region.numberOfPixels l := by
    apply List.ext_getElem?
    intro k
    by_cases hk : k < markers.region.numberOfPixels
    · obtain ⟨i, hi, hoff⟩ := Region.computeOffset_surj markers.region k hk
      have h := hall i hi
      unfold Image.getPixel at h
      rw [inv2.region, hoff] at h
      rw [h, List.getElem?_replicate]
      simp [hk]
    · rw [List.getElem?_eq_none (by rw [inv2.length]; omega),
        List.getElem?_eq_none (by rw [List.length_replicate]; omega)]
  have hreg := inv2.region
  cases hlab : (flood elevation markers).labels with
  | mk region buffer =>
    rw [hlab] at hbuf hreg
    simp only at hbuf hreg
    unfold Image.fillBuffer
    rw [hbuf, hreg]

theorem markerWatershed_single_marker_witness :
    markerWatershed (⟨⟨3, 2, 1⟩, [5, 1, 3, 2, 0, 4]⟩ : Image Int)
      ⟨⟨3, 2, 1⟩, [0, 0, 0, 0, 7, 0]⟩ = ⟨⟨3, 2, 1⟩, [7, 7, 7, 7, 7, 7]⟩ :=
  (markerWatershed_single_marker (⟨⟨3, 2, 1⟩, [5, 1, 3, 2, 0, 4]⟩ : Image Int)
    ⟨⟨3, 2, 1⟩, [0, 0, 0, 0, 7, 0]⟩ ⟨1, 1, 0⟩ 7 rfl rfl (by decide) (by decide) rfl
    (by decide)).2

/-! ## Stores that stay consistent -/

theorem mem_modifyFirst {α : Type} (p : α → Bool) (f : α → α) (l : List α) (x : α)
    (h : x ∈ modifyFirst p f l) : x ∈ l ∨ ∃ y, l.find? p = some y ∧ x = f y := by
  induction l with
  | nil => simp [modifyFirst] at h
  | cons a as ih =>
    unfold modifyFirst at h
    by_cases hp : p a = true
    · rw [if_pos hp] at h
      rcases List.mem_cons.mp h with h | h
      · exact Or.inr ⟨a, by simp [List.find?, hp], h⟩
      · exact Or.inl (List.mem_cons_of_mem _ h)
    · rw [if_neg hp] at h
      rcases List.mem_cons.mp h with h | h
      · exact Or.inl (h ▸ List.mem_cons_self _ _)
      · rcases ih h with h | ⟨y, hy, hxy⟩
        · exact Or.inl (List.mem_cons_of_mem _ h)
        · exact Or.inr ⟨y, by simp [List.find?, hp, hy], hxy⟩

/-- Rewriting an attribute matrix keeps the store consistent when the rewritten
attribute matrix is consistent. -/
theorem tuplesConsistent_modifyAttributeMatrix (dca : DataContainerArray)
    (dcName amName : String) (g : AttributeMatrix → AttributeMatrix)
    (hcons : TuplesConsistent dca)
    (hg : ∀ dc am, getDataContainer dca dcName = some dc →
      dc.getAttributeMatrix amName = some am →
      ∀ a ∈ (g am).arrays, a.2.getNumberOfTuples = (g am).numTuples) :
    TuplesConsistent (modifyAttributeMatrix dca dcName amName g) := by
  intro dc hdc am ham a ha
  unfold modifyAttributeMatrix at hdc
  rcases mem_modifyFirst _ _ _ _ hdc with h | ⟨dc0, hdc0, rfl⟩
  · exact hcons dc h am ham a ha
  · simp only at ham
    rcases mem_modifyFirst _ _ _ _ ham with h | ⟨am0, ham0, rfl⟩
    · exact hcons dc0 (List.mem_of_find?_eq_some hdc0) am h a ha
    · exact hg dc0 am0 hdc0 ham0 a ha

/-! ## The result of `ManualThreshold` -/

namespace ManualThreshold

/-- The array found under `resultPath` after a run whose `dataCheck` passed, on a
consistent store: the binary threshold of the input, sample by sample; the
store stays consistent. -/
theorem threshold_result (codes : SimplCodes) (f : ManualThreshold)
    (dca : DataContainerArray) (a : DataArray)
    (hpass : ¬ (f.dataCheck codes dca).errorCondition < 0)
    (hcons : TuplesConsistent dca)
    (hin : getArrayFromPath dca f.selectedCellArrayPath = some a) :
    (f.execute codes dca).errorCondition = 0 ∧
    getArrayFromPath (f.execute codes dca).store f.resultPath =
      some (uint8Array [1]
        (a.values.map (binaryThreshold (wrapUnsigned 8 f.manualParameter) 255 255 0))) ∧
    TuplesConsistent (f.execute codes dca).store := by
  obtain ⟨dc, am, a2, hdc, ham, harr, _, hnew, herr, hstore⟩ :=
    threshold_of_passed codes f dca hpass
  have ha : a2 = a := by
    rw [getArrayFromPath_eq dca _ dc am hdc ham, harr] at hin
    exact Option.some.inj hin
  subst ha
  have hlen : a2.values.length = am.numTuples := by
    rw [DataArray.values_length]
    exact getNumberOfTuples_of_consistent dca hcons _ _ _ dc am _ hdc ham harr
  have hvals : importBuffer
      (a2.values.map (binaryThreshold (wrapUnsigned 8 f.manualParameter) 255 255 0))
      (List.replicate am.numTuples 0) =
      a2.values.map (binaryThreshold (wrapUnsigned 8 f.manualParameter) 255 255 0) :=
    importBuffer_of_length_eq _ _ (by simp [hlen])
  have hcount : (uint8Array [1]
      (a2.values.map (binaryThreshold (wrapUnsigned 8 f.manualParameter) 255 255 0))
      ).getNumberOfTuples = am.numTuples := by
    simp [uint8Array, DataArray.getNumberOfTuples, hlen]
  refine ⟨herr, ?_, ?_⟩
  · rw [hstore, hvals]
    unfold resultPath
    cases hs : f.saveAsNewArray
    · rw [hs] at hnew
      simp only [Bool.false_eq_true, if_false] at hnew ⊢
      rw [removeAndRename_created dca _ _ a2 _ dc am hdc ham harr hnew]
      exact getArrayFromPath_filter_append dca _ _ dc am hdc ham
    · rw [hs] at hnew
      simp only [if_true] at hnew ⊢
      have h := getArrayFromPath_modify dca
        ⟨f.selectedCellArrayPath.dataContainerName,
          f.selectedCellArrayPath.attributeMatrixName, f.newCellArrayName⟩
        (fun m => { m with arrays := m.arrays ++ [(f.newCellArrayName, uint8Array [1]
          (a2.values.map (binaryThreshold (wrapUnsigned 8 f.manualParameter) 255 255 0)))] })
        dc am hdc ham (fun _ => rfl)
      simp only at h
      rw [h]
      exact getAttributeArray_append_new am _ _ hnew
  · have hold : ∀ b ∈ am.arrays, b.2.getNumberOfTuples = am.numTuples :=
      fun b hb => hcons dc (List.mem_of_find?_eq_some hdc) am (List.mem_of_find?_eq_some ham) b hb
    rw [hstore, hvals]
    cases hs : f.saveAsNewArray
    · rw [hs] at hnew
      simp only [Bool.false_eq_true, if_false] at hnew ⊢
      rw [removeAndRename_created dca _ _ a2 _ dc am hdc ham harr hnew]
      apply tuplesConsistent_modifyAttributeMatrix dca _ _ _ hcons
      intro dc2 am2 hdc2 ham2 b hb
      rw [hdc] at hdc2
      cases hdc2
      rw [ham] at ham2
      cases ham2
      simp only at hb ⊢
      rcases List.mem_append.mp hb with h | h
      · exact hold b (List.mem_of_mem_filter h)
      · simp only [List.mem_singleton] at h
        rw [h]
        exact hcount
    · simp only [if_true]
      apply tuplesConsistent_modifyAttributeMatrix dca _ _ _ hcons
      intro dc2 am2 hdc2 ham2 b hb
      rw [hdc] at hdc2
      cases hdc2
      rw [ham] at ham2
      cases ham2
      simp only at hb ⊢
      rcases List.mem_append.mp hb with h | h
      · exact hold b h
      · simp only [List.mem_singleton] at h
        rw [h]
        exact hcount

end ManualThreshold

/-! ## Claims C26 and C27: parameters that do not reach the ITK filters -/

namespace ItkMeanKernel

/-- C26: two runs of `ItkMeanKernel::execute` on the same store whose filters agree on the
selected array, the new array name, `SaveAsNewArray` and `KernelSize` end in the
same state (conditions, messages and store), whatever the two values of
`Slice` are. -/
theorem execute_slice_irrelevant {F : Type} (env : MeanKernelStages F) (codes : SimplCodes)
    (f1 f2 : ItkMeanKernel) (dca : DataContainerArray)
    (hpath : f1.selectedCellArrayPath = f2.selectedCellArrayPath)
    (hname : f1.newCellArrayName = f2.newCellArrayName)
    (hsave : f1.saveAsNewArray = f2.saveAsNewArray)
    (hkernel : f1.kernelSize = f2.kernelSize) :
    f1.execute env codes dca = f2.execute env codes dca := by
  unfold execute dataCheck newCellArrayPath
  rw [hpath, hname, hsave, hkernel]

theorem execute_slice_irrelevant_witness :
    (⟨pixelPath, "Mean", true, false, (1, 1, 1)⟩ : ItkMeanKernel).slice ≠
      (⟨pixelPath, "Mean", true, true, (1, 1, 1)⟩ : ItkMeanKernel).slice ∧
    execute demoMeanStages demoCodes ⟨pixelPath, "Mean", true, false, (1, 1, 1)⟩
        (pixelStore (uint8Array [1] [0, 127, 128, 255])) =
      execute demoMeanStages demoCodes ⟨pixelPath, "Mean", true, true, (1, 1, 1)⟩
        (pixelStore (uint8Array [1] [0, 127, 128, 255])) ∧
    getArrayFromPath (execute demoMeanStages demoCodes ⟨pixelPath, "Mean", true, true, (1, 1, 1)⟩
        (pixelStore (uint8Array [1] [0, 127, 128, 255]))).store
        ⟨"DataContainer", "CellData", "Mean"⟩ = some (uint8Array [1] [0, 127, 128, 255]) :=
  ⟨by decide,
    execute_slice_irrelevant demoMeanStages demoCodes ⟨pixelPath, "Mean", true, false, (1, 1, 1)⟩
      ⟨pixelPath, "Mean", true, true, (1, 1, 1)⟩ (pixelStore (uint8Array [1] [0, 127, 128, 255]))
      rfl rfl rfl rfl,
    by decide⟩

end ItkMeanKernel

namespace ImageMath

variable {V : Type}

/-- The run of `ImageMath::execute` with an operator outside `0..11`, after a passed
`dataCheck`: no operation is applied and the created array stays as it
was created. -/
theorem imageMath_of_unknown_operator (operation : Nat → V → Image Int → UpdateResult Int)
    (codes : SimplCodes) (f : ImageMath V) (dca : DataContainerArray)
    (hop : f.operator < 0 ∨ 11 < f.operator)
    (h : ¬ (f.dataCheck codes dca).errorCondition < 0) :
    ∃ dc am a,
      getDataContainer dca f.selectedCellArrayPath.dataContainerName = some dc ∧
      dc.getAttributeMatrix f.selectedCellArrayPath.attributeMatrixName = some am ∧
      am.getAttributeArray f.selectedCellArrayPath.dataArrayName = some a ∧
      am.getAttributeArray (if f.saveAsNewArray then f.newCellArrayName else "thisIsATempName") =
        none ∧
      f.execute operation codes dca = .ok
        { errorCondition := 0
          warningCondition := 0
          store :=
            if f.saveAsNewArray then
              modifyAttributeMatrix dca f.selectedCellArrayPath.dataContainerName
                f.selectedCellArrayPath.attributeMatrixName
                (fun m => { m with arrays := m.arrays ++ [(f.newCellArrayName,
                  uint8Array [1] (List.replicate am.numTuples 0))] })
            else
              modifyAttributeMatrix dca f.selectedCellArrayPath.dataContainerName
                f.selectedCellArrayPath.attributeMatrixName
                (fun m => { m with
                  arrays := m.arrays.filter
                      (fun x => !(x.1 == f.selectedCellArrayPath.dataArrayName)) ++
                    [(f.selectedCellArrayPath.dataArrayName,
                      uint8Array [1] (List.replicate am.numTuples 0))] })
          errorMessages := []
          statusMessages := ["Complete"]
          trace := [] } := by
  rcases dataCheckDefaultPixel_cases codes f.selectedCellArrayPath f.saveAsNewArray
    f.newCellArrayName dca with ⟨hneg, _⟩ | ⟨dc, am, a, dims, hdc, ham, harr, ht, hgeom, hnew, heq⟩
  · exact absurd hneg h
  · refine ⟨dc, am, a, hdc, ham, harr, hnew, ?_⟩
    have hop2 : ¬ (0 ≤ f.operator ∧ f.operator ≤ 11) := by omega
    have e : storeWithCreatedArray dca f.selectedCellArrayPath
        (if f.saveAsNewArray then f.newCellArrayName else "thisIsATempName")
        (fun n => uint8Array [1] (List.replicate n 0)) =
        modifyAttributeMatrix dca f.selectedCellArrayPath.dataContainerName
          f.selectedCellArrayPath.attributeMatrixName
          (fun m => { m with arrays := m.arrays ++
            [(if f.saveAsNewArray then f.newCellArrayName else "thisIsATempName",
              uint8Array [1] (List.replicate am.numTuples 0))] }) := by
      unfold storeWithCreatedArray
      apply modifyAttributeMatrix_congr _ _ _ _ _ dc am hdc ham
      rfl
    unfold execute dataCheck
    rw [heq]
    simp only [inputImage_of_passed dca _ _ _ _ _ dc dims hdc hgeom, newCellArrayPath,
      lt_self_iff_false, if_false, hop2]
    simp only [e]
    cases hsv : f.saveAsNewArray
    · rw [hsv] at hnew
      simp only [Bool.false_eq_true, if_false] at hnew ⊢
      rw [removeAndRename_created dca _ _ a _ dc am hdc ham harr hnew]
    · simp only [if_true]

/-- C27: for every operator outside `0..11`, a run of `ImageMath::execute` whose `dataCheck`
passes returns without error and without a message, whatever the ITK
operations are (none of them is applied): the array found afterwards under
`NewCellArrayName`, or under the selected name when `SaveAsNewArray` is false, is a
`uint8_t` array that is 0 at every tuple, with the tuple count of the input. -/
theorem execute_operator_out_of_range
    (operation operation2 : Nat → V → Image Int → UpdateResult Int)
    (codes : SimplCodes) (f : ImageMath V) (dca : DataContainerArray) (a : DataArray)
    (hop : f.operator < 0 ∨ 11 < f.operator)
    (hpass : ¬ (f.dataCheck codes dca).errorCondition < 0)
    (hcons : TuplesConsistent dca)
    (hin : getArrayFromPath dca f.selectedCellArrayPath = some a) :
    ∃ s, f.execute operation codes dca = .ok s ∧ f.execute operation2 codes dca = .ok s ∧
      s.errorCondition = 0 ∧ s.errorMessages = [] ∧
      getArrayFromPath s.store
          (if f.saveAsNewArray then
            ⟨f.selectedCellArrayPath.dataContainerName,
              f.selectedCellArrayPath.attributeMatrixName, f.newCellArrayName⟩
          else f.selectedCellArrayPath) =
        some (uint8Array [1] (List.replicate a.getNumberOfTuples 0)) := by
  obtain ⟨dc, am, a1, hdc, ham, harr, hnew, h1⟩ :=
    imageMath_of_unknown_operator operation codes f dca hop hpass
  obtain ⟨dc2, am2, a2, hdc2, ham2, _, _, h2⟩ :=
    imageMath_of_unknown_operator operation2 codes f dca hop hpass
  rw [hdc] at hdc2
  cases hdc2
  rw [ham] at ham2
  cases ham2
  rw [getArrayFromPath_eq dca _ dc am hdc ham] at hin
  have hn : a.getNumberOfTuples = am.numTuples :=
    getNumberOfTuples_of_consistent dca hcons _ _ _ dc am _ hdc ham hin
  rw [hn]
  refine ⟨_, h1, h2, rfl, rfl, ?_⟩
  cases hsv : f.saveAsNewArray
  · simp only [Bool.false_eq_true, if_false]
    exact getArrayFromPath_filter_append dca _ _ dc am hdc ham
  · rw [hsv] at hnew
    simp only [if_true] at hnew ⊢
    have h := getArrayFromPath_modify dca
      ⟨f.selectedCellArrayPath.dataContainerName,
        f.selectedCellArrayPath.attributeMatrixName, f.newCellArrayName⟩
      (fun m => { m with arrays := m.arrays ++ [(f.newCellArrayName,
        uint8Array [1] (List.replicate am.numTuples 0))] })
      dc am hdc ham (fun _ => rfl)
    simp only at h
    rw [h]
    exact getAttributeArray_append_new am _ _ hnew

theorem execute_operator_out_of_range_witness :
    ∃ s, execute demoOperation demoCodes
        (⟨pixelPath, "", false, 12, 1⟩ : ImageMath Int)
        (pixelStore (uint8Array [1] [0, 127, 128, 255])) = .ok s ∧
      execute (fun _ _ img => ⟨img, some "not reached"⟩) demoCodes
        (⟨pixelPath, "", false, 12, 1⟩ : ImageMath Int)
        (pixelStore (uint8Array [1] [0, 127, 128, 255])) = .ok s ∧
      s.errorCondition = 0 ∧ s.errorMessages = [] ∧
      getArrayFromPath s.store pixelPath = some (uint8Array [1] [0, 0, 0, 0]) :=
  execute_operator_out_of_range demoOperation (fun _ _ img => ⟨img, some "not reached"⟩)
    demoCodes ⟨pixelPath, "", false, 12, 1⟩ (pixelStore (uint8Array [1] [0, 127, 128, 255]))
    (uint8Array [1] [0, 127, 128, 255]) (by decide) (by decide) (by decide) rfl

end ImageMath

/-! ## Claims C24 and C25: the threshold of `ManualThreshold` -/

namespace ManualThreshold

/-- C24: manual thresholding of `uint8_t` images is idempotent.  When a run of
`ManualThreshold::execute` with the threshold `t` in `0..255` on a `uint8_t` input (samples in
`0..255`) is followed by a run with the same threshold on its result, both
passing `dataCheck`, the second result has the samples of the first, and
every sample of the result is 0 or 255.  `ManualThresholdTemplatePrivate<uint8_t>::Execute` sets
up the same filter. -/
theorem execute_idempotent (codes : SimplCodes) (f1 f2 : ManualThreshold)
    (dca : DataContainerArray) (a : DataArray)
    (hpass1 : ¬ (f1.dataCheck codes dca).errorCondition < 0)
    (hcons : TuplesConsistent dca)
    (hin : getArrayFromPath dca f1.selectedCellArrayPath = some a)
    (hrange : ∀ x ∈ a.values, 0 ≤ x ∧ x ≤ 255)
    (ht : 0 ≤ f1.manualParameter ∧ f1.manualParameter ≤ 255)
    (hsame : f2.manualParameter = f1.manualParameter)
    (hsel : f2.selectedCellArrayPath = f1.resultPath)
    (hpass2 : ¬ (f2.dataCheck codes (f1.execute codes dca).store).errorCondition < 0) :
    ∃ out,
      getArrayFromPath (f1.execute codes dca).store f1.resultPath = some (uint8Array [1] out) ∧
      getArrayFromPath (f2.execute codes (f1.execute codes dca).store).store f2.resultPath =
        some (uint8Array [1] out) ∧
      (∀ v ∈ out, v = 0 ∨ v = 255) ∧
      (∀ img, ItkManualThresholdTemplate.thresholdUpdate .uint8 f1.manualParameter img =
        binaryThresholdImageFilter (wrapUnsigned 8 f1.manualParameter) 255 255 0 img) := by
  obtain ⟨_, hres1, hcons1⟩ := threshold_result codes f1 dca a hpass1 hcons hin
  have hin2 : getArrayFromPath (f1.execute codes dca).store f2.selectedCellArrayPath =
      some (uint8Array [1]
        (a.values.map (binaryThreshold (wrapUnsigned 8 f1.manualParameter) 255 255 0))) := by
    rw [hsel]
    exact hres1
  obtain ⟨_, hres2, _⟩ := threshold_result codes f2 (f1.execute codes dca).store _ hpass2
    hcons1 hin2
  have hthr : ∀ x ∈ a.values,
      binaryThreshold (wrapUnsigned 8 f1.manualParameter) 255 255 0 x =
        if x ≥ f1.manualParameter then 255 else 0 :=
    fun x hx => binaryThreshold_uint8 _ _ ht (hrange x hx).2
  refine ⟨_, hres1, ?_, ?_, ?_⟩
  · rw [hres2, hsame]
    congr 2
    simp only [uint8Array, DataArray.values, List.map_map]
    apply List.map_congr_left
    intro x hx
    simp only [Function.comp]
    rw [hthr x hx]
    by_cases h : x ≥ f1.manualParameter
    · rw [if_pos h]
      exact (binaryThreshold_uint8 _ 255 ht (le_refl _)).trans (if_pos ht.2)
    · rw [if_neg h]
      have h0 : ¬ (0 : Int) ≥ f1.manualParameter := by
        have := (hrange x hx).1
        omega
      exact (binaryThreshold_uint8 _ 0 ht (by decide)).trans (if_neg h0)
  · intro v hv
    obtain ⟨x, hx, rfl⟩ := List.mem_map.mp hv
    rw [hthr x hx]
    by_cases h : x ≥ f1.manualParameter
    · exact Or.inr (if_pos h)
    · exact Or.inl (if_neg h)
  · intro img
    rfl

theorem execute_idempotent_witness :
    getArrayFromPath (execute demoCodes ⟨pixelPath, "", false, 128⟩
        (pixelStore (uint8Array [1] [0, 127, 128, 255]))).store pixelPath =
      some (uint8Array [1] [0, 0, 255, 255]) ∧
    ∃ out,
      getArrayFromPath (execute demoCodes ⟨pixelPath, "", false, 128⟩
        (pixelStore (uint8Array [1] [0, 127, 128, 255]))).store
          (resultPath ⟨pixelPath, "", false, 128⟩) = some (uint8Array [1] out) ∧
      getArrayFromPath (execute demoCodes ⟨pixelPath, "", false, 128⟩
        (execute demoCodes ⟨pixelPath, "", false, 128⟩
          (pixelStore (uint8Array [1] [0, 127, 128, 255]))).store).store
          (resultPath ⟨pixelPath, "", false, 128⟩) = some (uint8Array [1] out) ∧
      (∀ v ∈ out, v = 0 ∨ v = 255) ∧
      (∀ img, ItkManualThresholdTemplate.thresholdUpdate .uint8 128 img =
        binaryThresholdImageFilter (wrapUnsigned 8 128) 255 255 0 img) :=
  ⟨by decide,
    execute_idempotent demoCodes ⟨pixelPath, "", false, 128⟩ ⟨pixelPath, "", false, 128⟩
      (pixelStore (uint8Array [1] [0, 127, 128, 255])) (uint8Array [1] [0, 127, 128, 255])
      (by decide) (by decide) (by decide) (by decide) (by decide) rfl rfl (by decide)⟩

end ManualThreshold

/-! ## Claims C21 and C22: the values of `scaleArray2` -/

theorem minMaxLoop_spec (l : List Int) (a b : Int) :
    ((minMaxLoop l (a, b)).1 ≤ a ∧ (∀ v ∈ l, (minMaxLoop l (a, b)).1 ≤ v) ∧
      ((minMaxLoop l (a, b)).1 = a ∨ (minMaxLoop l (a, b)).1 ∈ l)) ∧
    (b ≤ (minMaxLoop l (a, b)).2 ∧ (∀ v ∈ l, v ≤ (minMaxLoop l (a, b)).2) ∧
      ((minMaxLoop l (a, b)).2 = b ∨ (minMaxLoop l (a, b)).2 ∈ l)) := by
  induction l generalizing a b with
  | nil => simp [minMaxLoop]
  | cons x xs ih =>
    unfold minMaxLoop
    have ha : (if x < a then x else a) ≤ a ∧ (if x < a then x else a) ≤ x ∧
        ((if x < a then x else a) = a ∨ (if x < a then x else a) = x) := by
      split <;> omega
    have hb : b ≤ (if x > b then x else b) ∧ x ≤ (if x > b then x else b) ∧
        ((if x > b then x else b) = b ∨ (if x > b then x else b) = x) := by
      split <;> omega
    generalize (if x < a then x else a) = a2 at ha ⊢
    generalize (if x > b then x else b) = b2 at hb ⊢
    obtain ⟨⟨h1, h2, h3⟩, ⟨h4, h5, h6⟩⟩ := ih a2 b2
    refine ⟨⟨by omega, ?_, ?_⟩, ⟨by omega, ?_, ?_⟩⟩
    · intro v hv
      rcases List.mem_cons.mp hv with h | h
      · omega
      · exact h2 v h
    · rcases h3 with h | h
      · rcases ha.2.2 with h7 | h7
        · exact Or.inl (h.trans h7)
        · exact Or.inr (by rw [h, h7]; exact List.mem_cons_self _ _)
      · exact Or.inr (List.mem_cons_of_mem _ h)
    · intro v hv
      rcases List.mem_cons.mp hv with h | h
      · omega
      · exact h5 v h
    · rcases h6 with h | h
      · rcases hb.2.2 with h7 | h7
        · exact Or.inl (h.trans h7)
        · exact Or.inr (by rw [h, h7]; exact List.mem_cons_self _ _)
      · exact Or.inr (List.mem_cons_of_mem _ h)

theorem scaleSample_zero (t : ScalarType) : scaleSample t 0 = 0 := by
  cases t <;> rfl

theorem scaleSample_one (t : ScalarType) : scaleSample t 1 = 255 := by
  cases t <;> decide

theorem scalarType_cast_zero (t : ScalarType) : t.cast 0 = 0 := by
  cases t <;> decide

theorem scalarType_cast_one (t : ScalarType) : t.cast 1 = 1 := by
  cases t <;> decide

/-- The values `scaleArray2` writes for a narrow element type when the running
minimum `m` and maximum `M` differ and every sample lies between them: 255 for
the samples equal to `M`, and 0 for the others. -/
theorem scaleArray2Narrow_of_lt (t : ScalarType) (l : List Int)
    (hlt : (minMaxLoop l (t.numericLimitsMax, 0)).1 < (minMaxLoop l (t.numericLimitsMax, 0)).2) :
    scaleArray2Narrow t l =
      l.map (fun v => if v = (minMaxLoop l (t.numericLimitsMax, 0)).2 then 255 else 0) := by
  obtain ⟨⟨_, hmin, _⟩, ⟨_, hmax, _⟩⟩ := minMaxLoop_spec l t.numericLimitsMax 0
  unfold scaleArray2Narrow
  simp only
  rw [if_neg (by omega)]
  apply List.map_congr_left
  intro v hv
  have h1 := hmin v hv
  have h2 := hmax v hv
  by_cases h : v = (minMaxLoop l (t.numericLimitsMax, 0)).2
  · rw [if_pos h, h, Int.tdiv_self (by omega), scalarType_cast_one, scaleSample_one t]
  · rw [if_neg h, Int.tdiv_eq_zero_of_lt (by omega) (by omega), scalarType_cast_zero, scaleSample_zero t]

namespace ItkConvertArrayTo8BitImageAttributeMatrix

/-- C21: for every array of element type `uint8_t` or `uint16_t` (samples not
negative) that holds two distinct values, with `M` its maximum, `scaleArray2`
writes 255 at the positions of the samples equal to `M` and 0 at every other
position; every value written is 0 or 255. -/
theorem scaleArray2_unsigned_binary (wide : ScalarType → List Int → Nat → Int)
    (t : ScalarType) (inputArray : List Int) (x y M : Int)
    (ht : t = .uint8 ∨ t = .uint16)
    (hrange : ∀ v ∈ inputArray, 0 ≤ v)
    (hx : x ∈ inputArray) (hy : y ∈ inputArray) (hxy : x ≠ y)
    (hM : M ∈ inputArray) (hmax : ∀ v ∈ inputArray, v ≤ M) :
    scaleArray2 wide t inputArray = inputArray.map (fun v => if v = M then 255 else 0) ∧
    ∀ w ∈ scaleArray2 wide t inputArray, w = 0 ∨ w = 255 := by
  have hn : t.isNarrow = true := by
    rcases ht with h | h <;> rw [h] <;> rfl
  obtain ⟨⟨_, hlo, _⟩, ⟨h0, hhi, hor⟩⟩ := minMaxLoop_spec inputArray t.numericLimitsMax 0
  have hMeq : (minMaxLoop inputArray (t.numericLimitsMax, 0)).2 = M := by
    have h1 := hhi M hM
    rcases hor with h | h
    · have := hrange M hM
      omega
    · have := hmax _ h
      omega
  have hlt : (minMaxLoop inputArray (t.numericLimitsMax, 0)).1 <
      (minMaxLoop inputArray (t.numericLimitsMax, 0)).2 := by
    have h1 := hlo x hx
    have h2 := hlo y hy
    have h3 := hmax x hx
    have h4 := hmax y hy
    omega
  have heq : scaleArray2 wide t inputArray =
      inputArray.map (fun v => if v = M then 255 else 0) := by
    unfold scaleArray2
    rw [if_pos hn, scaleArray2Narrow_of_lt t inputArray hlt, hMeq]
  refine ⟨heq, ?_⟩
  intro w hw
  rw [heq] at hw
  obtain ⟨v, _, rfl⟩ := List.mem_map.mp hw
  by_cases h : v = M
  · exact Or.inr (if_pos h)
  · exact Or.inl (if_neg h)

theorem scaleArray2_unsigned_binary_witness :
    scaleArray2 demoWide .uint16 [10, 20, 3000, 30, 3000] = [0, 0, 255, 0, 255] :=
  (scaleArray2_unsigned_binary demoWide .uint16 [10, 20, 3000, 30, 3000] 10 20 3000
    (Or.inr rfl) (by decide) (by decide) (by decide) (by decide) (by decide) (by decide)).1

/-- C22: for every array of element type `int8_t` or `int16_t` whose samples are all
negative, the running maximum of `scaleArray2` stays at its initial value 0 and
`scaleArray2` writes 0 at every position. -/
theorem scaleArray2_negative_zero (wide : ScalarType → List Int → Nat → Int)
    (t : ScalarType) (inputArray : List Int)
    (ht : t = .int8 ∨ t = .int16)
    (hneg : ∀ v ∈ inputArray, v < 0) :
    (minMaxLoop inputArray (t.numericLimitsMax, 0)).2 = 0 ∧
    scaleArray2 wide t inputArray = inputArray.map (fun _ => 0) := by
  have hn : t.isNarrow = true := by
    rcases ht with h | h <;> rw [h] <;> rfl
  obtain ⟨⟨hle, hlo, hmin⟩, ⟨h0, hhi, hor⟩⟩ := minMaxLoop_spec inputArray t.numericLimitsMax 0
  have hmaxeq : (minMaxLoop inputArray (t.numericLimitsMax, 0)).2 = 0 := by
    rcases hor with h | h
    · exact h
    · have := hneg _ h
      omega
  refine ⟨hmaxeq, ?_⟩
  cases inputArray with
  | nil =>
    unfold scaleArray2 scaleArray2Narrow
    simp
  | cons a as =>
    have ha := hneg a (List.mem_cons_self _ _)
    have hla := hlo a (List.mem_cons_self _ _)
    have hlt : (minMaxLoop (a :: as) (t.numericLimitsMax, 0)).1 <
        (minMaxLoop (a :: as) (t.numericLimitsMax, 0)).2 := by
      omega
    unfold scaleArray2
    rw [if_pos hn, scaleArray2Narrow_of_lt t (a :: as) hlt, hmaxeq]
    apply List.map_congr_left
    intro v hv
    have := hneg v hv
    rw [if_neg (by omega)]

theorem scaleArray2_negative_zero_witness :
    scaleArray2 demoWide .int8 [-10, -20, -3] = [0, 0, 0] :=
  (scaleArray2_negative_zero demoWide .int8 [-10, -20, -3] (Or.inl rfl) (by decide)).2

end ItkConvertArrayTo8BitImageAttributeMatrix

/-! ## Lemmas on the rounds of `ItkConvertArrayTo8BitImageAttributeMatrix::execute` -/

theorem append_8bit_ne (n : String) : n ++ "8bit" ≠ n := by
  intro h
  have h2 := congrArg String.length h
  rw [String.length_append] at h2
  have h3 : "8bit".length = 4 := by decide
  omega

theorem append_8bit_ne_empty (n : String) : (n ++ "8bit" == "") = false := by
  apply beq_false_of_ne
  intro h
  have h2 := congrArg String.length h
  rw [String.length_append] at h2
  have h3 : "8bit".length = 4 := by decide
  have h4 : "".length = 0 := by decide
  omega

theorem writePrefix_length (out old : List Int) : (writePrefix out old).length = old.length := by
  unfold writePrefix
  simp only [List.length_take, List.length_append, List.length_drop]
  omega

theorem writePrefix_nil (old : List Int) : writePrefix [] old = old := by
  unfold writePrefix
  simp

theorem createNonPrereqArrayFromPath_fresh (codes : SimplCodes) (dca : DataContainerArray)
    (path : DataArrayPath) (mk : Nat → DataArray) (dc : DataContainer) (am : AttributeMatrix)
    (hv : path.isValid = true)
    (hdc : getDataContainer dca path.dataContainerName = some dc)
    (ham : dc.getAttributeMatrix path.attributeMatrixName = some am)
    (hnew : am.getAttributeArray path.dataArrayName = none) :
    createNonPrereqArrayFromPath codes dca path mk =
      .ok (modifyAttributeMatrix dca path.dataContainerName path.attributeMatrixName
        (fun m => { m with arrays := m.arrays ++ [(path.dataArrayName, mk am.numTuples)] })) := by
  unfold createNonPrereqArrayFromPath
  simp only [hv, Bool.not_true, Bool.false_eq_true, if_false, hdc, ham, hnew]
  congr 1
  apply modifyAttributeMatrix_congr _ _ _ _ _ dc am hdc ham
  rfl

theorem modifyArray_created (dca : DataContainerArray) (dcName amName name : String)
    (r : DataArray) (h : DataArray → DataArray) (dc : DataContainer) (am : AttributeMatrix)
    (hdc : getDataContainer dca dcName = some dc)
    (ham : dc.getAttributeMatrix amName = some am)
    (hnew : am.getAttributeArray name = none) :
    modifyArray
        (modifyAttributeMatrix dca dcName amName
          (fun m => { m with arrays := m.arrays ++ [(name, r)] }))
        ⟨dcName, amName, name⟩ h =
      modifyAttributeMatrix dca dcName amName
        (fun m => { m with arrays := m.arrays ++ [(name, h r)] }) := by
  have hfind := find?_eq_none_of_getAttributeArray am name hnew
  unfold modifyArray
  simp only
  have e := modifyAttributeMatrix_modifyAttributeMatrix dca dcName amName
    (fun m => { m with arrays := m.arrays ++ [(name, r)] })
    (fun m => { m with
      arrays := modifyFirst (fun a => a.1 == name) (fun a => (a.1, h a.2)) m.arrays })
    (fun _ => rfl)
  rw [e]
  apply modifyAttributeMatrix_congr _ _ _ _ _ dc am hdc ham
  simp only
  rw [modifyFirst_append_singleton _ _ _ _ hfind (by simp)]

namespace ItkConvertArrayTo8BitImageAttributeMatrix

/-- A round of the loop of `execute` for an array `name` that is stored, when no
array is stored under `name8bit`: the array is replaced by its conversion. -/
theorem convertStep_fresh (wide : ScalarType → List Int → Nat → Int) (codes : SimplCodes)
    (f : ItkConvertArrayTo8BitImageAttributeMatrix) (name : String)
    (store : DataContainerArray) (e : Int) (p : NewArrayPointer)
    (dc : DataContainer) (am : AttributeMatrix) (a : DataArray)
    (hv1 : (f.attributeMatrixName.dataContainerName == "") = false)
    (hv2 : (f.attributeMatrixName.attributeMatrixName == "") = false)
    (hdc : getDataContainer store f.attributeMatrixName.dataContainerName = some dc)
    (ham : dc.getAttributeMatrix f.attributeMatrixName.attributeMatrixName = some am)
    (harr : am.getAttributeArray name = some a)
    (hnew : am.getAttributeArray (name ++ "8bit") = none) :
    convertStep wide codes f name ⟨store, e, p⟩ =
      some ⟨modifyAttributeMatrix store f.attributeMatrixName.dataContainerName
          f.attributeMatrixName.attributeMatrixName
          (fun m => { m with
            arrays := m.arrays.filter (fun x => !(x.1 == name)) ++
              [(name, convertArray wide am.numTuples a)] }),
        e, .array name⟩ := by
  have hv : DataArrayPath.isValid ⟨f.attributeMatrixName.dataContainerName,
      f.attributeMatrixName.attributeMatrixName, name ++ "8bit"⟩ = true := by
    simp [DataArrayPath.isValid, hv1, hv2, append_8bit_ne_empty]
  have hcreate := createNonPrereqArrayFromPath_fresh codes store
    ⟨f.attributeMatrixName.dataContainerName, f.attributeMatrixName.attributeMatrixName,
      name ++ "8bit"⟩ (fun n => uint8Array [1] (List.replicate n 0)) dc am hv hdc ham hnew
  simp only at hcreate
  have hold : getArrayFromPath
      (modifyAttributeMatrix store f.attributeMatrixName.dataContainerName
        f.attributeMatrixName.attributeMatrixName
        (fun m => { m with arrays := m.arrays ++
          [(name ++ "8bit", uint8Array [1] (List.replicate am.numTuples 0))] }))
      ⟨f.attributeMatrixName.dataContainerName, f.attributeMatrixName.attributeMatrixName,
        name⟩ = some a := by
    have h := getArrayFromPath_modify store
      ⟨f.attributeMatrixName.dataContainerName, f.attributeMatrixName.attributeMatrixName, name⟩
      (fun m => { m with arrays := m.arrays ++
        [(name ++ "8bit", uint8Array [1] (List.replicate am.numTuples 0))] })
      dc am hdc ham (fun _ => rfl)
    simp only at h
    rw [h]
    exact getAttributeArray_append_old am _ _ _ _ harr
  have hcreated : getArrayFromPath
      (modifyAttributeMatrix store f.attributeMatrixName.dataContainerName
        f.attributeMatrixName.attributeMatrixName
        (fun m => { m with arrays := m.arrays ++
          [(name ++ "8bit", uint8Array [1] (List.replicate am.numTuples 0))] }))
      ⟨f.attributeMatrixName.dataContainerName, f.attributeMatrixName.attributeMatrixName,
        name ++ "8bit"⟩ = some (uint8Array [1] (List.replicate am.numTuples 0)) := by
    have h := getArrayFromPath_modify store
      ⟨f.attributeMatrixName.dataContainerName, f.attributeMatrixName.attributeMatrixName,
        name ++ "8bit"⟩
      (fun m => { m with arrays := m.arrays ++
        [(name ++ "8bit", uint8Array [1] (List.replicate am.numTuples 0))] })
      dc am hdc ham (fun _ => rfl)
    simp only at h
    rw [h]
    exact getAttributeArray_append_new am _ _ hnew
  have hrem := fun r => removeAndRename_created store
    ⟨f.attributeMatrixName.dataContainerName, f.attributeMatrixName.attributeMatrixName, name⟩
    (name ++ "8bit") a r dc am hdc ham harr hnew
  simp only at hrem
  have hp1 : (NewArrayPointer.array (name ++ "8bit") = NewArrayPointer.array name) = False := by
    apply eq_false
    intro h
    exact append_8bit_ne name (NewArrayPointer.array.inj h)
  unfold convertStep
  simp only [hcreate, hold]
  unfold convertArray
  rcases Option.eq_none_or_eq_some (ScalarType.ofTypeName a.getTypeAsString) with ht | ⟨t, ht⟩
  · simp only [ht, hrem, hp1, if_false, if_true]
  · simp only [ht]
    rcases hout : scaleArray2 wide t a.values with _ | ⟨o, os⟩
    · simp only [hrem, hp1, if_false, if_true, writePrefix_nil]
    · simp only [hcreated]
      rw [modifyArray_created store _ _ _ _ _ dc am hdc ham hnew]
      simp only [hrem, hp1, if_false, if_true]
      rfl

end ItkConvertArrayTo8BitImageAttributeMatrix

theorem modifyFirst_id {α : Type} (p : α → Bool) (l : List α) :
    modifyFirst p (fun x => x) l = l := by
  induction l with
  | nil => rfl
  | cons a as ih =>
    unfold modifyFirst
    split
    · rfl
    · rw [ih]

theorem modifyAttributeMatrix_self (dca : DataContainerArray) (dcName amName : String)
    (g : AttributeMatrix → AttributeMatrix) (dc : DataContainer) (am : AttributeMatrix)
    (hdc : getDataContainer dca dcName = some dc)
    (ham : dc.getAttributeMatrix amName = some am) (hg : g am = am) :
    modifyAttributeMatrix dca dcName amName g = dca := by
  rw [modifyAttributeMatrix_congr dca dcName amName g (fun m => m) dc am hdc ham hg]
  unfold modifyAttributeMatrix
  have h : (fun (c : DataContainer) => { c with
      attributeMatrices := modifyFirst (fun m => m.name == amName) (fun m => m)
        c.attributeMatrices }) = fun c => c := by
    funext c
    rw [modifyFirst_id]
  rw [h, modifyFirst_id]

theorem find?_map_snd (l : List (String × DataArray)) (h : DataArray → DataArray) (n : String) :
    (l.map (fun x => (x.1, h x.2))).find? (fun x => x.1 == n) =
      (l.find? (fun x => x.1 == n)).map (fun x => (x.1, h x.2)) := by
  induction l with
  | nil => rfl
  | cons a as ih =>
    simp only [List.map_cons, List.find?_cons]
    cases hn : a.1 == n
    · simp only [ih]
    · rfl

theorem filter_ne_of_nodup (n : String) (a : DataArray) (l : List (String × DataArray))
    (h : (((n, a) :: l).map Prod.fst).Nodup) :
    ((n, a) :: l).filter (fun x => !(x.1 == n)) = l := by
  simp only [List.map_cons, List.nodup_cons] at h
  have h1 : ∀ x ∈ l, (!(x.1 == n)) = true := by
    intro x hx
    have : x.1 ≠ n := fun heq => h.1 (heq ▸ List.mem_map_of_mem Prod.fst hx)
    simp [this]
  simp [List.filter_cons, List.filter_eq_self.mpr h1]

namespace ItkConvertArrayTo8BitImageAttributeMatrix

/-- The loop of `execute` on an attribute matrix that holds the arrays `R` still to
process, followed by the arrays `D` already converted: every array of `R` is
converted in turn and moves behind `D`. -/
theorem convertLoop_fresh (wide : ScalarType → List Int → Nat → Int) (codes : SimplCodes)
    (f : ItkConvertArrayTo8BitImageAttributeMatrix) (dca : DataContainerArray)
    (dc : DataContainer) (am : AttributeMatrix)
    (hdc : getDataContainer dca f.attributeMatrixName.dataContainerName = some dc)
    (ham : dc.getAttributeMatrix f.attributeMatrixName.attributeMatrixName = some am)
    (R D : List (String × DataArray)) (e : Int) (p : NewArrayPointer)
    (hvalid : R ≠ [] → (f.attributeMatrixName.dataContainerName == "") = false ∧
      (f.attributeMatrixName.attributeMatrixName == "") = false)
    (hnodup : ((R ++ D).map Prod.fst).Nodup)
    (hfresh : ∀ x ∈ R, ∀ y ∈ R ++ D, y.1 ≠ x.1 ++ "8bit") :
    ∃ p2, convertLoop wide codes f (R.map Prod.fst)
        ⟨modifyAttributeMatrix dca f.attributeMatrixName.dataContainerName
          f.attributeMatrixName.attributeMatrixName (fun m => { m with arrays := R ++ D }),
          e, p⟩ =
      some ⟨modifyAttributeMatrix dca f.attributeMatrixName.dataContainerName
          f.attributeMatrixName.attributeMatrixName
          (fun m => { m with
            arrays := D ++ R.map (fun x => (x.1, convertArray wide am.numTuples x.2)) }),
        e, p2⟩ := by
  induction R generalizing D p with
  | nil =>
    refine ⟨p, ?_⟩
    simp [convertLoop]
  | cons x R ih =>
    obtain ⟨n, a⟩ := x
    obtain ⟨hv1, hv2⟩ := hvalid (List.cons_ne_nil _ _)
    simp only [List.cons_append] at hnodup hfresh ⊢
    have hdc2 := getDataContainer_modifyAttributeMatrix dca
      f.attributeMatrixName.dataContainerName f.attributeMatrixName.attributeMatrixName
      (fun m => { m with arrays := (n, a) :: (R ++ D) })
    rw [hdc] at hdc2
    simp only [Option.map_some'] at hdc2
    have ham2 := getAttributeMatrix_modifyFirst dc f.attributeMatrixName.attributeMatrixName
      (fun m => { m with arrays := (n, a) :: (R ++ D) }) (fun _ => rfl)
    rw [ham] at ham2
    simp only [Option.map_some'] at ham2
    have harr : AttributeMatrix.getAttributeArray
        { am with arrays := (n, a) :: (R ++ D) } n = some a := by
      simp [AttributeMatrix.getAttributeArray, List.find?_cons]
    have hnew : AttributeMatrix.getAttributeArray
        { am with arrays := (n, a) :: (R ++ D) } (n ++ "8bit") = none := by
      unfold AttributeMatrix.getAttributeArray
      have : ((n, a) :: (R ++ D)).find? (fun x => x.1 == n ++ "8bit") = none := by
        apply List.find?_eq_none.mpr
        intro y hy
        have := hfresh (n, a) (List.mem_cons_self _ _) y hy
        simpa using this
      simp only [this, Option.map_none']
    have hstep := convertStep_fresh wide codes f n _ e p _ _ a hv1 hv2 hdc2 ham2 harr hnew
    simp only at hstep
    have hcomp := modifyAttributeMatrix_modifyAttributeMatrix dca
      f.attributeMatrixName.dataContainerName f.attributeMatrixName.attributeMatrixName
      (fun m => { m with arrays := (n, a) :: (R ++ D) })
      (fun m => { m with
        arrays := m.arrays.filter (fun x => !(x.1 == n)) ++
          [(n, convertArray wide am.numTuples a)] })
      (fun _ => rfl)
    simp only at hcomp
    have hfilter : ((n, a) :: (R ++ D)).filter (fun x => !(x.1 == n)) = R ++ D :=
      filter_ne_of_nodup n a (R ++ D) hnodup
    have hnodup2 : ((R ++ (D ++ [(n, convertArray wide am.numTuples a)])).map Prod.fst).Nodup := by
      have hperm : List.Perm ((R ++ (D ++ [(n, convertArray wide am.numTuples a)])).map Prod.fst)
          ((((n, a) :: R) ++ D).map Prod.fst) := by
        simp only [List.map_append, List.map_cons, List.map_nil, List.cons_append]
        rw [← List.append_assoc]
        exact List.perm_append_singleton n _
      exact hperm.nodup_iff.mpr hnodup
    have hfresh2 : ∀ x ∈ R, ∀ y ∈ R ++ (D ++ [(n, convertArray wide am.numTuples a)]),
        y.1 ≠ x.1 ++ "8bit" := by
      intro x hx y hy
      rw [← List.append_assoc] at hy
      rcases List.mem_append.mp hy with h | h
      · exact hfresh x (List.mem_cons_of_mem _ hx) y (List.mem_cons_of_mem _ h)
      · simp only [List.mem_singleton] at h
        rw [h]
        exact hfresh x (List.mem_cons_of_mem _ hx) (n, a) (List.mem_cons_self _ _)
    obtain ⟨p2, hloop⟩ := ih (D ++ [(n, convertArray wide am.numTuples a)]) (.array n)
      (fun _ => ⟨hv1, hv2⟩) hnodup2 hfresh2
    refine ⟨p2, ?_⟩
    simp only [List.map_cons, convertLoop] at hstep ⊢
    rw [hstep, hcomp, hfilter]
    simp only [List.append_assoc] at hloop ⊢
    rw [hloop]
    simp

end ItkConvertArrayTo8BitImageAttributeMatrix

/-! ## Claim C23: the run of `ItkConvertArrayTo8BitImageAttributeMatrix::execute` -/

namespace ItkConvertArrayTo8BitImageAttributeMatrix

theorem checkArrays_neg (codes : SimplCodes) (f : ItkConvertArrayTo8BitImageAttributeMatrix)
    (dca : DataContainerArray) (names : List String) (e : Int) (m : List (Int × String))
    (h : checkArrays codes f dca names = some (e, m)) : e < 0 := by
  induction names with
  | nil => simp [checkArrays] at h
  | cons n ns ih =>
    unfold checkArrays at h
    split at h
    · rename_i e2 he
      simp only [Option.some.injEq, Prod.mk.injEq] at h
      rw [← h.1]
      unfold getPrereqIDataArrayFromPath at he
      repeat' split at he
      all_goals first
        | (cases he; exact codes.code_neg _)
        | cases he
    · split at h
      · simp only [Option.some.injEq, Prod.mk.injEq] at h
        rw [← h.1]
        decide
      · exact ih h

theorem checkArrays_valid (codes : SimplCodes) (f : ItkConvertArrayTo8BitImageAttributeMatrix)
    (dca : DataContainerArray) (n : String) (ns : List String)
    (h : checkArrays codes f dca (n :: ns) = none) :
    (f.attributeMatrixName.dataContainerName == "") = false ∧
    (f.attributeMatrixName.attributeMatrixName == "") = false := by
  unfold checkArrays at h
  split at h
  · cases h
  · rename_i a ha
    unfold getPrereqIDataArrayFromPath at ha
    split at ha
    · cases ha
    · rename_i hv
      simp only [DataArrayPath.isValid, Bool.not_eq_true, Bool.not_eq_false,
        Bool.and_eq_true, Bool.not_eq_true'] at hv
      exact ⟨hv.1.1, hv.1.2⟩

/-- What a passed `dataCheck` has found. -/
theorem convert_dataCheck_passed (codes : SimplCodes)
    (f : ItkConvertArrayTo8BitImageAttributeMatrix) (dca : DataContainerArray)
    (h : ¬ (f.dataCheck codes dca).1 < 0) :
    ∃ dc am,
      getDataContainer dca f.attributeMatrixName.dataContainerName = some dc ∧
      dc.getAttributeMatrix f.attributeMatrixName.attributeMatrixName = some am ∧
      getAttributeMatrixFromPath dca f.attributeMatrixName = some am ∧
      f.dataCheck codes dca = (0, []) ∧
      (am.arrays ≠ [] → (f.attributeMatrixName.dataContainerName == "") = false ∧
        (f.attributeMatrixName.attributeMatrixName == "") = false) := by
  unfold dataCheck at h ⊢
  rcases Option.eq_none_or_eq_some (getAttributeMatrixFromPath dca f.attributeMatrixName)
    with ham0 | ⟨am, ham0⟩
  · rw [ham0] at h
    simp only at h
    exact absurd (by show (-76000 : Int) < 0; decide) h
  · rw [ham0] at h ⊢
    simp only at h ⊢
    have hlook := ham0
    unfold getAttributeMatrixFromPath at hlook
    rcases Option.eq_none_or_eq_some
      (getDataContainer dca f.attributeMatrixName.dataContainerName) with hdc | ⟨dc, hdc⟩
    · rw [hdc] at hlook
      cases hlook
    · rw [hdc] at hlook
      simp only at hlook
      rcases Option.eq_none_or_eq_some
        (checkArrays codes f dca am.getAttributeArrayNames) with hc | ⟨⟨e, m⟩, hc⟩
      · rw [hc] at h ⊢
        simp only [hdc] at h ⊢
        rcases hg : dc.getPrereqImageGeometry codes with e | dims
        · rw [hg] at h
          exact absurd (getPrereqImageGeometry_error codes dc e hg) h
        · refine ⟨dc, am, rfl, hlook, rfl, rfl, ?_⟩
          intro hne
          rcases harr : am.arrays with _ | ⟨x, xs⟩
          · exact absurd harr hne
          · have hnames : am.getAttributeArrayNames = x.1 :: xs.map Prod.fst := by
              simp [AttributeMatrix.getAttributeArrayNames, harr]
            rw [hnames] at hc
            exact checkArrays_valid codes f dca _ _ hc
      · rw [hc] at h
        exact absurd (checkArrays_neg codes f dca _ e m hc) h

/-- On an attribute matrix that passes `dataCheck` and in which no array is named
as another array followed by `8bit`, `execute` returns without error, leaves
the array names as they were and replaces every array by a `uint8_t` array of
its tuple count, which is 0 at every position when the element type of the
array is not one of the ten that `execute` tests. -/
theorem execute_converts_every_array (wide : ScalarType → List Int → Nat → Int)
    (codes : SimplCodes) (f : ItkConvertArrayTo8BitImageAttributeMatrix)
    (dca : DataContainerArray) (am : AttributeMatrix)
    (ham : getAttributeMatrixFromPath dca f.attributeMatrixName = some am)
    (hpass : ¬ (f.dataCheck codes dca).1 < 0)
    (hcons : TuplesConsistent dca)
    (hnodup : am.getAttributeArrayNames.Nodup)
    (hfresh : ∀ n ∈ am.getAttributeArrayNames, n ++ "8bit" ∉ am.getAttributeArrayNames) :
    ∃ s, f.execute wide codes dca = some s ∧ s.errorCondition = 0 ∧
      arrayNamesAt s.store f.attributeMatrixName.dataContainerName
        f.attributeMatrixName.attributeMatrixName = am.getAttributeArrayNames ∧
      ∀ n a, am.getAttributeArray n = some a →
        ∃ out,
          getArrayFromPath s.store ⟨f.attributeMatrixName.dataContainerName,
            f.attributeMatrixName.attributeMatrixName, n⟩ = some (uint8Array [1] out) ∧
          out.length = a.getNumberOfTuples ∧
          (ScalarType.ofTypeName a.getTypeAsString = none →
            out = List.replicate a.getNumberOfTuples 0) := by
  obtain ⟨dc, am2, hdc, ham2, ham3, hcheck, hvalid⟩ := convert_dataCheck_passed codes f dca hpass
  rw [ham] at ham3
  cases ham3
  have hstart : modifyAttributeMatrix dca f.attributeMatrixName.dataContainerName
      f.attributeMatrixName.attributeMatrixName (fun m => { m with arrays := am.arrays ++ [] }) =
      dca := by
    apply modifyAttributeMatrix_self dca _ _ _ dc am hdc ham2
    simp
  obtain ⟨p2, hloop⟩ := convertLoop_fresh wide codes f dca dc am hdc ham2 am.arrays [] 0 .null
    hvalid (by simpa [AttributeMatrix.getAttributeArrayNames] using hnodup)
    (by
      intro x hx y hy heq
      simp only [List.append_nil] at hy
      exact hfresh x.1 (List.mem_map_of_mem Prod.fst hx)
        (heq ▸ List.mem_map_of_mem Prod.fst hy))
  rw [hstart] at hloop
  simp only [List.nil_append] at hloop
  have hexec : f.execute wide codes dca =
      some { errorCondition := 0, warningCondition := 0,
             store := modifyAttributeMatrix dca f.attributeMatrixName.dataContainerName
               f.attributeMatrixName.attributeMatrixName
               (fun m => { m with
                 arrays := am.arrays.map (fun x => (x.1, convertArray wide am.numTuples x.2)) }),
             errorMessages := [], statusMessages := ["Complete"], trace := [] } := by
    unfold execute
    simp only [hcheck, lt_self_iff_false, if_false, ham]
    have hnames : am.getAttributeArrayNames = am.arrays.map Prod.fst := rfl
    rw [hnames, hloop]
  refine ⟨_, hexec, rfl, ?_, ?_⟩
  · simp only
    rw [arrayNamesAt_modifyAttributeMatrix dca _ _ _ dc am hdc ham2]
    · simp [AttributeMatrix.getAttributeArrayNames, List.map_map, Function.comp]
    · intro _
      rfl
  · intro n a harr
    have hn : a.getNumberOfTuples = am.numTuples :=
      getNumberOfTuples_of_consistent dca hcons _ _ _ dc am _ hdc ham2 harr
    have hget : getArrayFromPath
        (modifyAttributeMatrix dca f.attributeMatrixName.dataContainerName
          f.attributeMatrixName.attributeMatrixName
          (fun m => { m with
            arrays := am.arrays.map (fun x => (x.1, convertArray wide am.numTuples x.2)) }))
        ⟨f.attributeMatrixName.dataContainerName, f.attributeMatrixName.attributeMatrixName, n⟩ =
        some (convertArray wide am.numTuples a) := by
      have h := getArrayFromPath_modify dca
        ⟨f.attributeMatrixName.dataContainerName, f.attributeMatrixName.attributeMatrixName, n⟩
        (fun m => { m with
          arrays := am.arrays.map (fun x => (x.1, convertArray wide am.numTuples x.2)) })
        dc am hdc ham2 (fun _ => rfl)
      simp only at h
      rw [h]
      unfold AttributeMatrix.getAttributeArray at harr ⊢
      simp only
      rw [find?_map_snd am.arrays (convertArray wide am.numTuples) n]
      rcases Option.eq_none_or_eq_some (am.arrays.find? (fun x => x.1 == n)) with hf | ⟨y, hf⟩
      · rw [hf] at harr
        cases harr
      · rw [hf] at harr ⊢
        simp only [Option.map_some', Option.some.injEq] at harr ⊢
        rw [harr]
    simp only
    rw [hget, hn]
    unfold convertArray
    rcases Option.eq_none_or_eq_some (ScalarType.ofTypeName a.getTypeAsString) with ht | ⟨t, ht⟩
    · simp only [ht]
      exact ⟨_, rfl, List.length_replicate _ _, fun _ => rfl⟩
    · simp only [ht]
      refine ⟨_, rfl, ?_, ?_⟩
      · rw [writePrefix_length, List.length_replicate]
      · intro h
        cases h

/-- C23 (the code at the failing input): an attribute matrix with the two
`uint8_t` arrays `A` and `A8bit` passes `dataCheck`, and `execute` does not return: the
array `A8bit` cannot be created for `A`, `m_NewArray` stays null, and `scaleArray2` writes
through it. -/
theorem execute_name_collision :
    dataCheck demoCodes convertFilter
      (arraysStore [("A", uint8Array [1] [1, 2, 3, 3]), ("A8bit", uint8Array [1] [0, 0, 0, 0])]) =
      (0, []) ∧
    execute demoWide demoCodes convertFilter
      (arraysStore [("A", uint8Array [1] [1, 2, 3, 3]), ("A8bit", uint8Array [1] [0, 0, 0, 0])]) =
      none ∧
    execute demoWide demoCodes convertFilter
      (arraysStore [("A", .bool [1] [true, false, true, true]),
        ("A8bit", uint8Array [1] [0, 0, 0, 0])]) = none := by
  decide

theorem execute_converts_every_array_demo :
    (execute demoWide demoCodes convertFilter
        (arraysStore [("A", uint8Array [1] [1, 2, 3, 3]),
          ("B", .bool [1] [true, false, true, true])])).map
        (fun s => (s.errorCondition, s.store)) =
      some (0, arraysStore [("A", uint8Array [1] [0, 0, 255, 255]),
        ("B", uint8Array [1] [0, 0, 0, 0])]) := by
  decide

end ItkConvertArrayTo8BitImageAttributeMatrix

end ImageProcessing
